import Mathlib

/-!
PTP clock and AVTP timestamp capture engine of the Renesas Ethernet AVB driver.

Shallow embedding of `drivers/net/ethernet/renesas/ravb_ptp.c`: the capture
engine (`ravb_mediats_open`, `ravb_mediats_close`, `ravb_avtp_capture_int`,
`ravb_mediats_get`, `ravb_mediats_flush`), the clock operations
(`ravb_ptp_update_compare`, `ravb_ptp_adjfreq`, `ravb_ptp_extts`,
`ravb_ptp_perout`, `ravb_ptp_tcr_request`, `ravb_ptp_time_read`,
`ravb_ptp_time_read_xts`, `ravb_ptp_time_write`, `ravb_ptp_adjtime`) and the
interrupt handler (`ravb_ptp_interrupt`), and theorems about them.

Conventions of the embedding.

* `unsigned` and `u32` values are natural numbers; every C operation that can
  leave the 32-bit range is followed by an explicit `% 4294967296`.
* The driver state `ravb_private` is passed explicitly.  Every critical
  section of the driver runs under `priv->lock`, so each function below is one
  atomic step.
* A context lives on the heap in C and is linked into the list of its capture
  unit.  Here the list of a unit holds the context records themselves, in
  list order, and the address of a record (the handle handed to the caller)
  is the field `addr`.
* Register reads are inputs of the functions, register writes are appended to
  the log `io` of the state.
* The array `timestamps` is a list with one entry per allocated slot.  An
  access outside the allocation is undefined in C; here such a write is
  dropped and such a read gives 0.  Statements about the contents of a ring
  assume a buffer of `ring_size` slots.
* `NUM_AVTP_CAPTURE` is defined in `ravb.h`, which is not among the sources:
  it is a parameter of the functions that use it.
* The clock operations act on `net_device`, which joins the state of the
  capture engine (with the interrupt mask and the log of register writes) and
  the clock data `priv->ptp`.  Signed 64-bit and 32-bit values are integers;
  their conversion to `u64` is an explicit `% 18446744073709551616`.
* The results of `ravb_wait` and of `ktime_get` are inputs of the functions
  that call them.  The helpers of `linux/ktime.h` and `ns_to_timespec64` are
  not among the sources; they are the conversions their names say, with the
  saturation of `ktime_set` at `KTIME_MAX`.
-/

namespace Ravb

/-! ## Constants -/

/-- Value of `EIO` in `errno-base.h`. -/
def EIO_errno : Int := 5

/-- Value of `EAGAIN` in `errno-base.h`. -/
def EAGAIN_errno : Int := 11

/-- Value of `EINVAL` in `errno-base.h`. -/
def EINVAL_errno : Int := 22

/-- Value of `ERESTARTSYS` in `linux/errno.h`. -/
def ERESTARTSYS_errno : Int := 512

/-- Modelled from the spec: `ravb.h` is not among the sources.  `GIS_ATCF0` is
the flag of capture unit 0 in the status register `GIS`.  The interrupt handler
tests `gis & 0xffff0000` as "any ATCFi bit", which places the flags of the
capture units in bits 16 to 31, unit 0 first. -/
def GIS_ATCF0 : Nat := 0x00010000

/-- Modelled from the spec: `ravb.h` is not among the sources.  Reserved bits
15..10 of `GIS`, which the driver never clears. -/
def GIS_RESERVED : Nat := 0x0000FC00

/-- Modelled from the spec: `ravb.h` is not among the sources.  Bit of capture
unit 0 in the interrupt enable-set register `GIE`; it has the position of the
unit's flag in `GIS`. -/
def GIE_ATCS0 : Nat := 0x00010000

/-- Modelled from the spec: `ravb.h` is not among the sources.  Bit of capture
unit 0 in the interrupt disable register `GID`; it has the position of the
unit's flag in `GIS`. -/
def GID_ATCD0 : Nat := 0x00010000

/-- Registers of the gPTP block that `ravb_ptp.c` reads or writes. -/
inductive Reg where
  | GCCR | GTI | GCT0 | GCT1 | GCT2 | GTO0 | GTO1 | GTO2 | GPTC | GCPT
  | GIC | GIS | GIE | GID | GACP
deriving DecidableEq, Repr

/-! ## Data model -/

/-- The C `struct ravb_avtp_capture`.  `addr` is the address of the object,
which is also the handle `&ret->ctx` given to the caller (`ctx` is the first
member).  `timestamps` is the flexible array at the end of the allocation. -/
structure ravb_avtp_capture where
  addr : Nat
  ring_size : Nat
  read_pos : Nat
  write_pos : Nat
  overruns : Nat
  capture_unit : Nat
  prescaler : Nat
  timestamps : List Nat
deriving DecidableEq, Repr

/-- The part of `struct ravb_private` and of the device that the capture engine
uses.  `avtp_capture` is the array of list heads, one list per capture unit.
`gic` is the interrupt enable mask of the device, `io` the log of the
register writes, oldest first. -/
structure ravb_private where
  avtp_capture : List (List ravb_avtp_capture)
  gic : Nat
  io : List (Reg × Nat)
deriving DecidableEq, Repr

/-- Modelled from the spec: the register transport `ravb_write` and the device
behind it are external.  The write is logged.  A write to `GIE` unmasks the
interrupts whose bits are set in the value, a write to `GID` masks them, a
write to `GIC` replaces the mask. -/
def ravb_write (priv : ravb_private) (data : Nat) (reg : Reg) : ravb_private :=
  { priv with
    io := priv.io ++ [(reg, data)]
    gic := match reg with
      | Reg.GIE => priv.gic ||| data
      | Reg.GID => priv.gic &&& (0xFFFFFFFF ^^^ data)
      | Reg.GIC => data
      | _ => priv.gic }

/-- Modelled from the spec: the capture interrupt of a unit is unmasked when
the unit's bit of the enable mask is set. -/
def avtp_irq_unmasked (priv : ravb_private) (capture_unit : Nat) : Bool :=
  priv.gic.testBit (16 + capture_unit)

/-- The capture part of the state after `ravb_ptp_init`: `INIT_LIST_HEAD` on
every unit.  The function writes no capture register; `gic` is the mask the
device has at that moment. -/
def ravb_ptp_init (NUM_AVTP_CAPTURE : Nat) (gic : Nat) : ravb_private :=
  { avtp_capture := List.replicate NUM_AVTP_CAPTURE [], gic := gic, io := [] }

/-! ## The capture interrupt -/

/-- The C function `ravb_avtp_capture_gis_bit`. -/
def ravb_avtp_capture_gis_bit (capture_unit : Nat) : Nat :=
  (GIS_ATCF0 <<< capture_unit) % 4294967296

/-- Body of the `list_for_each_entry` loop of `ravb_avtp_capture_int` for one
subscriber `unit`: a capture event on that context.  The second component is
the contribution to `wake`.  (For `ring_size = 0` the C remainder is undefined;
here `x % 0 = x`.) -/
def ravb_avtp_capture_int_unit (unit : ravb_avtp_capture) (timestamp : Nat) :
    ravb_avtp_capture × Bool :=
  if (unit.write_pos + 1) % 4294967296 % unit.ring_size = unit.read_pos then
    ({ unit with overruns := (unit.overruns + 1) % 4294967296 }, false)
  else
    ({ unit with
        timestamps := unit.timestamps.set unit.write_pos timestamp
        write_pos := (unit.write_pos + 1) % 4294967296 % unit.ring_size }, true)

/-- One iteration of the outer loop of `ravb_avtp_capture_int`, for
`capture_unit`.  `gcat capture_unit` is the value read from
`GCAT0 + capture_unit * 4`. -/
def ravb_avtp_capture_int_step (gis : Nat) (gcat : Nat → Nat)
    (acc : ravb_private × Bool) (capture_unit : Nat) : ravb_private × Bool :=
  if gis &&& ravb_avtp_capture_gis_bit capture_unit ≠ 0 then
    let timestamp := gcat capture_unit
    let l := acc.1.avtp_capture.getD capture_unit []
    if l.isEmpty then acc
    else
      ({ acc.1 with
          avtp_capture := acc.1.avtp_capture.set capture_unit
            (l.map fun unit => (ravb_avtp_capture_int_unit unit timestamp).1) },
        acc.2 || l.any fun unit => (ravb_avtp_capture_int_unit unit timestamp).2)
  else acc

/-- The C function `ravb_avtp_capture_int`.  The result is the new state and
the flag `wake` (whether `wake_up_all` is called). -/
def ravb_avtp_capture_int (NUM_AVTP_CAPTURE : Nat) (priv : ravb_private) (gis : Nat)
    (gcat : Nat → Nat) : ravb_private × Bool :=
  (List.range NUM_AVTP_CAPTURE).foldl (ravb_avtp_capture_int_step gis gcat) (priv, false)

/-! ## Consumer operations on one context -/

/-- Lines 573-579 of `ravb_mediats_get`: what the function does once the ring is
known not to be empty, or once the wait has ended with `err`. -/
def ravb_mediats_get_tail (ctx : ravb_avtp_capture) (err : Int) :
    ravb_avtp_capture × Int × Option Nat :=
  if err ≠ 0 then (ctx, err, none)
  else
    ({ ctx with read_pos := (ctx.read_pos + 1) % 4294967296 % ctx.ring_size }, 0,
      some (ctx.timestamps.getD ctx.read_pos 0))

/-- The C function `ravb_mediats_get` on the context behind the handle.
`avtp` tells whether the out pointer is non-NULL, `wait` is the blocking flag.
`sleep` stands for `wait_event_lock_irq` / `wait_event_interruptible_lock_irq`:
given the context at the moment the caller releases the lock and sleeps, it
yields the context at the moment the caller holds the lock again, and whether
the wait was cancelled (`kthread_should_stop` or a signal).  The result is the
context, the return value, and the value stored through `avtp`. -/
def ravb_mediats_get (avtp : Bool) (ctx : ravb_avtp_capture) (wait : Bool)
    (sleep : ravb_avtp_capture → ravb_avtp_capture × Bool) :
    ravb_avtp_capture × Int × Option Nat :=
  if !avtp then (ctx, -EINVAL_errno, none)
  else if ctx.overruns > 0 then ({ ctx with overruns := 0 }, -EIO_errno, none)
  else if ctx.read_pos = ctx.write_pos then
    if !wait then (ctx, -EAGAIN_errno, none)
    else
      let woken := sleep ctx
      ravb_mediats_get_tail woken.1 (if woken.2 then -ERESTARTSYS_errno else 0)
  else ravb_mediats_get_tail ctx 0

/-- The C function `ravb_mediats_flush` on the context behind the handle. -/
def ravb_mediats_flush (ctx : ravb_avtp_capture) : ravb_avtp_capture × Int :=
  ({ ctx with overruns := 0, read_pos := ctx.write_pos }, 0)

/-! ## Opening and closing a context -/

/-- The C function `ravb_mediats_open`.  `kvzalloc` is the result of the
allocation (`none` for NULL, otherwise the address of the new object),
`gis_read` the value that `ravb_read(ndev, GIS)` returns if it is reached.
`prescaler` is the `u8` argument.  The result is the new state and the handle
(`none` for NULL).  The array of the new object has the number of 32-bit slots
that fit in the `4 * ring_size` bytes requested for it, a product computed in
`unsigned`.  The read of `GCAT0 + capture_unit * 4` that drains a stale capture
has no effect on the state. -/
def ravb_mediats_open (NUM_AVTP_CAPTURE : Nat) (priv : ravb_private) (kvzalloc : Option Nat)
    (gis_read : Nat) (capture_unit prescaler ring_size : Nat) : ravb_private × Option Nat :=
  if capture_unit ≥ NUM_AVTP_CAPTURE ∨ prescaler = 0 then (priv, none)
  else
    match kvzalloc with
    | none => (priv, none)
    | some p =>
      let ret : ravb_avtp_capture :=
        { addr := p
          ring_size := ring_size
          read_pos := 0
          write_pos := 0
          overruns := 0
          capture_unit := capture_unit % 256
          prescaler := prescaler
          timestamps := List.replicate (4 * ring_size % 4294967296 / 4) 0 }
      let l := priv.avtp_capture.getD capture_unit []
      if l.any (fun it => it.prescaler != prescaler) then (priv, none)
      else
        let priv1 :=
          if l.isEmpty then
            let p1 := ravb_write priv
              ((capture_unit <<< 8) % 4294967296 ||| (prescaler - 1)) Reg.GACP
            let p2 :=
              if gis_read &&& ravb_avtp_capture_gis_bit capture_unit ≠ 0 then
                ravb_write p1
                  (0xFFFFFFFF ^^^ (ravb_avtp_capture_gis_bit capture_unit ||| GIS_RESERVED))
                  Reg.GIS
              else p1
            ravb_write p2 ((GIE_ATCS0 <<< capture_unit) % 4294967296) Reg.GIE
          else priv
        ({ priv1 with avtp_capture := priv1.avtp_capture.set capture_unit (ret :: l) },
          some p)

/-- Search of the object at address `mctx` in the lists `ls` of the units
`capture_unit`, `capture_unit + 1`, ...: the C `container_of` on a handle.  The
result is the unit in whose list the object is linked, and the object. -/
def find_ctx_from (ls : List (List ravb_avtp_capture)) (capture_unit : Nat) (mctx : Nat) :
    Option (Nat × ravb_avtp_capture) :=
  match ls with
  | [] => none
  | l :: rest =>
    match l.find? (fun c => c.addr == mctx) with
    | some c => some (capture_unit, c)
    | none => find_ctx_from rest (capture_unit + 1) mctx

/-- The object behind the handle `mctx`, if the handle is open. -/
def find_ctx (priv : ravb_private) (mctx : Nat) : Option (Nat × ravb_avtp_capture) :=
  find_ctx_from priv.avtp_capture 0 mctx

/-- The C function `ravb_mediats_close`.  The result is `none` when `mctx` is
not an open handle (the C code would then use freed memory); otherwise the new
state and the return value.  `list_del` unlinks the object from the list it is
in; the emptiness test reads the list of `ctx->capture_unit`. -/
def ravb_mediats_close (priv : ravb_private) (mctx : Nat) : Option (ravb_private × Int) :=
  match find_ctx priv mctx with
  | none => none
  | some (u, ctx) =>
    let priv1 : ravb_private :=
      { priv with
        avtp_capture := priv.avtp_capture.set u
          ((priv.avtp_capture.getD u []).eraseP (fun c => c.addr == mctx)) }
    let priv2 :=
      if (priv1.avtp_capture.getD ctx.capture_unit []).isEmpty then
        ravb_write priv1 ((GID_ATCD0 <<< ctx.capture_unit) % 4294967296) Reg.GID
      else priv1
    some (priv2, 0)

/-- Call of an operation `f` of `ravb_mediats_ops` through the handle `mctx`:
the object behind the handle is replaced by the one `f` leaves.  The result is
`none` when the handle is not open. -/
def mediats_call {α : Type} (priv : ravb_private) (mctx : Nat)
    (f : ravb_avtp_capture → ravb_avtp_capture × α) : Option (ravb_private × α) :=
  match find_ctx priv mctx with
  | none => none
  | some (u, ctx) =>
    some ({ priv with
            avtp_capture := priv.avtp_capture.set u
              ((priv.avtp_capture.getD u []).map
                fun c => if c.addr == mctx then (f ctx).1 else c) },
          (f ctx).2)

/-! ## Traces of one context -/

/-- Number of timestamps a ring holds between `read_pos` and `write_pos`. -/
def ring_count (c : ravb_avtp_capture) : Nat :=
  (c.write_pos + c.ring_size - c.read_pos) % c.ring_size

/-- The context after the capture events `ts` (oldest first), with nothing else
in between. -/
def capture_events (c : ravb_avtp_capture) (ts : List Nat) : ravb_avtp_capture :=
  ts.foldl (fun c t => (ravb_avtp_capture_int_unit c t).1) c

/-- Cursors and buffer of a context as the data model has them: `ring_size` is
an `unsigned`, both cursors are below it, and the buffer holds `ring_size`
timestamps. -/
def ring_wf (c : ravb_avtp_capture) : Prop :=
  c.ring_size < 4294967296 ∧ c.read_pos < c.ring_size ∧ c.write_pos < c.ring_size ∧
    c.timestamps.length = c.ring_size

instance (c : ravb_avtp_capture) : Decidable (ring_wf c) := by
  unfold ring_wf; infer_instance

/-- The timestamps a ring holds between `read_pos` and `write_pos`, oldest
first. -/
def ring_pending (c : ravb_avtp_capture) : List Nat :=
  (List.range (ring_count c)).map fun i =>
    c.timestamps.getD ((c.read_pos + i) % c.ring_size) 0

/-- An operation on one context: a capture event with the captured timestamp,
or a call of `get` with a valid out pointer and `blocking = false`. -/
inductive ring_op where
  | capture (t : Nat)
  | get
deriving DecidableEq, Repr

/-- A call of `ravb_mediats_get` with a valid out pointer and `wait = false`
(the function then never sleeps). -/
def get_nonblocking (c : ravb_avtp_capture) : ravb_avtp_capture × Int × Option Nat :=
  ravb_mediats_get true c false (fun x => (x, false))

/-- Run of a sequence of operations on a context: the context at the end, and
the timestamps that the gets returning 0 delivered, in call order. -/
def ring_run (c : ravb_avtp_capture) : List ring_op → ravb_avtp_capture × List Nat
  | [] => (c, [])
  | ring_op.capture t :: ops => ring_run (ravb_avtp_capture_int_unit c t).1 ops
  | ring_op.get :: ops =>
    ((ring_run (get_nonblocking c).1 ops).1,
      (if (get_nonblocking c).2.1 = 0 then (get_nonblocking c).2.2.toList else []) ++
        (ring_run (get_nonblocking c).1 ops).2)

/-- The timestamps of the capture events of a sequence, in order. -/
def ring_captured : List ring_op → List Nat
  | [] => []
  | ring_op.capture t :: ops => t :: ring_captured ops
  | ring_op.get :: ops => ring_captured ops

/-- No capture event of the sequence finds the ring full: each one takes the
branch of the handler that stores the timestamp. -/
def ring_overrun_free (c : ravb_avtp_capture) : List ring_op → Bool
  | [] => true
  | ring_op.capture t :: ops =>
    (ravb_avtp_capture_int_unit c t).2 &&
      ring_overrun_free (ravb_avtp_capture_int_unit c t).1 ops
  | ring_op.get :: ops => ring_overrun_free (get_nonblocking c).1 ops

/-- A sequence of capture interrupts, oldest first; each is given by the
pending-event mask `gis` and the contents `gcat` of the capture registers. -/
def capture_ints (NUM_AVTP_CAPTURE : Nat) (priv : ravb_private) :
    List (Nat × (Nat → Nat)) → ravb_private
  | [] => priv
  | ev :: evs =>
    capture_ints NUM_AVTP_CAPTURE (ravb_avtp_capture_int NUM_AVTP_CAPTURE priv ev.1 ev.2).1 evs

/-- Results of `n` successive non-blocking gets through the handle `mctx`, with
nothing in between: for each call the return value and the timestamp
delivered.  The list ends early if the handle is not open. -/
def mediats_gets (priv : ravb_private) (mctx : Nat) : Nat → List (Int × Option Nat)
  | 0 => []
  | n + 1 =>
    match mediats_call priv mctx get_nonblocking with
    | none => []
    | some r => r.2 :: mediats_gets r.1 mctx n

/-- The object that a successful `ravb_mediats_open` links into the list of the
unit: `kvzalloc` zeroes it, then the five assignments of the function. -/
def open_ctx (p capture_unit prescaler ring_size : Nat) : ravb_avtp_capture :=
  { addr := p
    ring_size := ring_size
    read_pos := 0
    write_pos := 0
    overruns := 0
    capture_unit := capture_unit % 256
    prescaler := prescaler
    timestamps := List.replicate (4 * ring_size % 4294967296 / 4) 0 }

/-- The register writes of `ravb_mediats_open` for the first subscriber of a
unit: the mapping register, the acknowledge of a stale capture, the unmask. -/
def open_first_writes (priv : ravb_private) (gis_read capture_unit prescaler : Nat) :
    ravb_private :=
  ravb_write
    (if gis_read &&& ravb_avtp_capture_gis_bit capture_unit ≠ 0 then
      ravb_write
        (ravb_write priv ((capture_unit <<< 8) % 4294967296 ||| (prescaler - 1)) Reg.GACP)
        (0xFFFFFFFF ^^^ (ravb_avtp_capture_gis_bit capture_unit ||| GIS_RESERVED)) Reg.GIS
    else ravb_write priv ((capture_unit <<< 8) % 4294967296 ||| (prescaler - 1)) Reg.GACP)
    ((GIE_ATCS0 <<< capture_unit) % 4294967296) Reg.GIE

/-- Results of `n` successive non-blocking gets on a context, with nothing in
between: for each call the return value and the timestamp delivered. -/
def ring_gets (c : ravb_avtp_capture) : Nat → List (Int × Option Nat)
  | 0 => []
  | n + 1 => (get_nonblocking c).2 :: ring_gets (get_nonblocking c).1 n

/-- An atomic step on one context, as the lock serialises them: a capture
event; a call of `get` up to the point where it returns or goes to sleep; the
end of the sleep of a blocked `get` (cancelled or not); a call of `flush`. -/
inductive ring_event where
  | capture (t : Nat)
  | get (avtp : Bool) (wait : Bool)
  | wake (cancelled : Bool)
  | flush
deriving DecidableEq, Repr

/-- The context after one atomic step.  A `get` that goes to sleep leaves the
context as it is (this is what the function gives for a wait that changes
nothing and is cancelled); the rest of that call is a later `wake`.  The wait
macros return without cancellation only when `read_pos != write_pos` holds
under the lock: a `wake` that finds the ring empty leaves the caller asleep. -/
def ring_step (c : ravb_avtp_capture) : ring_event → ravb_avtp_capture
  | ring_event.capture t => (ravb_avtp_capture_int_unit c t).1
  | ring_event.get avtp wait => (ravb_mediats_get avtp c wait (fun x => (x, true))).1
  | ring_event.wake cancelled =>
    if cancelled then (ravb_mediats_get_tail c (-ERESTARTSYS_errno)).1
    else if c.read_pos ≠ c.write_pos then (ravb_mediats_get_tail c 0).1
    else c
  | ring_event.flush => (ravb_mediats_flush c).1

/-- The context after a sequence of atomic steps, oldest first. -/
def ring_steps (c : ravb_avtp_capture) (evs : List ring_event) : ravb_avtp_capture :=
  evs.foldl ring_step c

/-- A call of the open/close interface: `open` with the outcome of its
allocation, the value it reads from `GIS`, and its three arguments; or `close`
of a handle. -/
inductive unit_op where
  | open (kvzalloc : Option Nat) (gis_read capture_unit prescaler ring_size : Nat)
  | close (mctx : Nat)
deriving DecidableEq, Repr

/-- The state after a sequence of calls of `open` (successful or not) and
`close`, oldest first; `none` when some `close` is given a handle that is not
open at that moment. -/
def unit_run (NUM_AVTP_CAPTURE : Nat) (priv : ravb_private) : List unit_op → Option ravb_private
  | [] => some priv
  | unit_op.open kv g u p r :: ops =>
    unit_run NUM_AVTP_CAPTURE (ravb_mediats_open NUM_AVTP_CAPTURE priv kv g u p r).1 ops
  | unit_op.close mctx :: ops =>
    match ravb_mediats_close priv mctx with
    | none => none
    | some r => unit_run NUM_AVTP_CAPTURE r.1 ops

/-- Invariant of the capture units: the array has `NUM_AVTP_CAPTURE` lists,
every context is linked in the list of the unit its field names, and the
capture interrupt of a unit is unmasked exactly when its list is not empty. -/
def unit_inv (NUM_AVTP_CAPTURE : Nat) (priv : ravb_private) : Prop :=
  priv.avtp_capture.length = NUM_AVTP_CAPTURE ∧
  (∀ u, u < NUM_AVTP_CAPTURE → ∀ c ∈ priv.avtp_capture.getD u [], c.capture_unit = u) ∧
  (∀ u, u < NUM_AVTP_CAPTURE →
    (avtp_irq_unmasked priv u = true ↔ priv.avtp_capture.getD u [] ≠ []))

/-- The values written to the register `reg`, oldest first, in a log of
register writes. -/
def reg_writes (reg : Reg) (io : List (Reg × Nat)) : List Nat :=
  io.filterMap fun w => if w.1 = reg then some w.2 else none

/-! ## The PTP clock: constants and data model -/

/-- Value of `EBUSY` in `errno-base.h`. -/
def EBUSY_errno : Int := 16

/-- Value of `ERANGE` in `errno-base.h`. -/
def ERANGE_errno : Int := 34

/-- Value of `NSEC_PER_SEC` in `linux/time64.h`. -/
def NSEC_PER_SEC : Nat := 1000000000

/-- Value of `U32_MAX` in `linux/kernel.h`. -/
def U32_MAX : Nat := 4294967295

/-- Modelled from the spec: `ravb.h` is not among the sources.  Flag of the
control register `GCCR` that is set while a load of the time increment is
pending. -/
def GCCR_LTI : Nat := 0x00000008

/-- Modelled from the spec: `ravb.h` is not among the sources.  Flag of the
control register `GCCR` that is set while a load of the compare value is
pending. -/
def GCCR_LPTC : Nat := 0x00000010

/-- Modelled from the spec: `ravb.h` is not among the sources.  Field of the
time increment in the register `GTI`. -/
def GTI_TIV : Nat := 0x0FFFFFFF

/-- Modelled from the spec: `ravb.h` is not among the sources.  Bit of the
external-timestamp capture interrupt in `GIC`. -/
def GIC_PTCE : Nat := 0x00000001

/-- Modelled from the spec: `ravb.h` is not among the sources.  Bit of the
compare-match interrupt in `GIC`. -/
def GIC_PTME : Nat := 0x00000004

/-- Modelled from the spec: `ravb.h` is not among the sources.  Bit of the
external-timestamp capture interrupt in `GIE`. -/
def GIE_PTCS : Nat := 0x00000001

/-- Modelled from the spec: `ravb.h` is not among the sources.  Bit of the
compare-match interrupt in `GIE`. -/
def GIE_PTMS0 : Nat := 0x00000004

/-- Modelled from the spec: `ravb.h` is not among the sources.  Bit of the
external-timestamp capture interrupt in `GID`. -/
def GID_PTCD : Nat := 0x00000001

/-- Modelled from the spec: `ravb.h` is not among the sources.  Bit of the
compare-match interrupt in `GID`. -/
def GID_PTMD0 : Nat := 0x00000004

/-- Modelled from the spec: `ravb.h` is not among the sources.  Flag of the
external-timestamp capture in `GIS`. -/
def GIS_PTCF : Nat := 0x00000001

/-- Modelled from the spec: `ravb.h` is not among the sources.  Flag of the
compare match in `GIS`. -/
def GIS_PTMF : Nat := 0x00000004

/-- Modelled from the spec: `ravb.h` is not among the sources.  The chip
generations that `priv->chip_id` distinguishes: R-Car Gen2 masks interrupts
through `GIC`, the later generation through `GIE` and `GID`. -/
inductive ravb_chip_id where
  | RCAR_GEN2
  | RCAR_GEN3
deriving DecidableEq, Repr

/-- The C `struct ravb_ptp_perout`: two `u32`.  (The function of the same name
keeps the name.) -/
structure ravb_ptp_perout_t where
  target : Nat
  period : Nat
deriving DecidableEq, Repr

/-- The C `struct ravb_ptp` (`priv->ptp`), without the clock handle and the
operations table.  Modelled from the spec: the struct is declared in `ravb.h`,
which is not among the sources.  The arrays `extts` and `perout` are used at
index 0 only, so each is its slot 0; `extts` is the boolean `enabled` of the
data model. -/
structure ravb_ptp where
  default_addend : Nat
  current_addend : Nat
  extts : Bool
  perout : ravb_ptp_perout_t
deriving DecidableEq, Repr

/-- The network device with the driver's private data, as the clock operations
and the interrupt handler use it: the capture engine with the interrupt mask
and the log of register writes (`priv`), the clock data `priv->ptp`, and
`priv->chip_id`. -/
structure net_device where
  priv : ravb_private
  ptp : ravb_ptp
  chip_id : ravb_chip_id
deriving DecidableEq, Repr

/-- Modelled from the spec: the register transport `ravb_modify` is external.
`ravb_modify(ndev, reg, clear, set)` writes `(ravb_read(ndev, reg) & ~clear) |
set` to `reg`; `current` is the value the read returns. -/
def ravb_modify (priv : ravb_private) (current : Nat) (reg : Reg) (clear set : Nat) :
    ravb_private :=
  ravb_write priv ((current &&& (0xFFFFFFFF ^^^ clear)) ||| set) reg

/-- Modelled from the spec: the compare-match interrupt is unmasked when its
bit of the enable mask is set. -/
def ptm_irq_unmasked (priv : ravb_private) : Bool :=
  priv.gic.testBit 2

/-- The C `struct ptp_clock_time` of the PTP interface: `__s64 sec`,
`__u32 nsec`. -/
structure ptp_clock_time where
  sec : Int
  nsec : Nat
deriving DecidableEq, Repr

/-- The C `struct ptp_perout_request` of the PTP interface, without the
reserved words. -/
structure ptp_perout_request where
  start : ptp_clock_time
  period : ptp_clock_time
  index : Nat
deriving DecidableEq, Repr

/-! ## The PTP clock: operations -/

/-- The C function `ravb_ptp_update_compare`.  `gccr` is the value that
`ravb_read(ndev, GCCR)` returns.  The result is the device and the return
value. -/
def ravb_ptp_update_compare (ndev : net_device) (gccr : Nat) (ns : Nat) : net_device × Int :=
  let gti_ns_plus_1 := ((ndev.ptp.current_addend >>> 20) + 1) % 4294967296
  let ns :=
    if ns < gti_ns_plus_1 then gti_ns_plus_1
    else if ns > (4294967296 - gti_ns_plus_1) % 4294967296 then
      (4294967296 - gti_ns_plus_1) % 4294967296
    else ns
  if gccr &&& GCCR_LPTC ≠ 0 then (ndev, -EBUSY_errno)
  else
    ({ ndev with
        priv := ravb_write (ravb_write ndev.priv ns Reg.GPTC) (gccr ||| GCCR_LPTC) Reg.GCCR },
      0)

/-- The C function `ravb_ptp_adjfreq`.  `ppb` is an `s32`, `gccr` the value that
`ravb_read(ndev, GCCR)` returns.  The negation is the one of `s32` (the least
value is its own negative); the product is taken in `u64` and the quotient is
cut to `u32`. -/
def ravb_ptp_adjfreq (ndev : net_device) (gccr : Nat) (ppb : Int) : net_device × Int :=
  let neg_adj := decide (ppb < 0)
  let ppb := if ppb < 0 then (if ppb = -2147483648 then ppb else -ppb) else ppb
  let addend := ndev.ptp.default_addend
  let diff :=
    (addend * (ppb % 18446744073709551616).toNat % 18446744073709551616 / NSEC_PER_SEC) %
      4294967296
  let addend :=
    if neg_adj then (addend + 4294967296 - diff) % 4294967296
    else (addend + diff) % 4294967296
  let ndev1 : net_device := { ndev with ptp := { ndev.ptp with current_addend := addend } }
  if gccr &&& GCCR_LTI ≠ 0 then (ndev1, -EBUSY_errno)
  else
    ({ ndev1 with
        priv := ravb_write (ravb_write ndev1.priv (addend &&& GTI_TIV) Reg.GTI)
          (gccr ||| GCCR_LTI) Reg.GCCR },
      0)

/-- The C function `ravb_ptp_extts`.  `index` is `req->index`, `enable` the
argument `on`, the flag of the PTP interface.  The result is the device and the
return value. -/
def ravb_ptp_extts (ndev : net_device) (index : Nat) (enable : Bool) : net_device × Int :=
  if index ≠ 0 then (ndev, -EINVAL_errno)
  else if ndev.ptp.extts = enable then (ndev, 0)
  else
    let ndev1 : net_device := { ndev with ptp := { ndev.ptp with extts := enable } }
    ({ ndev1 with
        priv :=
          if ndev1.chip_id = ravb_chip_id.RCAR_GEN2 then
            ravb_modify ndev1.priv ndev1.priv.gic Reg.GIC GIC_PTCE
              (if enable then GIC_PTCE else 0)
          else if enable then ravb_write ndev1.priv GIE_PTCS Reg.GIE
          else ravb_write ndev1.priv GID_PTCD Reg.GID },
      0)

/-- The nanoseconds of a `ptp_clock_time` as `ravb_ptp_perout` computes them:
`sec * NSEC_PER_SEC + nsec` in 64-bit arithmetic, stored in a `u64`. -/
def perout_ns (t : ptp_clock_time) : Nat :=
  ((t.sec * (NSEC_PER_SEC : Int) + (t.nsec : Int)) % 18446744073709551616).toNat

/-- The C function `ravb_ptp_perout`.  `gccr` is the value that
`ravb_read(ndev, GCCR)` returns in `ravb_ptp_update_compare`, `enable` the
argument `on`.  The result is the device and the return value. -/
def ravb_ptp_perout (ndev : net_device) (gccr : Nat) (req : ptp_perout_request)
    (enable : Bool) : net_device × Int :=
  if req.index ≠ 0 then (ndev, -EINVAL_errno)
  else if enable then
    let start_ns := perout_ns req.start
    let period_ns := perout_ns req.period
    if start_ns > U32_MAX then (ndev, -ERANGE_errno)
    else if period_ns > U32_MAX then (ndev, -ERANGE_errno)
    else
      let ndev1 : net_device :=
        { ndev with
          ptp := { ndev.ptp with
            perout := { target := start_ns % 4294967296, period := period_ns % 4294967296 } } }
      let r := ravb_ptp_update_compare ndev1 gccr (start_ns % 4294967296)
      if r.2 = 0 then
        ({ r.1 with
            priv :=
              if r.1.chip_id = ravb_chip_id.RCAR_GEN2 then
                ravb_modify r.1.priv r.1.priv.gic Reg.GIC GIC_PTME GIC_PTME
              else ravb_write r.1.priv GIE_PTMS0 Reg.GIE },
          r.2)
      else r
  else
    let ndev1 : net_device :=
      { ndev with ptp := { ndev.ptp with perout := { ndev.ptp.perout with period := 0 } } }
    ({ ndev1 with
        priv :=
          if ndev1.chip_id = ravb_chip_id.RCAR_GEN2 then
            ravb_modify ndev1.priv ndev1.priv.gic Reg.GIC GIC_PTME 0
          else ravb_write ndev1.priv GID_PTMD0 Reg.GID },
      0)

/-- The C function `ravb_ptp_interrupt`.  `gis_read` is the value read from
`GIS`, `gcpt` the one read from `GCPT`, `gcat` the contents of the capture
registers, `gccr` the value that `ravb_read(ndev, GCCR)` returns in
`ravb_ptp_update_compare`; the read of `GIC` gives the interrupt mask.  The
result is the device, whether the handler returns `IRQ_HANDLED`, and the
timestamps of the events passed to `ptp_clock_event`. -/
def ravb_ptp_interrupt (NUM_AVTP_CAPTURE : Nat) (ndev : net_device) (gis_read gcpt : Nat)
    (gcat : Nat → Nat) (gccr : Nat) : net_device × Bool × List Nat :=
  let gis := gis_read &&& ndev.priv.gic
  let s1 : net_device × Bool × List Nat :=
    if gis &&& GIS_PTCF ≠ 0 then
      ({ ndev with
          priv := ravb_write ndev.priv (0xFFFFFFFF ^^^ (GIS_PTCF ||| GIS_RESERVED)) Reg.GIS },
        true, [gcpt])
    else (ndev, false, [])
  let s2 : net_device × Bool × List Nat :=
    if gis &&& 0xffff0000 ≠ 0 then
      ({ s1.1 with
          priv := ravb_write (ravb_avtp_capture_int NUM_AVTP_CAPTURE s1.1.priv gis gcat).1
            (0xFFFFFFFF ^^^ ((gis &&& 0xffff0000) ||| GIS_RESERVED)) Reg.GIS },
        true, s1.2.2)
    else s1
  if gis &&& GIS_PTMF ≠ 0 then
    let d3 : net_device :=
      if s2.1.ptp.perout.period ≠ 0 then
        (ravb_ptp_update_compare
          { s2.1 with
            ptp := { s2.1.ptp with
              perout := { s2.1.ptp.perout with
                target := (s2.1.ptp.perout.target + s2.1.ptp.perout.period) % 4294967296 } } }
          gccr
          ((s2.1.ptp.perout.target + s2.1.ptp.perout.period) % 4294967296)).1
      else s2.1
    ({ d3 with
        priv := ravb_write d3.priv (0xFFFFFFFF ^^^ (GIS_PTMF ||| GIS_RESERVED)) Reg.GIS },
      true, s2.2.2)
  else s2

/-- A sequence of interrupts, oldest first; each is given by the values read
from `GIS` and `GCPT`, the contents of the capture registers, and the value
read from `GCCR`. -/
def ptp_interrupts (NUM_AVTP_CAPTURE : Nat) (ndev : net_device) :
    List (Nat × Nat × (Nat → Nat) × Nat) → net_device
  | [] => ndev
  | ev :: evs =>
    ptp_interrupts NUM_AVTP_CAPTURE
      (ravb_ptp_interrupt NUM_AVTP_CAPTURE ndev ev.1 ev.2.1 ev.2.2.1 ev.2.2.2).1 evs

/-! ## The PTP clock: time read and write -/

/-- Value of `ETIMEDOUT` in `errno.h`. -/
def ETIMEDOUT_errno : Int := 110

/-- Modelled from the spec: `ravb.h` is not among the sources.  Flag of the
control register `GCCR` that is set while a load of the time offset is
pending. -/
def GCCR_LTO : Nat := 0x00000004

/-- Modelled from the spec: `ravb.h` is not among the sources.  Request code
"reset the timer" of the field `GCCR.TCR`. -/
def GCCR_TCR_RESET : Nat := 0x00000001

/-- Modelled from the spec: `ravb.h` is not among the sources.  Request code
"capture the timer" of the field `GCCR.TCR`. -/
def GCCR_TCR_CAPTURE : Nat := 0x00000003

/-- The macro `CTS_MAX_DELAY` of `ravb_ptp.c`, in nanoseconds. -/
def CTS_MAX_DELAY : Int := 1000

/-- The macro `CTS_MAX_ITER` of `ravb_ptp.c`. -/
def CTS_MAX_ITER : Nat := 100

/-- The C `struct timespec64`: `time64_t tv_sec` and `long tv_nsec`, both signed
64-bit values on the target. -/
structure timespec64 where
  tv_sec : Int
  tv_nsec : Int
deriving DecidableEq, Repr

/-- The bits of a signed 64-bit value, as a `u64`. -/
def to_u64 (x : Int) : Nat :=
  (x % 18446744073709551616).toNat

/-- The signed 64-bit value with the bits of `n`. -/
def to_s64 (n : Nat) : Int :=
  if n % 18446744073709551616 < 9223372036854775808 then (n % 18446744073709551616 : Nat)
  else ((n % 18446744073709551616 : Nat) : Int) - 18446744073709551616

/-- What the register transport gives during one `ravb_ptp_tcr_request`: the
result of the first `ravb_wait` (0 or an error), the value of `GCCR` that
`ravb_modify` reads, and the result of the second `ravb_wait`. -/
structure tcr_io where
  wait1 : Int
  gccr : Nat
  wait2 : Int
deriving DecidableEq, Repr

/-- The C function `ravb_ptp_tcr_request`.  The result is the device and the
return value. -/
def ravb_ptp_tcr_request (ndev : net_device) (t : tcr_io) (request : Nat) : net_device × Int :=
  if t.wait1 ≠ 0 then (ndev, t.wait1)
  else ({ ndev with priv := ravb_modify ndev.priv t.gccr Reg.GCCR request request }, t.wait2)

/-- The two assignments to `*ts` in `ravb_ptp_time_read` and
`ravb_ptp_time_read_xts`, from the values read from `GCT0`, `GCT1`, `GCT2`
(each a `u32`). -/
def gct_time (gct0 gct1 gct2 : Nat) : timespec64 :=
  { tv_nsec := (gct0 : Int), tv_sec := to_s64 (gct1 ||| (gct2 <<< 32)) }

/-- The C function `ravb_ptp_time_read`.  The result is the device, the return
value, and `*ts` when the function has assigned it. -/
def ravb_ptp_time_read (ndev : net_device) (t : tcr_io) (gct0 gct1 gct2 : Nat) :
    net_device × Int × Option timespec64 :=
  let r := ravb_ptp_tcr_request ndev t GCCR_TCR_CAPTURE
  if r.2 ≠ 0 then (r.1, r.2, none)
  else (r.1, 0, some (gct_time gct0 gct1 gct2))

/-- The C function `ravb_ptp_time_write`.  `t` serves the RESET request, `gccr`
is the value that `ravb_read(ndev, GCCR)` returns after it.  The three offset
words are the `u32` conversions of `tv_nsec`, of `tv_sec`, and of
`(tv_sec >> 32) & 0xffff`. -/
def ravb_ptp_time_write (ndev : net_device) (t : tcr_io) (gccr : Nat) (ts : timespec64) :
    net_device × Int :=
  let r := ravb_ptp_tcr_request ndev t GCCR_TCR_RESET
  if r.2 ≠ 0 then r
  else if gccr &&& GCCR_LTO ≠ 0 then (r.1, -EBUSY_errno)
  else
    ({ r.1 with
        priv :=
          ravb_write
            (ravb_write
              (ravb_write
                (ravb_write r.1.priv (to_u64 ts.tv_nsec % 4294967296) Reg.GTO0)
                (to_u64 ts.tv_sec % 4294967296) Reg.GTO1)
              ((to_u64 ts.tv_sec >>> 32) &&& 0xffff) Reg.GTO2)
            (gccr ||| GCCR_LTO) Reg.GCCR },
      0)

/-- Modelled from the spec: `KTIME_MAX` (`linux/ktime.h`) is not among the
sources.  The largest `ktime_t`, `2^63 - 1` nanoseconds. -/
def KTIME_MAX : Int := 9223372036854775807

/-- Modelled from the spec: `KTIME_SEC_MAX` (`linux/ktime.h`) is not among the
sources.  It is `KTIME_MAX / NSEC_PER_SEC`. -/
def KTIME_SEC_MAX : Int := 9223372036

/-- Modelled from the spec: `ktime_set` (`linux/ktime.h`) is not among the
sources.  For `secs` (an `s64`) and `nsecs` (an `unsigned long`) it returns
`KTIME_MAX` when `secs >= KTIME_SEC_MAX`, and otherwise
`secs * NSEC_PER_SEC + (s64)nsecs`, computed in `s64`. -/
def ktime_set (secs : Int) (nsecs : Nat) : Int :=
  if secs ≥ KTIME_SEC_MAX then KTIME_MAX
  else to_s64 (to_u64 (secs * 1000000000 + to_s64 nsecs))

/-- Modelled from the spec: `timespec64_to_ktime` (`linux/ktime.h`) is not among
the sources.  It is `ktime_set(ts.tv_sec, ts.tv_nsec)`: the time in
nanoseconds, saturated at `KTIME_MAX` from `KTIME_SEC_MAX` seconds on. -/
def timespec64_to_ktime (ts : timespec64) : Int :=
  ktime_set ts.tv_sec (to_u64 ts.tv_nsec)

/-- Modelled from the spec: `ktime_to_ns` (`linux/ktime.h`) is not among the
sources.  A `ktime_t` is a count of nanoseconds. -/
def ktime_to_ns (kt : Int) : Int := kt

/-- Modelled from the spec: `ktime_sub` (`linux/ktime.h`) is not among the
sources.  The difference of two times in nanoseconds. -/
def ktime_sub (lhs rhs : Int) : Int := lhs - rhs

/-- Modelled from the spec: `ktime_add_ns` (`linux/ktime.h`) is not among the
sources.  A time moved by a count of nanoseconds. -/
def ktime_add_ns (kt nsval : Int) : Int := kt + nsval

/-- Modelled from the spec: `ktime_divns` (`linux/ktime.h`) is not among the
sources.  The quotient of a time by a count of nanoseconds, with the rounding
towards zero of the C division. -/
def ktime_divns (kt div : Int) : Int := Int.tdiv kt div

/-- Modelled from the spec: `ns_to_timespec64` (`kernel/time/time.c`) is not
among the sources.  The split of a count of nanoseconds in seconds and
nanoseconds below `10^9`. -/
def ns_to_timespec64 (nsec : Int) : timespec64 :=
  { tv_sec := nsec / 1000000000, tv_nsec := nsec % 1000000000 }

/-- The C function `ravb_ptp_adjtime`.  `rd` and the `gct` values serve the
read, `wr` and `gccr` the write; `delta` is an `s64`.  `now` is a `u64`, the
sum `now + delta` is taken in `u64` and passed as an `s64`. -/
def ravb_ptp_adjtime (ndev : net_device) (rd : tcr_io) (gct0 gct1 gct2 : Nat) (wr : tcr_io)
    (gccr : Nat) (delta : Int) : net_device × Int :=
  let r := ravb_ptp_time_read ndev rd gct0 gct1 gct2
  match r.2.2 with
  | none => (r.1, r.2.1)
  | some ts =>
    let now := to_u64 (ktime_to_ns (timespec64_to_ktime ts))
    ravb_ptp_time_write r.1 wr gccr
      (ns_to_timespec64 (to_s64 ((now + to_u64 delta) % 18446744073709551616)))

/-- What the environment gives during one pass of the loop of
`ravb_ptp_time_read_xts`: the result of the first `ravb_wait`, the host time
`ktime_get()` before the request, the value of `GCCR` that `ravb_modify` reads,
the result of the second `ravb_wait`, and the host time after it. -/
structure xts_attempt where
  wait1 : Int
  kt_before : Int
  gccr : Nat
  wait2 : Int
  kt_after : Int
deriving DecidableEq, Repr

/-- State of `ravb_ptp_time_read_xts` when its `do ... while` loop is left:
the device, the error of a failed wait (0 if none failed), the counter `i`,
the bracket of the last pass, and the number of capture requests written. -/
structure xts_exit where
  ndev : net_device
  error : Int
  i : Int
  kt_before : Int
  kt_after : Int
  requests : Nat
deriving DecidableEq, Repr

/-- The `do ... while` loop of `ravb_ptp_time_read_xts`, from the pass number
`k` on, entered with the counter `i` (not negative at that point) and with
`requests` capture requests written so far.  The counter is decremented by
the test `i-- > 0`, which is only reached when the span exceeds
`CTS_MAX_DELAY`. -/
def xts_loop (att : Nat → xts_attempt) (ndev : net_device) (k requests i : Nat) :
    xts_exit :=
  if (att k).wait1 ≠ 0 then
    { ndev := ndev, error := (att k).wait1, i := i, kt_before := 0, kt_after := 0,
      requests := requests }
  else
    let ndev1 : net_device :=
      { ndev with
        priv := ravb_modify ndev.priv (att k).gccr Reg.GCCR GCCR_TCR_CAPTURE
          GCCR_TCR_CAPTURE }
    if (att k).wait2 ≠ 0 then
      { ndev := ndev1, error := (att k).wait2, i := i, kt_before := (att k).kt_before,
        kt_after := (att k).kt_after, requests := requests + 1 }
    else if ktime_to_ns (ktime_sub (att k).kt_after (att k).kt_before) > CTS_MAX_DELAY then
      match i with
      | 0 =>
        { ndev := ndev1, error := 0, i := -1, kt_before := (att k).kt_before,
          kt_after := (att k).kt_after, requests := requests + 1 }
      | j + 1 => xts_loop att ndev1 (k + 1) (requests + 1) j
    else
      { ndev := ndev1, error := 0, i := i, kt_before := (att k).kt_before,
        kt_after := (att k).kt_after, requests := requests + 1 }

/-- The C function `ravb_ptp_time_read_xts`.  `att k` serves pass `k` of the
loop, the `gct` values are read after it.  The result is the device, the
return value, `*ts` and `*time` when the function has assigned them, and the
number of capture requests written. -/
def ravb_ptp_time_read_xts (ndev : net_device) (att : Nat → xts_attempt)
    (gct0 gct1 gct2 : Nat) : net_device × Int × Option (timespec64 × Int) × Nat :=
  let r := xts_loop att ndev 0 0 CTS_MAX_ITER
  if r.error ≠ 0 then (r.ndev, r.error, none, r.requests)
  else if r.i ≤ 0 then (r.ndev, -ETIMEDOUT_errno, none, r.requests)
  else
    (r.ndev, 0,
      some (gct_time gct0 gct1 gct2,
        ktime_add_ns r.kt_before (ktime_divns (ktime_sub r.kt_after r.kt_before) 2)),
      r.requests)

/-! # Properties -/

/-! ## Arithmetic of the cursors -/

theorem succ_mod_u32 (w rs : Nat) (hw : w < rs) (hrs : rs < 4294967296) :
    (w + 1) % 4294967296 % rs = if w + 1 = rs then 0 else w + 1 := by
  have h1 : (w + 1) % 4294967296 = w + 1 := Nat.mod_eq_of_lt (by omega)
  rw [h1]
  split
  · next h => rw [h, Nat.mod_self]
  · next h => exact Nat.mod_eq_of_lt (by omega)

theorem ring_count_eq (c : ravb_avtp_capture) (hr : c.read_pos < c.ring_size)
    (hw : c.write_pos < c.ring_size) :
    ring_count c =
      if c.read_pos ≤ c.write_pos then c.write_pos - c.read_pos
      else c.write_pos + c.ring_size - c.read_pos := by
  unfold ring_count
  split
  · next h =>
    have e : c.write_pos + c.ring_size - c.read_pos =
        (c.write_pos - c.read_pos) + c.ring_size := by omega
    rw [e, Nat.add_mod_right]
    exact Nat.mod_eq_of_lt (by omega)
  · next h => exact Nat.mod_eq_of_lt (by omega)

/-- A capture event on a ring that is not full stores the timestamp at
`write_pos` and advances `write_pos`; nothing else changes. -/
theorem capture_not_full (c : ravb_avtp_capture) (t : Nat)
    (hrs : c.ring_size < 4294967296) (hr : c.read_pos < c.ring_size)
    (hw : c.write_pos < c.ring_size) (hn : ring_count c + 1 < c.ring_size) :
    ravb_avtp_capture_int_unit c t =
      ({ c with
          timestamps := c.timestamps.set c.write_pos t
          write_pos := if c.write_pos + 1 = c.ring_size then 0 else c.write_pos + 1 },
        true) := by
  have hc := ring_count_eq c hr hw
  have hm := succ_mod_u32 c.write_pos c.ring_size hw hrs
  unfold ravb_avtp_capture_int_unit
  rw [hm]
  have hne : ¬ ((if c.write_pos + 1 = c.ring_size then 0 else c.write_pos + 1) = c.read_pos) := by
    split_ifs at hc ⊢ <;> omega
  rw [if_neg hne]

/-- A capture event on a full ring only counts an overrun. -/
theorem capture_full (c : ravb_avtp_capture) (t : Nat)
    (hrs : c.ring_size < 4294967296) (hr : c.read_pos < c.ring_size)
    (hw : c.write_pos < c.ring_size) (hn : ring_count c + 1 = c.ring_size) :
    ravb_avtp_capture_int_unit c t =
      ({ c with overruns := (c.overruns + 1) % 4294967296 }, false) := by
  have hc := ring_count_eq c hr hw
  have hm := succ_mod_u32 c.write_pos c.ring_size hw hrs
  unfold ravb_avtp_capture_int_unit
  rw [hm]
  have he : (if c.write_pos + 1 = c.ring_size then 0 else c.write_pos + 1) = c.read_pos := by
    split_ifs at hc ⊢ <;> omega
  rw [if_pos he]

/-- The count of a ring whose cursors are in range is below `ring_size`. -/
theorem ring_count_lt (c : ravb_avtp_capture) (hr : c.read_pos < c.ring_size) :
    ring_count c < c.ring_size :=
  Nat.mod_lt _ (by omega)

/-- Filling a ring: `ts.length` capture events on a ring with room for them are
all stored, none is counted as an overrun. -/
theorem capture_events_room (ts : List Nat) :
    ∀ c : ravb_avtp_capture, c.ring_size < 4294967296 → c.read_pos < c.ring_size →
      c.write_pos < c.ring_size → ring_count c + ts.length < c.ring_size →
      (capture_events c ts).ring_size = c.ring_size ∧
      (capture_events c ts).read_pos = c.read_pos ∧
      (capture_events c ts).write_pos < c.ring_size ∧
      (capture_events c ts).overruns = c.overruns ∧
      ring_count (capture_events c ts) = ring_count c + ts.length := by
  induction ts with
  | nil => intro c _ _ hw _; simp [capture_events, hw]
  | cons t ts ih =>
    intro c hrs hr hw hn
    simp only [List.length_cons] at hn
    have hstep := capture_not_full c t hrs hr hw (by omega)
    have hc := ring_count_eq c hr hw
    have e : capture_events c (t :: ts) =
        capture_events (ravb_avtp_capture_int_unit c t).1 ts := rfl
    rw [e, hstep]
    set c1 : ravb_avtp_capture :=
      { c with
        timestamps := c.timestamps.set c.write_pos t
        write_pos := if c.write_pos + 1 = c.ring_size then 0 else c.write_pos + 1 } with hc1
    have hw1 : c1.write_pos < c1.ring_size := by
      show (if c.write_pos + 1 = c.ring_size then 0 else c.write_pos + 1) < c.ring_size
      split_ifs <;> omega
    have hr1 : c1.read_pos < c1.ring_size := hr
    have hcnt : ring_count c1 = ring_count c + 1 := by
      rw [ring_count_eq c1 hr1 hw1, hc]
      show (if c.read_pos ≤ (if c.write_pos + 1 = c.ring_size then 0 else c.write_pos + 1)
              then (if c.write_pos + 1 = c.ring_size then 0 else c.write_pos + 1) - c.read_pos
              else (if c.write_pos + 1 = c.ring_size then 0 else c.write_pos + 1)
                + c.ring_size - c.read_pos) = _
      rw [hc] at hn
      split_ifs at hn ⊢ <;> omega
    have e1 : c1.ring_size = c.ring_size := rfl
    have e2 : c1.read_pos = c.read_pos := rfl
    have e3 : c1.overruns = c.overruns := rfl
    obtain ⟨h1, h2, h3, h4, h5⟩ := ih c1 hrs hr1 hw1 (by rw [hcnt, e1]; omega)
    rw [e1] at h1 h3
    rw [e2] at h2
    rw [e3] at h4
    refine ⟨h1, h2, h3, h4, ?_⟩
    rw [h5, hcnt, List.length_cons]; omega

/-! ## Overrun detection -/

/-- Claim C1.  A context with `ring_size > 1` (an `unsigned`), an empty ring
(`read_pos = write_pos`, a cursor of the ring) and `overruns = 0` stores
`ring_size - 1` capture events in a row without counting an overrun; the next
capture event increments `overruns` by one and leaves `write_pos`, `read_pos`
and the buffered timestamps unchanged. -/
theorem capture_overrun_after_fill (c : ravb_avtp_capture) (ts : List Nat) (t : Nat)
    (hsize : 1 < c.ring_size) (hrs : c.ring_size < 4294967296)
    (hr : c.read_pos < c.ring_size) (hempty : c.read_pos = c.write_pos)
    (hov : c.overruns = 0) (hlen : ts.length = c.ring_size - 1) :
    (capture_events c ts).overruns = 0 ∧
    (ravb_avtp_capture_int_unit (capture_events c ts) t).1.overruns =
      (capture_events c ts).overruns + 1 ∧
    (ravb_avtp_capture_int_unit (capture_events c ts) t).1.write_pos =
      (capture_events c ts).write_pos ∧
    (ravb_avtp_capture_int_unit (capture_events c ts) t).1.read_pos =
      (capture_events c ts).read_pos ∧
    (ravb_avtp_capture_int_unit (capture_events c ts) t).1.timestamps =
      (capture_events c ts).timestamps := by
  have hw : c.write_pos < c.ring_size := hempty ▸ hr
  have h0 : ring_count c = 0 := by
    rw [ring_count_eq c hr hw, if_pos (le_of_eq hempty)]; omega
  obtain ⟨h1, h2, h3, h4, h5⟩ := capture_events_room ts c hrs hr hw (by omega)
  have hfull := capture_full (capture_events c ts) t (by omega) (by omega) (by omega)
    (by omega)
  rw [hfull]
  refine ⟨by omega, ?_, rfl, rfl, rfl⟩
  show ((capture_events c ts).overruns + 1) % 4294967296 = _
  rw [h4, hov]

/-- Witness for C1: a ring of four slots with both cursors at 1, three events,
then a fourth. -/
theorem capture_overrun_after_fill_witness :
    (capture_events ⟨7, 4, 1, 1, 0, 2, 4, [0, 0, 0, 0]⟩ [10, 20, 30]).overruns = 0 ∧
    (ravb_avtp_capture_int_unit
        (capture_events ⟨7, 4, 1, 1, 0, 2, 4, [0, 0, 0, 0]⟩ [10, 20, 30]) 40).1.overruns =
      (capture_events ⟨7, 4, 1, 1, 0, 2, 4, [0, 0, 0, 0]⟩ [10, 20, 30]).overruns + 1 ∧
    (ravb_avtp_capture_int_unit
        (capture_events ⟨7, 4, 1, 1, 0, 2, 4, [0, 0, 0, 0]⟩ [10, 20, 30]) 40).1.write_pos =
      (capture_events ⟨7, 4, 1, 1, 0, 2, 4, [0, 0, 0, 0]⟩ [10, 20, 30]).write_pos ∧
    (ravb_avtp_capture_int_unit
        (capture_events ⟨7, 4, 1, 1, 0, 2, 4, [0, 0, 0, 0]⟩ [10, 20, 30]) 40).1.read_pos =
      (capture_events ⟨7, 4, 1, 1, 0, 2, 4, [0, 0, 0, 0]⟩ [10, 20, 30]).read_pos ∧
    (ravb_avtp_capture_int_unit
        (capture_events ⟨7, 4, 1, 1, 0, 2, 4, [0, 0, 0, 0]⟩ [10, 20, 30]) 40).1.timestamps =
      (capture_events ⟨7, 4, 1, 1, 0, 2, 4, [0, 0, 0, 0]⟩ [10, 20, 30]).timestamps :=
  capture_overrun_after_fill ⟨7, 4, 1, 1, 0, 2, 4, [0, 0, 0, 0]⟩ [10, 20, 30] 40
    (by decide) (by decide) (by decide) rfl rfl rfl

/-! ## The ring as a queue -/

theorem mod_lt_two_mul (a rs : Nat) (h : a < 2 * rs) :
    a % rs = if a < rs then a else a - rs := by
  split
  · next h1 => exact Nat.mod_eq_of_lt h1
  · next h1 =>
    have e : a = (a - rs) + rs := by omega
    rw [e, Nat.add_mod_right, Nat.add_sub_cancel]
    exact Nat.mod_eq_of_lt (by omega)

/-- The slot `i` places after `read_pos` is `write_pos` exactly when `i` is the
count of the ring. -/
theorem slot_eq_write_pos (c : ravb_avtp_capture) (hr : c.read_pos < c.ring_size)
    (hw : c.write_pos < c.ring_size) (i : Nat) (hi : i ≤ ring_count c) :
    (c.read_pos + i) % c.ring_size = c.write_pos ↔ i = ring_count c := by
  have hc := ring_count_eq c hr hw
  have hlt := ring_count_lt c hr
  rw [mod_lt_two_mul _ _ (by omega)]
  split_ifs at hc ⊢ <;> omega

/-- Advancing `write_pos` on a ring with room adds one to the count. -/
theorem ring_count_advance (c : ravb_avtp_capture) (t : Nat) (hr : c.read_pos < c.ring_size)
    (hw : c.write_pos < c.ring_size) (hn : ring_count c + 1 < c.ring_size) :
    ring_count
        ({ c with
            timestamps := c.timestamps.set c.write_pos t
            write_pos := if c.write_pos + 1 = c.ring_size then 0 else c.write_pos + 1 } :
          ravb_avtp_capture) = ring_count c + 1 := by
  have hc := ring_count_eq c hr hw
  have hw1 : (if c.write_pos + 1 = c.ring_size then 0 else c.write_pos + 1) < c.ring_size := by
    split_ifs <;> omega
  have h1 := ring_count_eq
    ({ c with
        timestamps := c.timestamps.set c.write_pos t
        write_pos := if c.write_pos + 1 = c.ring_size then 0 else c.write_pos + 1 } :
      ravb_avtp_capture) hr hw1
  rw [h1, hc]
  show (if c.read_pos ≤ (if c.write_pos + 1 = c.ring_size then 0 else c.write_pos + 1)
          then (if c.write_pos + 1 = c.ring_size then 0 else c.write_pos + 1) - c.read_pos
          else (if c.write_pos + 1 = c.ring_size then 0 else c.write_pos + 1)
            + c.ring_size - c.read_pos) = _
  rw [hc] at hn
  split_ifs at hn ⊢ <;> omega

/-- Effect of a capture event that finds room on the queue. -/
theorem ring_pending_capture (c : ravb_avtp_capture) (t : Nat) (hwf : ring_wf c)
    (hn : ring_count c + 1 < c.ring_size) :
    ring_wf (ravb_avtp_capture_int_unit c t).1 ∧
    (ravb_avtp_capture_int_unit c t).1.overruns = c.overruns ∧
    ring_pending (ravb_avtp_capture_int_unit c t).1 = ring_pending c ++ [t] := by
  obtain ⟨hrs, hr, hw, hlen⟩ := hwf
  have hc := ring_count_eq c hr hw
  rw [capture_not_full c t hrs hr hw hn]
  have hw1 : (if c.write_pos + 1 = c.ring_size then 0 else c.write_pos + 1) < c.ring_size := by
    split_ifs <;> omega
  refine ⟨⟨hrs, hr, hw1, ?_⟩, rfl, ?_⟩
  · show (c.timestamps.set c.write_pos t).length = c.ring_size
    rw [List.length_set]; exact hlen
  · have hcnt := ring_count_advance c t hr hw hn
    unfold ring_pending
    rw [hcnt, List.range_succ, List.map_append]
    congr 1
    · apply List.map_congr_left
      intro i hi
      rw [List.mem_range] at hi
      show (c.timestamps.set c.write_pos t).getD ((c.read_pos + i) % c.ring_size) 0 = _
      have hne : c.write_pos ≠ (c.read_pos + i) % c.ring_size := by
        intro h
        have := (slot_eq_write_pos c hr hw i (le_of_lt hi)).1 h.symm
        omega
      simp [List.getD_eq_getElem?_getD, List.getElem?_set_ne hne]
    · have he : (c.read_pos + ring_count c) % c.ring_size = c.write_pos :=
        (slot_eq_write_pos c hr hw _ (le_refl _)).2 rfl
      show [(c.timestamps.set c.write_pos t).getD ((c.read_pos + ring_count c) % c.ring_size) 0]
        = [t]
      rw [he]
      simp [List.getD_eq_getElem?_getD, List.getElem?_set_self, hlen, hw]

/-- A non-blocking get on an empty ring without overrun fails with `EAGAIN`
and changes nothing. -/
theorem get_nonblocking_empty (c : ravb_avtp_capture) (hov : c.overruns = 0)
    (he : c.read_pos = c.write_pos) :
    get_nonblocking c = (c, -EAGAIN_errno, none) := by
  simp [get_nonblocking, ravb_mediats_get, hov, he]

/-- A non-blocking get on a ring that holds a timestamp, without overrun,
returns the timestamp at `read_pos` and advances `read_pos`. -/
theorem get_nonblocking_some (c : ravb_avtp_capture) (hov : c.overruns = 0)
    (hne : c.read_pos ≠ c.write_pos) :
    get_nonblocking c =
      ({ c with read_pos := (c.read_pos + 1) % 4294967296 % c.ring_size }, 0,
        some (c.timestamps.getD c.read_pos 0)) := by
  simp [get_nonblocking, ravb_mediats_get, ravb_mediats_get_tail, hov, hne]

/-- Effect of a successful get on the queue: the head is delivered. -/
theorem ring_pending_get (c : ravb_avtp_capture) (hwf : ring_wf c)
    (hne : c.read_pos ≠ c.write_pos) :
    ring_wf ({ c with read_pos := (c.read_pos + 1) % 4294967296 % c.ring_size } :
      ravb_avtp_capture) ∧
    ring_pending c = c.timestamps.getD c.read_pos 0 ::
      ring_pending ({ c with read_pos := (c.read_pos + 1) % 4294967296 % c.ring_size } :
        ravb_avtp_capture) := by
  obtain ⟨hrs, hr, hw, hlen⟩ := hwf
  have hc := ring_count_eq c hr hw
  have hm := succ_mod_u32 c.read_pos c.ring_size hr hrs
  rw [hm]
  have hr1 : (if c.read_pos + 1 = c.ring_size then 0 else c.read_pos + 1) < c.ring_size := by
    split_ifs <;> omega
  have h1 := ring_count_eq
    ({ c with read_pos := if c.read_pos + 1 = c.ring_size then 0 else c.read_pos + 1 } :
      ravb_avtp_capture) hr1 hw
  have hcnt : ring_count c =
      ring_count ({ c with
        read_pos := if c.read_pos + 1 = c.ring_size then 0 else c.read_pos + 1 } :
          ravb_avtp_capture) + 1 := by
    rw [h1, hc]
    show _ = (if (if c.read_pos + 1 = c.ring_size then 0 else c.read_pos + 1) ≤ c.write_pos
          then c.write_pos - (if c.read_pos + 1 = c.ring_size then 0 else c.read_pos + 1)
          else c.write_pos + c.ring_size
            - (if c.read_pos + 1 = c.ring_size then 0 else c.read_pos + 1)) + 1
    split_ifs <;> omega
  refine ⟨⟨hrs, hr1, hw, hlen⟩, ?_⟩
  unfold ring_pending
  rw [hcnt, List.range_succ_eq_map, List.map_cons, List.map_map]
  congr 1
  · show c.timestamps.getD ((c.read_pos + 0) % c.ring_size) 0 = _
    rw [Nat.add_zero, Nat.mod_eq_of_lt hr]
  · apply List.map_congr_left
    intro i hi
    rw [List.mem_range] at hi
    have hlt := ring_count_lt c hr
    show c.timestamps.getD ((c.read_pos + (i + 1)) % c.ring_size) 0 =
      c.timestamps.getD
        (((if c.read_pos + 1 = c.ring_size then 0 else c.read_pos + 1) + i) % c.ring_size) 0
    congr 1
    rw [mod_lt_two_mul _ _ (by omega), mod_lt_two_mul _ _ (by split_ifs <;> omega)]
    split_ifs <;> omega

/-- Queue invariant along a run without overrun: what was buffered at the start
followed by what was captured equals what the gets returned followed by what is
buffered at the end. -/
theorem ring_run_queue (ops : List ring_op) :
    ∀ c : ravb_avtp_capture, ring_wf c → c.overruns = 0 → ring_overrun_free c ops = true →
      ring_pending c ++ ring_captured ops =
        (ring_run c ops).2 ++ ring_pending (ring_run c ops).1 := by
  induction ops with
  | nil => intro c _ _ _; simp [ring_captured, ring_run]
  | cons op ops ih =>
    intro c hwf hov hfree
    cases op with
    | capture t =>
      simp only [ring_overrun_free, Bool.and_eq_true] at hfree
      have hlt := ring_count_lt c hwf.2.1
      have hroom : ring_count c + 1 < c.ring_size := by
        by_contra hcon
        have hfull := capture_full c t hwf.1 hwf.2.1 hwf.2.2.1 (by omega)
        rw [hfull] at hfree
        exact absurd hfree.1 (by simp)
      obtain ⟨hwf1, hov1, hp1⟩ := ring_pending_capture c t hwf hroom
      have := ih _ hwf1 (by rw [hov1, hov]) hfree.2
      simp only [ring_captured, ring_run]
      rw [← this, hp1, List.append_assoc]
      rfl
    | get =>
      simp only [ring_overrun_free] at hfree
      simp only [ring_captured, ring_run]
      by_cases he : c.read_pos = c.write_pos
      · rw [get_nonblocking_empty c hov he] at hfree ⊢
        have := ih c hwf hov hfree
        simp [EAGAIN_errno, this]
      · rw [get_nonblocking_some c hov he] at hfree ⊢
        obtain ⟨hwf1, hp1⟩ := ring_pending_get c hwf he
        have := ih _ hwf1 hov hfree
        simp only [if_true, Option.toList, List.singleton_append, List.cons_append]
        rw [hp1, List.cons_append, this]
        rfl

/-- The object that `open` creates has a buffer of `ring_size` slots when the
byte count `4 * ring_size` fits the `unsigned` product, that is for
`ring_size < 2^30`; its cursors are 0 and it has counted no overrun. -/
theorem open_ctx_buffer (p capture_unit prescaler ring_size : Nat)
    (h : ring_size < 1073741824) :
    (open_ctx p capture_unit prescaler ring_size).timestamps.length = ring_size ∧
    (open_ctx p capture_unit prescaler ring_size).read_pos = 0 ∧
    (open_ctx p capture_unit prescaler ring_size).write_pos = 0 ∧
    (open_ctx p capture_unit prescaler ring_size).overruns = 0 := by
  refine ⟨?_, rfl, rfl, rfl⟩
  show (List.replicate (4 * ring_size % 4294967296 / 4) 0).length = ring_size
  rw [List.length_replicate]
  omega

/-- One iteration of the outer loop touches only the list of its unit, and maps
the capture event over that list when the unit's bit is pending. -/
theorem capture_int_step_lists (gis : Nat) (gcat : Nat → Nat) (acc : ravb_private × Bool)
    (u v : Nat) :
    (ravb_avtp_capture_int_step gis gcat acc u).1.avtp_capture[v]? =
      if v = u ∧ gis &&& ravb_avtp_capture_gis_bit u ≠ 0 then
        (acc.1.avtp_capture[v]?).map
          (List.map fun unit => (ravb_avtp_capture_int_unit unit (gcat u)).1)
      else acc.1.avtp_capture[v]? := by
  unfold ravb_avtp_capture_int_step
  dsimp only
  by_cases hb : gis &&& ravb_avtp_capture_gis_bit u ≠ 0
  · rw [if_pos hb]
    by_cases he : (acc.1.avtp_capture.getD u []).isEmpty = true
    · rw [if_pos he]
      by_cases hv : v = u
      · subst hv
        rw [if_pos ⟨rfl, hb⟩]
        have hnil : acc.1.avtp_capture.getD v [] = [] := List.isEmpty_iff.1 he
        rw [List.getD_eq_getElem?_getD] at hnil
        cases hl : acc.1.avtp_capture[v]? with
        | none => rfl
        | some l =>
          rw [hl] at hnil
          simp only [Option.getD_some] at hnil
          subst hnil
          rfl
      · rw [if_neg (fun h => hv h.1)]
    · rw [if_neg he]
      by_cases hv : v = u
      · subst hv
        rw [if_pos ⟨rfl, hb⟩]
        show (acc.1.avtp_capture.set v _)[v]? = _
        rw [List.getElem?_set_self']
        cases hl : acc.1.avtp_capture[v]? with
        | none => rfl
        | some l => simp [List.getD_eq_getElem?_getD, hl]
      · rw [if_neg (fun h => hv h.1)]
        exact List.getElem?_set_ne (fun h => hv h.symm)
  · rw [if_neg hb, if_neg (fun h => hb h.2)]

/-- One iteration of the outer loop writes no register. -/
theorem capture_int_step_regs (gis : Nat) (gcat : Nat → Nat) (acc : ravb_private × Bool)
    (u : Nat) :
    (ravb_avtp_capture_int_step gis gcat acc u).1.gic = acc.1.gic ∧
    (ravb_avtp_capture_int_step gis gcat acc u).1.io = acc.1.io := by
  unfold ravb_avtp_capture_int_step
  dsimp only
  split_ifs <;> exact ⟨rfl, rfl⟩

theorem capture_int_succ (n : Nat) (priv : ravb_private) (gis : Nat) (gcat : Nat → Nat) :
    ravb_avtp_capture_int (n + 1) priv gis gcat =
      ravb_avtp_capture_int_step gis gcat (ravb_avtp_capture_int n priv gis gcat) n := by
  simp [ravb_avtp_capture_int, List.range_succ, List.foldl_append]

/-- Fan-out: the capture interrupt maps the capture event, with the value read
from the unit's capture register, over the list of every unit below
`NUM_AVTP_CAPTURE` whose bit is pending, and leaves every other list alone. -/
theorem capture_int_lists (n : Nat) (priv : ravb_private) (gis : Nat) (gcat : Nat → Nat)
    (v : Nat) :
    (ravb_avtp_capture_int n priv gis gcat).1.avtp_capture[v]? =
      if v < n ∧ gis &&& ravb_avtp_capture_gis_bit v ≠ 0 then
        (priv.avtp_capture[v]?).map
          (List.map fun unit => (ravb_avtp_capture_int_unit unit (gcat v)).1)
      else priv.avtp_capture[v]? := by
  induction n with
  | zero => simp [ravb_avtp_capture_int]
  | succ n ih =>
    rw [capture_int_succ, capture_int_step_lists, ih]
    by_cases hv : v = n
    · subst hv
      by_cases hb : gis &&& ravb_avtp_capture_gis_bit v ≠ 0
      · rw [if_pos ⟨rfl, hb⟩, if_neg (fun h => absurd h.1 (by omega)),
          if_pos ⟨by omega, hb⟩]
      · rw [if_neg (fun h => hb h.2), if_neg (fun h => hb h.2), if_neg (fun h => hb h.2)]
    · rw [if_neg (fun h => hv h.1)]
      by_cases hc : v < n ∧ gis &&& ravb_avtp_capture_gis_bit v ≠ 0
      · rw [if_pos hc, if_pos ⟨by omega, hc.2⟩]
      · rw [if_neg hc, if_neg (fun h => hc ⟨by omega, h.2⟩)]

/-- The capture interrupt writes no register. -/
theorem capture_int_regs (n : Nat) (priv : ravb_private) (gis : Nat) (gcat : Nat → Nat) :
    (ravb_avtp_capture_int n priv gis gcat).1.gic = priv.gic ∧
    (ravb_avtp_capture_int n priv gis gcat).1.io = priv.io := by
  induction n with
  | zero => simp [ravb_avtp_capture_int]
  | succ n ih =>
    rw [capture_int_succ]
    have := capture_int_step_regs gis gcat (ravb_avtp_capture_int n priv gis gcat) n
    exact ⟨this.1.trans ih.1, this.2.trans ih.2⟩

/-- Fan-out on the list of a unit whose bit is pending. -/
theorem capture_int_unit_list (n : Nat) (priv : ravb_private) (gis : Nat) (gcat : Nat → Nat)
    (u : Nat) (hu : u < n) (hb : gis &&& ravb_avtp_capture_gis_bit u ≠ 0) :
    (ravb_avtp_capture_int n priv gis gcat).1.avtp_capture.getD u [] =
      (priv.avtp_capture.getD u []).map
        fun unit => (ravb_avtp_capture_int_unit unit (gcat u)).1 := by
  rw [List.getD_eq_getElem?_getD, List.getD_eq_getElem?_getD, capture_int_lists,
    if_pos ⟨hu, hb⟩]
  cases priv.avtp_capture[u]? <;> simp

/-! ## Opening -/

/-- The two ways `ravb_mediats_open` ends: NULL with the state untouched, or the
handle `p` with the new object at the head of the unit's list. -/
theorem open_cases (n : Nat) (priv : ravb_private) (kv : Option Nat)
    (gis_read capture_unit prescaler ring_size : Nat) :
    ravb_mediats_open n priv kv gis_read capture_unit prescaler ring_size = (priv, none) ∨
    ∃ p, kv = some p ∧ capture_unit < n ∧ prescaler ≠ 0 ∧
      (∀ it ∈ priv.avtp_capture.getD capture_unit [], it.prescaler = prescaler) ∧
      ravb_mediats_open n priv kv gis_read capture_unit prescaler ring_size =
        ({ (if (priv.avtp_capture.getD capture_unit []).isEmpty then
              open_first_writes priv gis_read capture_unit prescaler else priv) with
            avtp_capture :=
              priv.avtp_capture.set capture_unit
                (open_ctx p capture_unit prescaler ring_size ::
                  priv.avtp_capture.getD capture_unit []) },
          some p) := by
  unfold ravb_mediats_open
  by_cases h1 : capture_unit ≥ n ∨ prescaler = 0
  · left; rw [if_pos h1]
  · rw [if_neg h1]
    cases kv with
    | none => left; rfl
    | some p =>
      dsimp only
      by_cases h2 : ((priv.avtp_capture.getD capture_unit []).any
          fun it => it.prescaler != prescaler) = true
      · left; rw [if_pos h2]
      · right
        rw [if_neg h2]
        refine ⟨p, rfl, by omega, fun h => h1 (Or.inr h), ?_, ?_⟩
        · intro it hit
          by_contra hne
          apply h2
          rw [List.any_eq_true]
          exact ⟨it, hit, by simpa using hne⟩
        · by_cases he : (priv.avtp_capture.getD capture_unit []).isEmpty = true
          · by_cases hg : gis_read &&& ravb_avtp_capture_gis_bit capture_unit ≠ 0
            · simp only [if_pos he, if_pos hg, open_first_writes]
              rfl
            · simp only [if_pos he, if_neg hg, open_first_writes]
              rfl
          · simp only [if_neg he]
            rfl

/-- When `ravb_mediats_open` succeeds: a valid unit, a non-zero prescaler, an
allocation, and no subscriber of the unit with another prescaler. -/
theorem open_success (n : Nat) (priv : ravb_private) (p : Nat)
    (gis_read capture_unit prescaler ring_size : Nat) (hu : capture_unit < n)
    (hp : prescaler ≠ 0)
    (hsame : ∀ it ∈ priv.avtp_capture.getD capture_unit [], it.prescaler = prescaler) :
    ravb_mediats_open n priv (some p) gis_read capture_unit prescaler ring_size =
      ({ (if (priv.avtp_capture.getD capture_unit []).isEmpty then
            open_first_writes priv gis_read capture_unit prescaler else priv) with
          avtp_capture :=
            priv.avtp_capture.set capture_unit
              (open_ctx p capture_unit prescaler ring_size ::
                priv.avtp_capture.getD capture_unit []) },
        some p) := by
  rcases open_cases n priv (some p) gis_read capture_unit prescaler ring_size with h | h
  · exfalso
    unfold ravb_mediats_open at h
    rw [if_neg (by intro hc; rcases hc with hc | hc; omega; exact hp hc)] at h
    dsimp only at h
    have hany : ((priv.avtp_capture.getD capture_unit []).any
        fun it => it.prescaler != prescaler) = false := by
      rw [List.any_eq_false]
      intro it hit
      simpa using hsame it hit
    rw [hany] at h
    simp at h
  · obtain ⟨q, hq, _, _, _, he⟩ := h
    cases hq
    exact he

/-! ## Calls through a handle -/

/-- Lookup of a handle whose object is the only subscriber of unit `u`, while
the units below `u` have no subscriber. -/
theorem find_ctx_from_sole (u : Nat) :
    ∀ (ls : List (List ravb_avtp_capture)) (k : Nat) (c : ravb_avtp_capture) (p : Nat),
      ls[u]? = some [c] → c.addr = p → (∀ v, v < u → ls[v]? = some []) →
      find_ctx_from ls k p = some (k + u, c) := by
  induction u with
  | zero =>
    intro ls k c p h0 hp _
    cases ls with
    | nil => simp at h0
    | cons l rest =>
      simp only [List.getElem?_cons_zero, Option.some.injEq] at h0
      subst h0
      simp [find_ctx_from, hp]
  | succ u ih =>
    intro ls k c p hu hp hlow
    cases ls with
    | nil => simp at hu
    | cons l rest =>
      have h0 := hlow 0 (by omega)
      simp only [List.getElem?_cons_zero, Option.some.injEq] at h0
      subst h0
      simp only [List.getElem?_cons_succ] at hu
      have hrest : ∀ v, v < u → rest[v]? = some [] := by
        intro v hv
        have := hlow (v + 1) (by omega)
        simpa using this
      have := ih rest (k + 1) c p hu hp hrest
      simp only [find_ctx_from, List.find?_nil]
      rw [this]
      congr 2
      omega

/-- A call through the handle of a sole subscriber acts on its object. -/
theorem mediats_call_sole {α : Type} (priv : ravb_private) (u p : Nat) (c : ravb_avtp_capture)
    (f : ravb_avtp_capture → ravb_avtp_capture × α)
    (hu : priv.avtp_capture[u]? = some [c]) (hp : c.addr = p)
    (hlow : ∀ v, v < u → priv.avtp_capture[v]? = some []) :
    mediats_call priv p f =
      some ({ priv with avtp_capture := priv.avtp_capture.set u [(f c).1] }, (f c).2) := by
  unfold mediats_call find_ctx
  have := find_ctx_from_sole u priv.avtp_capture 0 c p hu hp hlow
  rw [Nat.zero_add] at this
  rw [this]
  simp [List.getD_eq_getElem?_getD, hu, hp]

theorem get_nonblocking_addr (c : ravb_avtp_capture) : (get_nonblocking c).1.addr = c.addr := by
  unfold get_nonblocking ravb_mediats_get ravb_mediats_get_tail
  simp only [Bool.not_true, Bool.false_eq_true, if_false, Bool.not_false, if_true]
  split_ifs <;> rfl

/-- Successive gets through the handle of a sole subscriber are successive gets
on its object. -/
theorem mediats_gets_sole (u p : Nat) (hn : Nat) :
    ∀ (priv : ravb_private) (c : ravb_avtp_capture),
      priv.avtp_capture[u]? = some [c] → c.addr = p →
      (∀ v, v < u → priv.avtp_capture[v]? = some []) →
      mediats_gets priv p hn = ring_gets c hn := by
  induction hn with
  | zero => intro _ _ _ _ _; rfl
  | succ n ih =>
    intro priv c hu hp hlow
    have hlt : u < priv.avtp_capture.length := by
      by_contra hcon
      rw [List.getElem?_eq_none (by omega)] at hu
      exact absurd hu (by simp)
    simp only [mediats_gets, ring_gets]
    rw [mediats_call_sole priv u p c get_nonblocking hu hp hlow]
    dsimp only
    congr 1
    apply ih
    · exact List.getElem?_set_self hlt
    · rw [get_nonblocking_addr, hp]
    · intro v hv
      show (priv.avtp_capture.set u _)[v]? = _
      rw [List.getElem?_set_ne (by omega)]
      exact hlow v hv

theorem capture_int_unit_addr (c : ravb_avtp_capture) (t : Nat) :
    (ravb_avtp_capture_int_unit c t).1.addr = c.addr := by
  unfold ravb_avtp_capture_int_unit
  split_ifs <;> rfl

theorem capture_events_addr (ts : List Nat) :
    ∀ c : ravb_avtp_capture, (capture_events c ts).addr = c.addr := by
  induction ts with
  | nil => intro c; rfl
  | cons t ts ih =>
    intro c
    show (capture_events (ravb_avtp_capture_int_unit c t).1 ts).addr = _
    rw [ih, capture_int_unit_addr]

/-- A sequence of capture interrupts with the bit of unit `u` pending, on a
state where unit `u` has a sole subscriber and no unit below has any: the
subscriber sees the capture events in order, the shape of the state stays. -/
theorem capture_ints_sole (n u : Nat) (hu : u < n) (evs : List (Nat × (Nat → Nat))) :
    ∀ (priv : ravb_private) (c : ravb_avtp_capture),
      priv.avtp_capture[u]? = some [c] →
      (∀ v, v < u → priv.avtp_capture[v]? = some []) →
      (∀ ev ∈ evs, ev.1 &&& ravb_avtp_capture_gis_bit u ≠ 0) →
      (capture_ints n priv evs).avtp_capture[u]? =
        some [capture_events c (evs.map fun ev => ev.2 u)] ∧
      (∀ v, v < u → (capture_ints n priv evs).avtp_capture[v]? = some []) := by
  induction evs with
  | nil => intro priv c h1 h2 _; exact ⟨h1, h2⟩
  | cons ev evs ih =>
    intro priv c h1 h2 hb
    have hbit := hb ev (List.mem_cons_self _ _)
    simp only [capture_ints, List.map_cons]
    apply ih
    · rw [capture_int_lists, if_pos ⟨hu, hbit⟩, h1]
      rfl
    · intro v hv
      rw [capture_int_lists, h2 v hv]
      split_ifs <;> rfl
    · intro e he
      exact hb e (List.mem_cons_of_mem _ he)

/-! ## The concrete overrun scenario -/

/-- Claim C3, as the code has it.  After `open` of unit 2 with prescaler 4 and
`ring_size` 4 on the initialised state, and four capture interrupts of unit 2
with the timestamps `r1 2`, `r2 2`, `r3 2`, `r4 2` before any get, five
successive non-blocking gets return: the I/O error (once, first), then the
first three timestamps in order, then `EAGAIN`.  The fourth timestamp is
dropped. -/
theorem scenario_overrun_reported_first (n p gic gis_read g1 g2 g3 g4 : Nat)
    (r1 r2 r3 r4 : Nat → Nat) (hn : 2 < n)
    (h1 : g1 &&& ravb_avtp_capture_gis_bit 2 ≠ 0)
    (h2 : g2 &&& ravb_avtp_capture_gis_bit 2 ≠ 0)
    (h3 : g3 &&& ravb_avtp_capture_gis_bit 2 ≠ 0)
    (h4 : g4 &&& ravb_avtp_capture_gis_bit 2 ≠ 0) :
    (ravb_mediats_open n (ravb_ptp_init n gic) (some p) gis_read 2 4 4).2 = some p ∧
    mediats_gets
        (capture_ints n (ravb_mediats_open n (ravb_ptp_init n gic) (some p) gis_read 2 4 4).1
          [(g1, r1), (g2, r2), (g3, r3), (g4, r4)]) p 5 =
      [(-EIO_errno, none), (0, some (r1 2)), (0, some (r2 2)), (0, some (r3 2)),
        (-EAGAIN_errno, none)] := by
  have hinit : ∀ v, v < n → (ravb_ptp_init n gic).avtp_capture[v]? = some [] := by
    intro v hv
    simp [ravb_ptp_init, List.getElem?_replicate, hv]
  have hopen := open_success n (ravb_ptp_init n gic) p gis_read 2 4 4 hn (by decide)
    (by
      intro it hit
      rw [List.getD_eq_getElem?_getD, hinit 2 hn] at hit
      simp at hit)
  rw [hopen]
  refine ⟨rfl, ?_⟩
  have hlen : 2 < (ravb_ptp_init n gic).avtp_capture.length := by
    simp [ravb_ptp_init, hn]
  have hshape := capture_ints_sole n 2 hn [(g1, r1), (g2, r2), (g3, r3), (g4, r4)]
    { (if ((ravb_ptp_init n gic).avtp_capture.getD 2 []).isEmpty then
          open_first_writes (ravb_ptp_init n gic) gis_read 2 4 else ravb_ptp_init n gic) with
        avtp_capture :=
          (ravb_ptp_init n gic).avtp_capture.set 2
            (open_ctx p 2 4 4 :: (ravb_ptp_init n gic).avtp_capture.getD 2 []) }
    (open_ctx p 2 4 4)
    (by
      show ((ravb_ptp_init n gic).avtp_capture.set 2 _)[2]? = _
      rw [List.getElem?_set_self hlen, List.getD_eq_getElem?_getD, hinit 2 hn]
      rfl)
    (by
      intro v hv
      show ((ravb_ptp_init n gic).avtp_capture.set 2 _)[v]? = _
      rw [List.getElem?_set_ne (by omega)]
      exact hinit v (by omega))
    (by
      intro ev hev
      simp only [List.mem_cons, List.mem_singleton, List.not_mem_nil, or_false] at hev
      rcases hev with h | h | h | h <;> subst h <;> assumption)
  rw [mediats_gets_sole 2 p 5 _ _ hshape.1 (by rw [capture_events_addr]; rfl) hshape.2]
  simp [ring_gets, get_nonblocking, ravb_mediats_get, ravb_mediats_get_tail, capture_events,
    ravb_avtp_capture_int_unit, open_ctx]

/-- Witness for C3 as the code has it: sixteen units, handle 1000, timestamps
10, 20, 30, 40. -/
theorem scenario_overrun_reported_first_witness :
    (ravb_mediats_open 16 (ravb_ptp_init 16 0) (some 1000) 0 2 4 4).2 = some 1000 ∧
    mediats_gets
        (capture_ints 16 (ravb_mediats_open 16 (ravb_ptp_init 16 0) (some 1000) 0 2 4 4).1
          [(0x40000, fun _ => 10), (0x40000, fun _ => 20), (0x40000, fun _ => 30),
            (0x40000, fun _ => 40)]) 1000 5 =
      [(-EIO_errno, none), (0, some 10), (0, some 20), (0, some 30), (-EAGAIN_errno, none)] :=
  scenario_overrun_reported_first 16 1000 0 0 0x40000 0x40000 0x40000 0x40000
    (fun _ => 10) (fun _ => 20) (fun _ => 30) (fun _ => 40)
    (by decide) (by decide) (by decide) (by decide) (by decide)

/-- Counterexample to claim C3 as stated: with sixteen units, handle 1000 and
the timestamps 10, 20, 30, 40, the first get returns the I/O error and no
timestamp, and the five gets do not return 10, 20, 30, I/O error, `EAGAIN`. -/
theorem scenario_claimed_order_fails :
    (mediats_gets
        (capture_ints 16 (ravb_mediats_open 16 (ravb_ptp_init 16 0) (some 1000) 0 2 4 4).1
          [(0x40000, fun _ => 10), (0x40000, fun _ => 20), (0x40000, fun _ => 30),
            (0x40000, fun _ => 40)]) 1000 5).head? = some (-EIO_errno, none) ∧
    mediats_gets
        (capture_ints 16 (ravb_mediats_open 16 (ravb_ptp_init 16 0) (some 1000) 0 2 4 4).1
          [(0x40000, fun _ => 10), (0x40000, fun _ => 20), (0x40000, fun _ => 30),
            (0x40000, fun _ => 40)]) 1000 5 ≠
      [(0, some 10), (0, some 20), (0, some 30), (-EIO_errno, none), (-EAGAIN_errno, none)] := by
  decide

/-! ## Overrun report and flush -/

/-- Claim C4.  On a context with `overruns > 0`, for both values of the blocking
flag (and a valid out pointer), `get` returns the I/O error, delivers no
timestamp, sets `overruns` to 0 and leaves `read_pos`, `write_pos` and the
buffered timestamps unchanged, whether or not the ring is empty; a get issued
right after it does not return the I/O error, whatever its blocking flag and
whatever happens during its wait. -/
theorem get_reports_overrun_once (c : ravb_avtp_capture) (wait wait2 : Bool)
    (sleep sleep2 : ravb_avtp_capture → ravb_avtp_capture × Bool) (hov : 0 < c.overruns) :
    ravb_mediats_get true c wait sleep = ({ c with overruns := 0 }, -EIO_errno, none) ∧
    (ravb_mediats_get true c wait sleep).1.overruns = 0 ∧
    (ravb_mediats_get true c wait sleep).1.read_pos = c.read_pos ∧
    (ravb_mediats_get true c wait sleep).1.write_pos = c.write_pos ∧
    (ravb_mediats_get true c wait sleep).1.timestamps = c.timestamps ∧
    (ravb_mediats_get true (ravb_mediats_get true c wait sleep).1 wait2 sleep2).2.1 ≠
      -EIO_errno := by
  have h : ravb_mediats_get true c wait sleep = ({ c with overruns := 0 }, -EIO_errno, none) := by
    unfold ravb_mediats_get
    simp [hov]
  rw [h]
  refine ⟨rfl, rfl, rfl, rfl, rfl, ?_⟩
  unfold ravb_mediats_get ravb_mediats_get_tail
  simp only [Bool.not_true, Bool.false_eq_true, if_false, gt_iff_lt, lt_self_iff_false]
  split_ifs <;> simp [EIO_errno, EAGAIN_errno, ERESTARTSYS_errno]

/-- Witness for C4: a ring holding two timestamps with three overruns counted. -/
theorem get_reports_overrun_once_witness :
    ravb_mediats_get true ⟨7, 4, 1, 3, 3, 2, 4, [0, 10, 20, 0]⟩ true (fun x => (x, false)) =
        ({ (⟨7, 4, 1, 3, 3, 2, 4, [0, 10, 20, 0]⟩ : ravb_avtp_capture) with overruns := 0 },
          -EIO_errno, none) ∧
    (ravb_mediats_get true ⟨7, 4, 1, 3, 3, 2, 4, [0, 10, 20, 0]⟩ true
      (fun x => (x, false))).1.overruns = 0 ∧
    (ravb_mediats_get true ⟨7, 4, 1, 3, 3, 2, 4, [0, 10, 20, 0]⟩ true
      (fun x => (x, false))).1.read_pos = 1 ∧
    (ravb_mediats_get true ⟨7, 4, 1, 3, 3, 2, 4, [0, 10, 20, 0]⟩ true
      (fun x => (x, false))).1.write_pos = 3 ∧
    (ravb_mediats_get true ⟨7, 4, 1, 3, 3, 2, 4, [0, 10, 20, 0]⟩ true
      (fun x => (x, false))).1.timestamps = [0, 10, 20, 0] ∧
    (ravb_mediats_get true
      (ravb_mediats_get true ⟨7, 4, 1, 3, 3, 2, 4, [0, 10, 20, 0]⟩ true
        (fun x => (x, false))).1 false (fun x => (x, false))).2.1 ≠ -EIO_errno :=
  get_reports_overrun_once ⟨7, 4, 1, 3, 3, 2, 4, [0, 10, 20, 0]⟩ true false
    (fun x => (x, false)) (fun x => (x, false)) (by decide)

/-- Claim C5.  In every state of a context (any cursors, any `overruns`),
`flush` returns 0, and a non-blocking get (with a valid out pointer) issued
right after it returns `EAGAIN`, delivers nothing and leaves the context as
`flush` left it: `overruns = 0`, `read_pos = write_pos`, the old `write_pos`. -/
theorem flush_then_get_eagain (c : ravb_avtp_capture)
    (sleep : ravb_avtp_capture → ravb_avtp_capture × Bool) :
    (ravb_mediats_flush c).2 = 0 ∧
    ravb_mediats_get true (ravb_mediats_flush c).1 false sleep =
      ((ravb_mediats_flush c).1, -EAGAIN_errno, none) ∧
    (ravb_mediats_flush c).1 = { c with overruns := 0, read_pos := c.write_pos } := by
  refine ⟨rfl, ?_, rfl⟩
  unfold ravb_mediats_get ravb_mediats_flush
  simp

/-! ## The ring invariant -/

/-- Every atomic step keeps `ring_size` and keeps both cursors below it. -/
theorem ring_step_cursors (c : ravb_avtp_capture) (ev : ring_event)
    (hr : c.read_pos < c.ring_size) (hw : c.write_pos < c.ring_size) :
    (ring_step c ev).ring_size = c.ring_size ∧
    (ring_step c ev).read_pos < c.ring_size ∧
    (ring_step c ev).write_pos < c.ring_size := by
  have hpos : 0 < c.ring_size := by omega
  cases ev with
  | capture t =>
    simp only [ring_step, ravb_avtp_capture_int_unit]
    split_ifs
    · exact ⟨rfl, hr, hw⟩
    · exact ⟨rfl, hr, Nat.mod_lt _ hpos⟩
  | get avtp wait =>
    simp only [ring_step, ravb_mediats_get, ravb_mediats_get_tail]
    split_ifs <;> first | exact ⟨rfl, hr, hw⟩ | exact ⟨rfl, Nat.mod_lt _ hpos, hw⟩
  | wake cancelled =>
    simp only [ring_step, ravb_mediats_get_tail]
    split_ifs <;> first | exact ⟨rfl, hr, hw⟩ | exact ⟨rfl, Nat.mod_lt _ hpos, hw⟩
  | flush =>
    exact ⟨rfl, hw, hw⟩

/-- Every sequence of atomic steps keeps `ring_size` and keeps both cursors
below it. -/
theorem ring_steps_cursors (evs : List ring_event) :
    ∀ c : ravb_avtp_capture, c.read_pos < c.ring_size → c.write_pos < c.ring_size →
      (ring_steps c evs).ring_size = c.ring_size ∧
      (ring_steps c evs).read_pos < c.ring_size ∧
      (ring_steps c evs).write_pos < c.ring_size := by
  induction evs with
  | nil => intro c hr hw; exact ⟨rfl, hr, hw⟩
  | cons ev evs ih =>
    intro c hr hw
    obtain ⟨h1, h2, h3⟩ := ring_step_cursors c ev hr hw
    obtain ⟨k1, k2, k3⟩ := ih (ring_step c ev) (by omega) (by omega)
    show (ring_steps (ring_step c ev) evs).ring_size = c.ring_size ∧
      (ring_steps (ring_step c ev) evs).read_pos < c.ring_size ∧
      (ring_steps (ring_step c ev) evs).write_pos < c.ring_size
    exact ⟨by omega, by omega, by omega⟩

/-- The count of a ring, as the spec writes it: `(write_pos - read_pos)` modulo
`ring_size`, over the integers. -/
theorem ring_count_int (c : ravb_avtp_capture) (hr : c.read_pos < c.ring_size) :
    (ring_count c : Int) = ((c.write_pos : Int) - c.read_pos) % c.ring_size := by
  unfold ring_count
  rw [Int.natCast_mod, Nat.cast_sub (by omega), Nat.cast_add]
  rw [show (c.write_pos : Int) + c.ring_size - c.read_pos =
    (c.write_pos : Int) - c.read_pos + c.ring_size by ring, Int.add_emod_self]

/-- Claim C6.  For a context created by `open` with `ring_size >= 2`, after every
sequence of capture events, gets (blocking or not, returning or sleeping), ends
of sleeps and flushes: both cursors are below `ring_size`; a capture event that
stores its timestamp advances `write_pos` and does not make it equal to
`read_pos`; and the number of buffered timestamps, `(write_pos - read_pos)`
modulo `ring_size`, is at most `ring_size - 1`. -/
theorem ring_never_collides (p capture_unit prescaler ring_size : Nat)
    (evs : List ring_event) (t : Nat) (hsize : 2 ≤ ring_size) :
    (ring_steps (open_ctx p capture_unit prescaler ring_size) evs).ring_size = ring_size ∧
    (ring_steps (open_ctx p capture_unit prescaler ring_size) evs).read_pos < ring_size ∧
    (ring_steps (open_ctx p capture_unit prescaler ring_size) evs).write_pos < ring_size ∧
    ((ravb_avtp_capture_int_unit
        (ring_steps (open_ctx p capture_unit prescaler ring_size) evs) t).2 = true →
      (ravb_avtp_capture_int_unit
          (ring_steps (open_ctx p capture_unit prescaler ring_size) evs) t).1.write_pos ≠
        (ring_steps (open_ctx p capture_unit prescaler ring_size) evs).write_pos ∧
      (ravb_avtp_capture_int_unit
          (ring_steps (open_ctx p capture_unit prescaler ring_size) evs) t).1.write_pos ≠
        (ravb_avtp_capture_int_unit
          (ring_steps (open_ctx p capture_unit prescaler ring_size) evs) t).1.read_pos) ∧
    (((ring_steps (open_ctx p capture_unit prescaler ring_size) evs).write_pos : Int) -
        (ring_steps (open_ctx p capture_unit prescaler ring_size) evs).read_pos) %
      (ring_size : Int) ≤ (ring_size : Int) - 1 ∧
    (ring_pending (ring_steps (open_ctx p capture_unit prescaler ring_size) evs)).length =
      ((((ring_steps (open_ctx p capture_unit prescaler ring_size) evs).write_pos : Int) -
        (ring_steps (open_ctx p capture_unit prescaler ring_size) evs).read_pos) %
      (ring_size : Int)).toNat := by
  have h0r : (open_ctx p capture_unit prescaler ring_size).read_pos <
      (open_ctx p capture_unit prescaler ring_size).ring_size := by
    show 0 < ring_size
    omega
  obtain ⟨h1, h2, h3⟩ :=
    ring_steps_cursors evs (open_ctx p capture_unit prescaler ring_size) h0r h0r
  have e0 : (open_ctx p capture_unit prescaler ring_size).ring_size = ring_size := rfl
  rw [e0] at h1 h2 h3
  generalize ring_steps (open_ctx p capture_unit prescaler ring_size) evs = c at h1 h2 h3 ⊢
  have hci := ring_count_int c (by omega)
  have hcl := ring_count_lt c (by omega)
  rw [h1] at hci hcl
  refine ⟨h1, h2, h3, ?_, ?_, ?_⟩
  · intro hstore
    unfold ravb_avtp_capture_int_unit at hstore ⊢
    by_cases hfull : (c.write_pos + 1) % 4294967296 % c.ring_size = c.read_pos
    · rw [if_pos hfull] at hstore
      exact absurd hstore (by simp)
    · rw [if_neg hfull]
      refine ⟨?_, hfull⟩
      show (c.write_pos + 1) % 4294967296 % c.ring_size ≠ c.write_pos
      rw [h1]
      by_cases hlt : c.write_pos + 1 < 4294967296
      · rw [Nat.mod_eq_of_lt hlt, mod_lt_two_mul _ _ (by omega)]
        split_ifs <;> omega
      · have : (c.write_pos + 1) % 4294967296 < 4294967296 := Nat.mod_lt _ (by omega)
        have : (c.write_pos + 1) % 4294967296 % ring_size ≤ (c.write_pos + 1) % 4294967296 :=
          Nat.mod_le _ _
        omega
  · rw [← hci]
    omega
  · rw [← hci]
    simp [ring_pending]

/-- Witness for C6: a ring of three slots, filled, overrun, read by a blocking
get and a wake-up, flushed; then a capture event with timestamp 5. -/
theorem ring_never_collides_witness :
    (ring_steps (open_ctx 7 2 4 3)
      [.capture 1, .capture 2, .capture 3, .get true true, .wake false, .flush]).ring_size = 3 ∧
    (ring_steps (open_ctx 7 2 4 3)
      [.capture 1, .capture 2, .capture 3, .get true true, .wake false, .flush]).read_pos < 3 ∧
    (ring_steps (open_ctx 7 2 4 3)
      [.capture 1, .capture 2, .capture 3, .get true true, .wake false, .flush]).write_pos < 3 ∧
    ((ravb_avtp_capture_int_unit (ring_steps (open_ctx 7 2 4 3)
      [.capture 1, .capture 2, .capture 3, .get true true, .wake false, .flush]) 5).2 = true →
      (ravb_avtp_capture_int_unit (ring_steps (open_ctx 7 2 4 3)
      [.capture 1, .capture 2, .capture 3, .get true true, .wake false, .flush]) 5).1.write_pos ≠
        (ring_steps (open_ctx 7 2 4 3)
      [.capture 1, .capture 2, .capture 3, .get true true, .wake false, .flush]).write_pos ∧
      (ravb_avtp_capture_int_unit (ring_steps (open_ctx 7 2 4 3)
      [.capture 1, .capture 2, .capture 3, .get true true, .wake false, .flush]) 5).1.write_pos ≠
        (ravb_avtp_capture_int_unit (ring_steps (open_ctx 7 2 4 3)
      [.capture 1, .capture 2, .capture 3, .get true true, .wake false, .flush]) 5).1.read_pos) ∧
    (((ring_steps (open_ctx 7 2 4 3)
      [.capture 1, .capture 2, .capture 3, .get true true, .wake false, .flush]).write_pos : Int) -
        (ring_steps (open_ctx 7 2 4 3)
      [.capture 1, .capture 2, .capture 3, .get true true, .wake false, .flush]).read_pos) %
      ((3 : Nat) : Int) ≤ ((3 : Nat) : Int) - 1 ∧
    (ring_pending (ring_steps (open_ctx 7 2 4 3)
      [.capture 1, .capture 2, .capture 3, .get true true, .wake false, .flush])).length =
      ((((ring_steps (open_ctx 7 2 4 3)
      [.capture 1, .capture 2, .capture 3, .get true true, .wake false, .flush]).write_pos : Int) -
        (ring_steps (open_ctx 7 2 4 3)
      [.capture 1, .capture 2, .capture 3, .get true true, .wake false, .flush]).read_pos) %
      ((3 : Nat) : Int)).toNat :=
  ring_never_collides 7 2 4 3
    [.capture 1, .capture 2, .capture 3, .get true true, .wake false, .flush] 5 (by decide)

/-! ## One prescaler per unit -/

/-- Claim C7.  If the unit has a subscriber whose prescaler differs from the
requested one, `open` returns NULL and leaves the whole state as it was: every
list, every context, the interrupt mask, and the log of register writes (so
neither the mapping register nor any other register is written).  This holds
for every outcome of the allocation and every `ring_size`. -/
theorem open_other_prescaler_fails (n : Nat) (priv : ravb_private) (kv : Option Nat)
    (gis_read capture_unit prescaler ring_size : Nat) (it : ravb_avtp_capture)
    (hmem : it ∈ priv.avtp_capture.getD capture_unit [])
    (hne : it.prescaler ≠ prescaler) :
    ravb_mediats_open n priv kv gis_read capture_unit prescaler ring_size = (priv, none) := by
  rcases open_cases n priv kv gis_read capture_unit prescaler ring_size with h | h
  · exact h
  · obtain ⟨_, _, _, _, hsame, _⟩ := h
    exact absurd (hsame it hmem) hne

/-- Witness for C7: unit 1 has a subscriber with prescaler 4, the request asks
for prescaler 5. -/
theorem open_other_prescaler_fails_witness :
    ravb_mediats_open 16 ⟨[[], [open_ctx 7 1 4 3], []], 0x20000, []⟩ (some 9) 0 1 5 3 =
      (⟨[[], [open_ctx 7 1 4 3], []], 0x20000, []⟩, none) :=
  open_other_prescaler_fails 16 ⟨[[], [open_ctx 7 1 4 3], []], 0x20000, []⟩ (some 9) 0 1 5 3
    (open_ctx 7 1 4 3) (by decide) (by decide)

/-! ## Two subscribers of one unit -/

/-- Fan-out over a sequence of interrupts: every subscriber of a unit whose bit
is pending in each of them sees every capture event, in order. -/
theorem capture_ints_unit_list (n u : Nat) (hu : u < n) (evs : List (Nat × (Nat → Nat))) :
    ∀ priv : ravb_private,
      (∀ ev ∈ evs, ev.1 &&& ravb_avtp_capture_gis_bit u ≠ 0) →
      (capture_ints n priv evs).avtp_capture.getD u [] =
        (priv.avtp_capture.getD u []).map
          fun c => capture_events c (evs.map fun ev => ev.2 u) := by
  induction evs with
  | nil =>
    intro priv _
    simp [capture_ints, capture_events]
  | cons ev evs ih =>
    intro priv hb
    simp only [capture_ints]
    rw [ih _ (fun e he => hb e (List.mem_cons_of_mem _ he)),
      capture_int_unit_list n priv ev.1 ev.2 u hu (hb ev (List.mem_cons_self _ _)),
      List.map_map]
    rfl

/-- The handle and the lists after a successful `ravb_mediats_open`. -/
theorem open_success_lists (n : Nat) (priv : ravb_private) (p : Nat)
    (gis_read capture_unit prescaler ring_size : Nat) (hu : capture_unit < n)
    (hp : prescaler ≠ 0)
    (hsame : ∀ it ∈ priv.avtp_capture.getD capture_unit [], it.prescaler = prescaler) :
    (ravb_mediats_open n priv (some p) gis_read capture_unit prescaler ring_size).2 = some p ∧
    (ravb_mediats_open n priv (some p) gis_read capture_unit prescaler
        ring_size).1.avtp_capture =
      priv.avtp_capture.set capture_unit
        (open_ctx p capture_unit prescaler ring_size ::
          priv.avtp_capture.getD capture_unit []) := by
  rw [open_success n priv p gis_read capture_unit prescaler ring_size hu hp hsame]
  exact ⟨rfl, rfl⟩

/-- Claim C8, as the code has it.  On a unit below `NUM_AVTP_CAPTURE` whose
subscribers, if any, all have the prescaler `prescaler ≠ 0`, two opens with
that prescaler whose allocations succeed both return their handle, and the two
new contexts head the list of the unit.  Every later capture interrupt of the
unit is applied to both (and to every older subscriber): each context runs the
body of the handler on every event, which stores the timestamp if the ring of
that context is not full and counts an overrun otherwise. -/
theorem open_twice_fan_out (n : Nat) (priv : ravb_private) (p1 p2 g1 g2 : Nat)
    (capture_unit prescaler rs1 rs2 : Nat) (evs : List (Nat × (Nat → Nat)))
    (hlen : priv.avtp_capture.length = n) (hu : capture_unit < n) (hp : prescaler ≠ 0)
    (hsame : ∀ it ∈ priv.avtp_capture.getD capture_unit [], it.prescaler = prescaler)
    (hb : ∀ ev ∈ evs, ev.1 &&& ravb_avtp_capture_gis_bit capture_unit ≠ 0) :
    (ravb_mediats_open n priv (some p1) g1 capture_unit prescaler rs1).2 = some p1 ∧
    (ravb_mediats_open n
      (ravb_mediats_open n priv (some p1) g1 capture_unit prescaler rs1).1
      (some p2) g2 capture_unit prescaler rs2).2 = some p2 ∧
    (capture_ints n
      (ravb_mediats_open n
        (ravb_mediats_open n priv (some p1) g1 capture_unit prescaler rs1).1
        (some p2) g2 capture_unit prescaler rs2).1 evs).avtp_capture.getD capture_unit [] =
      capture_events (open_ctx p2 capture_unit prescaler rs2)
          (evs.map fun ev => ev.2 capture_unit) ::
        capture_events (open_ctx p1 capture_unit prescaler rs1)
          (evs.map fun ev => ev.2 capture_unit) ::
        (priv.avtp_capture.getD capture_unit []).map
          fun c => capture_events c (evs.map fun ev => ev.2 capture_unit) := by
  have hlt : capture_unit < priv.avtp_capture.length := by omega
  obtain ⟨a1, b1⟩ := open_success_lists n priv p1 g1 capture_unit prescaler rs1 hu hp hsame
  generalize ravb_mediats_open n priv (some p1) g1 capture_unit prescaler rs1 = r1 at a1 b1 ⊢
  have hl1 : r1.1.avtp_capture.getD capture_unit [] =
      open_ctx p1 capture_unit prescaler rs1 :: priv.avtp_capture.getD capture_unit [] := by
    rw [b1, List.getD_eq_getElem?_getD, List.getElem?_set_self hlt]
    rfl
  have hsame1 : ∀ it ∈ r1.1.avtp_capture.getD capture_unit [], it.prescaler = prescaler := by
    intro it hit
    rw [hl1] at hit
    rcases List.mem_cons.1 hit with h | h
    · rw [h]; rfl
    · exact hsame it h
  have hlt1 : capture_unit < r1.1.avtp_capture.length := by
    rw [b1, List.length_set]; exact hlt
  obtain ⟨a2, b2⟩ := open_success_lists n r1.1 p2 g2 capture_unit prescaler rs2 hu hp hsame1
  generalize ravb_mediats_open n r1.1 (some p2) g2 capture_unit prescaler rs2 = r2 at a2 b2 ⊢
  refine ⟨a1, a2, ?_⟩
  rw [capture_ints_unit_list n capture_unit hu evs _ hb, b2, List.getD_eq_getElem?_getD,
    List.getElem?_set_self hlt1, hl1]
  rfl

/-- Witness for C8 as the code has it: unit 1 of three, no earlier subscriber,
rings of 2 and 3 slots, two capture interrupts. -/
theorem open_twice_fan_out_witness :
    (ravb_mediats_open 3 (ravb_ptp_init 3 0) (some 100) 0 1 4 2).2 = some 100 ∧
    (ravb_mediats_open 3
      (ravb_mediats_open 3 (ravb_ptp_init 3 0) (some 100) 0 1 4 2).1
      (some 200) 0 1 4 3).2 = some 200 ∧
    (capture_ints 3
      (ravb_mediats_open 3
        (ravb_mediats_open 3 (ravb_ptp_init 3 0) (some 100) 0 1 4 2).1
        (some 200) 0 1 4 3).1
      [(0x20000, fun _ => 10), (0x20000, fun _ => 20)]).avtp_capture.getD 1 [] =
      capture_events (open_ctx 200 1 4 3)
          ([(0x20000, fun _ => 10), (0x20000, fun _ => 20)].map
            fun (ev : Nat × (Nat → Nat)) => ev.2 1) ::
        capture_events (open_ctx 100 1 4 2)
          ([(0x20000, fun _ => 10), (0x20000, fun _ => 20)].map
            fun (ev : Nat × (Nat → Nat)) => ev.2 1) ::
        ((ravb_ptp_init 3 0).avtp_capture.getD 1 []).map
          fun c => capture_events c
            ([(0x20000, fun _ => 10), (0x20000, fun _ => 20)].map
              fun (ev : Nat × (Nat → Nat)) => ev.2 1) :=
  open_twice_fan_out 3 (ravb_ptp_init 3 0) 100 200 0 0 1 4 2 3
    [(0x20000, fun _ => 10), (0x20000, fun _ => 20)] rfl (by decide) (by decide)
    (by decide) (by decide)

/-- Counterexample to claim C8 as stated: two contexts opened on unit 1 with
prescaler 4, rings of 2 and 3 slots.  Both opens succeed.  Of the capture
events 10 and 20 that follow, the context with two slots enqueues only 10: it
counts 20 as an overrun and does not store it, while the other context stores
both. -/
theorem fan_out_not_always_enqueued :
    (ravb_mediats_open 3 (ravb_ptp_init 3 0) (some 100) 0 1 4 2).2 = some 100 ∧
    (ravb_mediats_open 3
      (ravb_mediats_open 3 (ravb_ptp_init 3 0) (some 100) 0 1 4 2).1
      (some 200) 0 1 4 3).2 = some 200 ∧
    (capture_ints 3
      (ravb_mediats_open 3
        (ravb_mediats_open 3 (ravb_ptp_init 3 0) (some 100) 0 1 4 2).1
        (some 200) 0 1 4 3).1
      [(0x20000, fun _ => 10), (0x20000, fun _ => 20)]).avtp_capture.getD 1 [] =
      [⟨200, 3, 0, 2, 0, 1, 4, [10, 20, 0]⟩, ⟨100, 2, 0, 1, 1, 1, 4, [10, 0]⟩] ∧
    ¬ (∀ c ∈ (capture_ints 3
        (ravb_mediats_open 3
          (ravb_mediats_open 3 (ravb_ptp_init 3 0) (some 100) 0 1 4 2).1
          (some 200) 0 1 4 3).1
        [(0x20000, fun _ => 10), (0x20000, fun _ => 20)]).avtp_capture.getD 1 [],
      20 ∈ c.timestamps) := by
  decide

/-! ## Result of open -/

/-- Claim C9.  With the array of `NUM_AVTP_CAPTURE` lists (at most 256 units, so
that a unit number fits the `u8` field): `open` returns NULL and leaves the
state as it was (no list changed, no register written) whenever
`capture_unit >= NUM_AVTP_CAPTURE` or `prescaler == 0`, for every `ring_size`
and every outcome of the allocation; and whenever `open` returns a handle, the
object behind it is new at the head of the list of the requested unit, with
`read_pos = write_pos = 0`, `overruns = 0` and the requested `ring_size`,
`prescaler` and unit. -/
theorem open_result (n : Nat) (priv : ravb_private) (kv : Option Nat)
    (gis_read capture_unit prescaler ring_size : Nat)
    (hn : n ≤ 256) (hlen : priv.avtp_capture.length = n) :
    ((capture_unit ≥ n ∨ prescaler = 0) →
      ravb_mediats_open n priv kv gis_read capture_unit prescaler ring_size = (priv, none)) ∧
    (∀ h : Nat,
      (ravb_mediats_open n priv kv gis_read capture_unit prescaler ring_size).2 = some h →
      ∃ ctx : ravb_avtp_capture,
        (ravb_mediats_open n priv kv gis_read capture_unit prescaler
          ring_size).1.avtp_capture.getD capture_unit [] =
          ctx :: priv.avtp_capture.getD capture_unit [] ∧
        ctx.addr = h ∧ ctx.read_pos = 0 ∧ ctx.write_pos = 0 ∧ ctx.overruns = 0 ∧
        ctx.ring_size = ring_size ∧ ctx.prescaler = prescaler ∧
        ctx.capture_unit = capture_unit) := by
  constructor
  · intro hbad
    unfold ravb_mediats_open
    rw [if_pos hbad]
  · intro h hh
    rcases open_cases n priv kv gis_read capture_unit prescaler ring_size with hf | hs
    · rw [hf] at hh
      exact absurd hh (by simp)
    · obtain ⟨p, _, hu, _, _, he⟩ := hs
      rw [he] at hh ⊢
      simp only [Option.some.injEq] at hh
      subst hh
      refine ⟨open_ctx p capture_unit prescaler ring_size, ?_, rfl, rfl, rfl, rfl, rfl, rfl, ?_⟩
      · show (priv.avtp_capture.set capture_unit _).getD capture_unit [] = _
        rw [List.getD_eq_getElem?_getD, List.getElem?_set_self (by omega)]
        rfl
      · show capture_unit % 256 = capture_unit
        exact Nat.mod_eq_of_lt (by omega)

/-- Witness for C9: sixteen units, no subscriber yet; a request for unit 3 with
prescaler 2 and eight slots, allocated at 500. -/
theorem open_result_witness :
    ((3 ≥ 16 ∨ 2 = 0) →
      ravb_mediats_open 16 (ravb_ptp_init 16 0) (some 500) 0 3 2 8 =
        (ravb_ptp_init 16 0, none)) ∧
    (∀ h : Nat,
      (ravb_mediats_open 16 (ravb_ptp_init 16 0) (some 500) 0 3 2 8).2 = some h →
      ∃ ctx : ravb_avtp_capture,
        (ravb_mediats_open 16 (ravb_ptp_init 16 0) (some 500) 0 3 2
          8).1.avtp_capture.getD 3 [] =
          ctx :: (ravb_ptp_init 16 0).avtp_capture.getD 3 [] ∧
        ctx.addr = h ∧ ctx.read_pos = 0 ∧ ctx.write_pos = 0 ∧ ctx.overruns = 0 ∧
        ctx.ring_size = 8 ∧ ctx.prescaler = 2 ∧ ctx.capture_unit = 3) :=
  open_result 16 (ravb_ptp_init 16 0) (some 500) 0 3 2 8 (by decide) rfl

/-! ## The interrupt mask of the capture units -/

theorem atcs_bit (u : Nat) (hu : u < 16) : (0x00010000 <<< u) % 4294967296 = 2 ^ (16 + u) := by
  have h : (0x00010000 : Nat) <<< u = 2 ^ (16 + u) := by
    rw [Nat.shiftLeft_eq, Nat.pow_add]
  rw [h]
  apply Nat.mod_eq_of_lt
  calc 2 ^ (16 + u) < 2 ^ 32 := Nat.pow_lt_pow_right (by decide) (by omega)
    _ = 4294967296 := by norm_num

/-- Effect of the unmask write of unit `u` on the mask bit of unit `v`. -/
theorem testBit_unmask (g u v : Nat) (hu : u < 16) :
    (g ||| (GIE_ATCS0 <<< u) % 4294967296).testBit (16 + v) =
      (g.testBit (16 + v) || decide (u = v)) := by
  rw [show GIE_ATCS0 = 0x00010000 from rfl, atcs_bit u hu, Nat.testBit_or, Nat.testBit_two_pow]
  congr 1
  by_cases h : u = v <;> simp [h]

/-- Effect of the mask write of unit `u` on the mask bit of unit `v`. -/
theorem testBit_mask (g u v : Nat) (hu : u < 16) (hv : v < 16) :
    (g &&& (0xFFFFFFFF ^^^ (GID_ATCD0 <<< u) % 4294967296)).testBit (16 + v) =
      (g.testBit (16 + v) && !decide (u = v)) := by
  rw [show GID_ATCD0 = 0x00010000 from rfl, atcs_bit u hu, Nat.testBit_and, Nat.testBit_xor,
    show (0xFFFFFFFF : Nat) = 2 ^ 32 - 1 by norm_num, Nat.testBit_two_pow_sub_one,
    Nat.testBit_two_pow]
  congr 1
  have h32 : 16 + v < 32 := by omega
  by_cases h : u = v <;> simp [h, h32]

/-- The writes of the first open of a unit change the mask only by the unmask
of that unit. -/
theorem open_first_writes_gic (priv : ravb_private) (gis_read capture_unit prescaler : Nat) :
    (open_first_writes priv gis_read capture_unit prescaler).gic =
      priv.gic ||| (GIE_ATCS0 <<< capture_unit) % 4294967296 := by
  unfold open_first_writes
  split_ifs <;> rfl

/-- The invariant of the capture units holds after `ravb_mediats_open`, whether
it succeeds or not. -/
theorem open_preserves_inv (n : Nat) (priv : ravb_private) (kv : Option Nat)
    (gis_read capture_unit prescaler ring_size : Nat) (hn : n ≤ 16)
    (hinv : unit_inv n priv) :
    unit_inv n (ravb_mediats_open n priv kv gis_read capture_unit prescaler ring_size).1 := by
  rcases open_cases n priv kv gis_read capture_unit prescaler ring_size with hf | hs
  · rw [hf]; exact hinv
  · obtain ⟨p, _, hu, _, _, he⟩ := hs
    rw [he]
    obtain ⟨hlen, hcu, hmask⟩ := hinv
    have hlt : capture_unit < priv.avtp_capture.length := by omega
    have hat : ∀ v, (priv.avtp_capture.set capture_unit
        (open_ctx p capture_unit prescaler ring_size ::
          priv.avtp_capture.getD capture_unit [])).getD v [] =
        if v = capture_unit then
          open_ctx p capture_unit prescaler ring_size :: priv.avtp_capture.getD capture_unit []
        else priv.avtp_capture.getD v [] := by
      intro v
      rw [List.getD_eq_getElem?_getD]
      by_cases hv : v = capture_unit
      · subst hv
        rw [if_pos rfl, List.getElem?_set_self hlt]
        rfl
      · rw [if_neg hv, List.getElem?_set_ne (fun h => hv h.symm), List.getD_eq_getElem?_getD]
    refine ⟨?_, ?_, ?_⟩
    · show (priv.avtp_capture.set capture_unit _).length = n
      rw [List.length_set]; exact hlen
    · intro v hv c hc
      change c ∈ (priv.avtp_capture.set capture_unit _).getD v [] at hc
      rw [hat] at hc
      by_cases hvu : v = capture_unit
      · rw [if_pos hvu] at hc
        rcases List.mem_cons.1 hc with h | h
        · rw [h, hvu]
          show capture_unit % 256 = capture_unit
          exact Nat.mod_eq_of_lt (by omega)
        · rw [hvu]; exact hcu capture_unit hu c h
      · rw [if_neg hvu] at hc
        exact hcu v hv c hc
    · intro v hv
      change (Nat.testBit _ (16 + v) = true ↔
        (priv.avtp_capture.set capture_unit _).getD v [] ≠ [])
      rw [hat]
      have hold := hmask v hv
      unfold avtp_irq_unmasked at hold
      by_cases he : (priv.avtp_capture.getD capture_unit []).isEmpty = true
      · rw [if_pos he]
        change ((open_first_writes priv gis_read capture_unit prescaler).gic.testBit (16 + v)
          = true ↔ _)
        rw [open_first_writes_gic, testBit_unmask _ _ _ (by omega)]
        by_cases hvu : v = capture_unit
        · subst hvu; simp
        · rw [if_neg hvu]
          have : decide (capture_unit = v) = false := by simp; exact fun h => hvu h.symm
          rw [this, Bool.or_false]
          exact hold
      · rw [if_neg he]
        by_cases hvu : v = capture_unit
        · subst hvu
          rw [if_pos rfl]
          have hne : priv.avtp_capture.getD v [] ≠ [] := by
            intro h; apply he; rw [h]; rfl
          exact ⟨fun _ => by simp, fun _ => hold.2 hne⟩
        · rw [if_neg hvu]
          exact hold

/-- What the lookup of a handle returns: an object with that address, linked in
the list of the unit returned. -/
theorem find_ctx_from_some (ls : List (List ravb_avtp_capture)) :
    ∀ (k m u : Nat) (c : ravb_avtp_capture), find_ctx_from ls k m = some (u, c) →
      k ≤ u ∧ u - k < ls.length ∧ c ∈ ls.getD (u - k) [] ∧ c.addr = m := by
  induction ls with
  | nil => intro k m u c h; simp [find_ctx_from] at h
  | cons l rest ih =>
    intro k m u c h
    unfold find_ctx_from at h
    cases hf : l.find? (fun c => c.addr == m) with
    | some d =>
      rw [hf] at h
      simp only [Option.some.injEq, Prod.mk.injEq] at h
      obtain ⟨h1, h2⟩ := h
      subst h1 h2
      have hp := List.find?_some hf
      have hm := List.mem_of_find?_eq_some hf
      refine ⟨le_refl _, by simp, ?_, by simpa using hp⟩
      simpa using hm
    | none =>
      rw [hf] at h
      obtain ⟨h1, h2, h3, h4⟩ := ih (k + 1) m u c h
      have e : u - k = (u - (k + 1)) + 1 := by omega
      refine ⟨by omega, ?_, ?_, h4⟩
      · rw [e, List.length_cons]; omega
      · rw [e]
        simpa using h3

/-- The invariant of the capture units holds after `ravb_mediats_close` of an
open handle. -/
theorem close_preserves_inv (n : Nat) (priv : ravb_private) (m : Nat)
    (r : ravb_private × Int) (hn : n ≤ 16) (hinv : unit_inv n priv)
    (hclose : ravb_mediats_close priv m = some r) : unit_inv n r.1 := by
  obtain ⟨hlen, hcu, hmask⟩ := hinv
  unfold ravb_mediats_close at hclose
  cases hf : find_ctx priv m with
  | none => rw [hf] at hclose; exact absurd hclose (by simp)
  | some uc =>
    obtain ⟨u, c⟩ := uc
    rw [hf] at hclose
    simp only [Option.some.injEq] at hclose
    obtain ⟨_, hul, hmem, _⟩ := find_ctx_from_some priv.avtp_capture 0 m u c hf
    rw [Nat.sub_zero] at hul hmem
    have hun : u < n := by omega
    have hcap : c.capture_unit = u := hcu u hun c hmem
    rw [hcap] at hclose
    have hat : ∀ v, (priv.avtp_capture.set u
        ((priv.avtp_capture.getD u []).eraseP fun c => c.addr == m)).getD v [] =
        if v = u then (priv.avtp_capture.getD u []).eraseP fun c => c.addr == m
        else priv.avtp_capture.getD v [] := by
      intro v
      rw [List.getD_eq_getElem?_getD]
      by_cases hv : v = u
      · subst hv
        rw [if_pos rfl, List.getElem?_set_self hul]
        rfl
      · rw [if_neg hv, List.getElem?_set_ne (fun h => hv h.symm), List.getD_eq_getElem?_getD]
    have hne : priv.avtp_capture.getD u [] ≠ [] := List.ne_nil_of_mem hmem
    have hbit : priv.gic.testBit (16 + u) = true := (hmask u hun).2 hne
    subst hclose
    dsimp only
    rw [hat u, if_pos rfl]
    refine ⟨?_, ?_, ?_⟩
    · split_ifs
      · show (priv.avtp_capture.set u _).length = n
        rw [List.length_set]; exact hlen
      · show (priv.avtp_capture.set u _).length = n
        rw [List.length_set]; exact hlen
    · intro v hv d hd
      have hd1 : d ∈ (priv.avtp_capture.set u
          ((priv.avtp_capture.getD u []).eraseP fun c => c.addr == m)).getD v [] := by
        split_ifs at hd <;> exact hd
      rw [hat] at hd1
      by_cases hvu : v = u
      · rw [if_pos hvu] at hd1
        rw [hvu]
        exact hcu u hun d (List.mem_of_mem_eraseP hd1)
      · rw [if_neg hvu] at hd1
        exact hcu v hv d hd1
    · intro v hv
      have hold := hmask v hv
      unfold avtp_irq_unmasked at hold ⊢
      by_cases he : ((priv.avtp_capture.getD u []).eraseP fun c => c.addr == m).isEmpty = true
      · rw [if_pos he]
        change ((priv.gic &&& (0xFFFFFFFF ^^^ (GID_ATCD0 <<< u) % 4294967296)).testBit (16 + v)
          = true ↔ (priv.avtp_capture.set u _).getD v [] ≠ [])
        rw [hat, testBit_mask _ _ _ (by omega) (by omega)]
        by_cases hvu : v = u
        · subst hvu
          rw [if_pos rfl, List.isEmpty_iff.1 he]
          simp
        · rw [if_neg hvu]
          have : decide (u = v) = false := by simp; exact fun h => hvu h.symm
          rw [this]
          simpa using hold
      · rw [if_neg he]
        change (priv.gic.testBit (16 + v) = true ↔ (priv.avtp_capture.set u _).getD v [] ≠ [])
        rw [hat]
        by_cases hvu : v = u
        · subst hvu
          rw [if_pos rfl]
          exact ⟨fun _ h => he (by rw [h]; rfl), fun _ => hbit⟩
        · rw [if_neg hvu]
          exact hold

/-- The invariant of the capture units holds along every sequence of calls of
`open` and `close`. -/
theorem unit_run_inv (n : Nat) (hn : n ≤ 16) (ops : List unit_op) :
    ∀ priv priv1 : ravb_private, unit_inv n priv → unit_run n priv ops = some priv1 →
      unit_inv n priv1 := by
  induction ops with
  | nil =>
    intro priv priv1 hinv h
    simp only [unit_run, Option.some.injEq] at h
    rw [← h]; exact hinv
  | cons op ops ih =>
    intro priv priv1 hinv h
    cases op with
    | «open» kv g u p r =>
      simp only [unit_run] at h
      exact ih _ _ (open_preserves_inv n priv kv g u p r hn hinv) h
    | close m =>
      simp only [unit_run] at h
      cases hc : ravb_mediats_close priv m with
      | none => rw [hc] at h; exact absurd h (by simp)
      | some r =>
        rw [hc] at h
        exact ih _ _ (close_preserves_inv n priv m r hn hinv hc) h

/-- The initialised state, with the capture interrupts masked, satisfies the
invariant of the capture units. -/
theorem init_inv (n gic : Nat) (hmasked : ∀ v, v < n → gic.testBit (16 + v) = false) :
    unit_inv n (ravb_ptp_init n gic) := by
  have hl : ∀ v, (ravb_ptp_init n gic).avtp_capture.getD v [] = [] := by
    intro v
    simp only [ravb_ptp_init, List.getD_eq_getElem?_getD, List.getElem?_replicate]
    split_ifs <;> rfl
  refine ⟨by simp [ravb_ptp_init], ?_, ?_⟩
  · intro u _ c hc
    rw [hl u] at hc
    exact absurd hc (List.not_mem_nil c)
  · intro u hu
    rw [hl u]
    show (gic.testBit (16 + u) = true ↔ _)
    rw [hmasked u hu]
    simp

/-- Claim C10.  From the initialised state (every list empty, every capture
interrupt masked), with at most sixteen capture units, after every sequence of
calls of `open` (successful or failing) and `close` (of handles open at that
moment), the capture interrupt of each unit is unmasked if and only if the unit
has at least one subscriber; in particular a unit whose contexts are all closed
is masked. -/
theorem irq_unmasked_iff_subscribed (n gic : Nat) (ops : List unit_op) (priv1 : ravb_private)
    (u : Nat) (hn : n ≤ 16) (hmasked : ∀ v, v < n → gic.testBit (16 + v) = false)
    (hrun : unit_run n (ravb_ptp_init n gic) ops = some priv1) (hu : u < n) :
    (avtp_irq_unmasked priv1 u = true ↔ priv1.avtp_capture.getD u [] ≠ []) ∧
    (priv1.avtp_capture.getD u [] = [] → avtp_irq_unmasked priv1 u = false) := by
  have hinv := unit_run_inv n hn ops _ priv1 (init_inv n gic hmasked) hrun
  have h := hinv.2.2 u hu
  refine ⟨h, fun he => ?_⟩
  cases hb : avtp_irq_unmasked priv1 u with
  | false => rfl
  | true => exact absurd he (h.1 hb)

/-- Witness for C10: three units; unit 1 is opened twice (handles 100 and 200),
an open with another prescaler fails, then both handles are closed: the unit
ends with no subscriber and its interrupt masked. -/
theorem irq_unmasked_iff_subscribed_witness :
    (avtp_irq_unmasked
        ⟨[[], [], []], 0, [(Reg.GACP, 259), (Reg.GIE, 131072), (Reg.GID, 131072)]⟩ 1 = true ↔
      (⟨[[], [], []], 0, [(Reg.GACP, 259), (Reg.GIE, 131072), (Reg.GID, 131072)]⟩ :
        ravb_private).avtp_capture.getD 1 [] ≠ []) ∧
    ((⟨[[], [], []], 0, [(Reg.GACP, 259), (Reg.GIE, 131072), (Reg.GID, 131072)]⟩ :
        ravb_private).avtp_capture.getD 1 [] = [] →
      avtp_irq_unmasked
        ⟨[[], [], []], 0, [(Reg.GACP, 259), (Reg.GIE, 131072), (Reg.GID, 131072)]⟩ 1 = false) :=
  irq_unmasked_iff_subscribed 3 0
    [.open (some 100) 0 1 4 8, .open (some 200) 0 1 4 2, .open (some 300) 0 1 5 2,
      .close 100, .close 200]
    ⟨[[], [], []], 0, [(Reg.GACP, 259), (Reg.GIE, 131072), (Reg.GID, 131072)]⟩ 1
    (by decide) (fun v _ => Nat.zero_testBit (16 + v)) (by decide) (by decide)

/-! ## The mapping register -/

/-- The mapping register gets exactly one value in the writes of a first
open. -/
theorem open_first_writes_gacp (priv : ravb_private) (gis_read capture_unit prescaler : Nat) :
    reg_writes Reg.GACP (open_first_writes priv gis_read capture_unit prescaler).io =
      reg_writes Reg.GACP priv.io ++
        [(capture_unit <<< 8) % 4294967296 ||| (prescaler - 1)] := by
  unfold open_first_writes
  split_ifs <;> simp [ravb_write, reg_writes, List.filterMap_append]

/-- Claim C11.  A successful `open` on a unit without subscriber appends exactly
one value to the writes of the mapping register `GACP`, the value
`(capture_unit << 8) | (prescaler - 1)`; a successful `open` on a unit that has
subscribers writes no register at all; a failing `open` writes no register;
and `close` of an open handle writes nothing to the mapping register. -/
theorem gacp_written_on_first_open (n : Nat) (priv : ravb_private) (kv : Option Nat)
    (gis_read capture_unit prescaler ring_size m : Nat) :
    (∀ h : Nat,
      (ravb_mediats_open n priv kv gis_read capture_unit prescaler ring_size).2 = some h →
      (priv.avtp_capture.getD capture_unit [] = [] →
        reg_writes Reg.GACP
            (ravb_mediats_open n priv kv gis_read capture_unit prescaler ring_size).1.io =
          reg_writes Reg.GACP priv.io ++
            [(capture_unit <<< 8) % 4294967296 ||| (prescaler - 1)]) ∧
      (priv.avtp_capture.getD capture_unit [] ≠ [] →
        (ravb_mediats_open n priv kv gis_read capture_unit prescaler ring_size).1.io =
          priv.io)) ∧
    ((ravb_mediats_open n priv kv gis_read capture_unit prescaler ring_size).2 = none →
      (ravb_mediats_open n priv kv gis_read capture_unit prescaler ring_size).1.io =
        priv.io) ∧
    (∀ r : ravb_private × Int, ravb_mediats_close priv m = some r →
      reg_writes Reg.GACP r.1.io = reg_writes Reg.GACP priv.io) := by
  refine ⟨?_, ?_, ?_⟩
  · intro h hh
    rcases open_cases n priv kv gis_read capture_unit prescaler ring_size with hf | hs
    · rw [hf] at hh
      exact absurd hh (by simp)
    · obtain ⟨p, _, _, _, _, he⟩ := hs
      rw [he]
      constructor
      · intro hempty
        show reg_writes Reg.GACP
          (if (priv.avtp_capture.getD capture_unit []).isEmpty then
            open_first_writes priv gis_read capture_unit prescaler else priv).io = _
        rw [hempty]
        exact open_first_writes_gacp priv gis_read capture_unit prescaler
      · intro hne
        show (if (priv.avtp_capture.getD capture_unit []).isEmpty then
            open_first_writes priv gis_read capture_unit prescaler else priv).io = _
        have : (priv.avtp_capture.getD capture_unit []).isEmpty = false := by
          cases hl : priv.avtp_capture.getD capture_unit [] with
          | nil => exact absurd hl hne
          | cons a l => rfl
        rw [this]
        rfl
  · intro hnone
    rcases open_cases n priv kv gis_read capture_unit prescaler ring_size with hf | hs
    · rw [hf]
    · obtain ⟨p, _, _, _, _, he⟩ := hs
      rw [he] at hnone
      exact absurd hnone (by simp)
  · intro r hclose
    unfold ravb_mediats_close at hclose
    cases hf : find_ctx priv m with
    | none => rw [hf] at hclose; exact absurd hclose (by simp)
    | some uc =>
      rw [hf] at hclose
      simp only [Option.some.injEq] at hclose
      subst hclose
      dsimp only
      split_ifs
      · simp [ravb_write, reg_writes, List.filterMap_append]
      · rfl

/-- Witness for C11: three units, unit 1 without subscriber; the open of unit 1
with prescaler 4 writes `(1 << 8) | 3` to the mapping register, once. -/
theorem gacp_written_on_first_open_witness :
    reg_writes Reg.GACP (ravb_mediats_open 3 (ravb_ptp_init 3 0) (some 100) 0 1 4 8).1.io =
      reg_writes Reg.GACP (ravb_ptp_init 3 0).io ++ [(1 <<< 8) % 4294967296 ||| (4 - 1)] :=
  ((gacp_written_on_first_open 3 (ravb_ptp_init 3 0) (some 100) 0 1 4 8 0).1 100
    (by decide)).1 (by decide)

/-! ## Fan-out isolation -/

/-- The capture interrupt leaves the list of a unit alone when the unit is not
below `NUM_AVTP_CAPTURE` or its bit is not pending. -/
theorem capture_int_unit_untouched (n : Nat) (priv : ravb_private) (gis : Nat)
    (gcat : Nat → Nat) (v : Nat)
    (h : ¬ (v < n ∧ gis &&& ravb_avtp_capture_gis_bit v ≠ 0)) :
    (ravb_avtp_capture_int n priv gis gcat).1.avtp_capture.getD v [] =
      priv.avtp_capture.getD v [] := by
  rw [List.getD_eq_getElem?_getD, capture_int_lists, if_neg h, List.getD_eq_getElem?_getD]

/-- Claim C12, as the code has it.  In a capture interrupt, for a unit `u` below
`NUM_AVTP_CAPTURE` whose bit is pending, the body of the handler runs on every
context of the unit with the value `gcat u` read once from the unit's capture
register, each context on its own.  On a context with `write_pos` below
`ring_size` (an `unsigned`): if the ring is not full, the value is stored at the
old `write_pos`, `write_pos` advances by one modulo `ring_size` and nothing else
changes; if the ring is full, only `overruns` changes, to `overruns + 1` modulo
`2^32` (plain `overruns + 1` below the maximum of the counter).  The list of a
unit whose bit is not pending is unchanged. -/
theorem capture_int_fan_out (n : Nat) (priv : ravb_private) (gis : Nat) (gcat : Nat → Nat)
    (u : Nat) :
    (u < n → gis &&& ravb_avtp_capture_gis_bit u ≠ 0 →
      (ravb_avtp_capture_int n priv gis gcat).1.avtp_capture.getD u [] =
        (priv.avtp_capture.getD u []).map
          fun c => (ravb_avtp_capture_int_unit c (gcat u)).1) ∧
    (∀ (c : ravb_avtp_capture) (t : Nat), c.ring_size < 4294967296 →
      c.write_pos < c.ring_size →
      ((c.write_pos + 1) % c.ring_size ≠ c.read_pos →
        (ravb_avtp_capture_int_unit c t).1 =
          { c with
            timestamps := c.timestamps.set c.write_pos t
            write_pos := (c.write_pos + 1) % c.ring_size }) ∧
      ((c.write_pos + 1) % c.ring_size = c.read_pos →
        (ravb_avtp_capture_int_unit c t).1 =
          { c with overruns := (c.overruns + 1) % 4294967296 } ∧
        (c.overruns < 4294967295 →
          (ravb_avtp_capture_int_unit c t).1.overruns = c.overruns + 1))) ∧
    (gis &&& ravb_avtp_capture_gis_bit u = 0 →
      (ravb_avtp_capture_int n priv gis gcat).1.avtp_capture.getD u [] =
        priv.avtp_capture.getD u []) := by
  refine ⟨?_, ?_, ?_⟩
  · intro hu hb
    exact capture_int_unit_list n priv gis gcat u hu hb
  · intro c t hrs hw
    have hm : (c.write_pos + 1) % 4294967296 = c.write_pos + 1 :=
      Nat.mod_eq_of_lt (by omega)
    unfold ravb_avtp_capture_int_unit
    rw [hm]
    constructor
    · intro hne
      rw [if_neg hne]
    · intro hfull
      rw [if_pos hfull]
      refine ⟨rfl, fun ho => ?_⟩
      show (c.overruns + 1) % 4294967296 = c.overruns + 1
      exact Nat.mod_eq_of_lt (by omega)
  · intro hz
    exact capture_int_unit_untouched n priv gis gcat u (fun h => h.2 hz)

/-- Witness for C12 as the code has it: unit 1 of three has a context with a
full ring of two slots and one with room in a ring of three; the interrupt with
the value 20 counts an overrun in the first and stores 20 in the second. -/
theorem capture_int_fan_out_witness :
    (ravb_avtp_capture_int 3
        ⟨[[], [⟨100, 2, 0, 1, 0, 1, 4, [10, 0]⟩, ⟨200, 3, 0, 1, 0, 1, 4, [10, 0, 0]⟩], []],
          0x20000, []⟩
        0x20000 (fun _ => 20)).1.avtp_capture.getD 1 [] =
      [⟨100, 2, 0, 1, 0, 1, 4, [10, 0]⟩, ⟨200, 3, 0, 1, 0, 1, 4, [10, 0, 0]⟩].map
        fun c => (ravb_avtp_capture_int_unit c ((fun _ => 20) 1)).1 :=
  (capture_int_fan_out 3
    ⟨[[], [⟨100, 2, 0, 1, 0, 1, 4, [10, 0]⟩, ⟨200, 3, 0, 1, 0, 1, 4, [10, 0, 0]⟩], []],
      0x20000, []⟩
    0x20000 (fun _ => 20) 1).1 (by decide) (by decide)

/-- Counterexample to claim C12 as stated: a context of unit 0 with a full ring
of two slots whose counter holds 4294967295, the maximum of an `unsigned`.  The
capture interrupt leaves 0 in `overruns`, not the counter incremented by one. -/
theorem overruns_wraps_at_max :
    (ravb_avtp_capture_int 1 ⟨[[⟨100, 2, 0, 1, 4294967295, 0, 4, [10, 0]⟩]], 0x10000, []⟩
        0x10000 (fun _ => 20)).1.avtp_capture.getD 0 [] =
      [⟨100, 2, 0, 1, 0, 0, 4, [10, 0]⟩] ∧
    ((ravb_avtp_capture_int 1 ⟨[[⟨100, 2, 0, 1, 4294967295, 0, 4, [10, 0]⟩]], 0x10000, []⟩
        0x10000 (fun _ => 20)).1.avtp_capture.getD 0 []).map (fun c => c.overruns) ≠
      [4294967295 + 1] := by
  decide

/-! ## Frequency adjustment -/

/-- The addend that `ravb_ptp_adjfreq` stores for a non-negative `ppb` within
the advertised range. -/
theorem adjfreq_pos (ndev : net_device) (gccr p : Nat)
    (hd : ndev.ptp.default_addend < 4294967296) (hp : p ≤ 50000000) :
    (ravb_ptp_adjfreq ndev gccr (p : Int)).1.ptp.current_addend =
      (ndev.ptp.default_addend + ndev.ptp.default_addend * p / 1000000000) % 4294967296 := by
  have hnn : ¬ ((p : Int) < 0) := by omega
  have hcast : ((p : Int) % 18446744073709551616).toNat = p := by omega
  have hprod : ndev.ptp.default_addend * p < 18446744073709551616 := by
    calc ndev.ptp.default_addend * p ≤ 4294967296 * 50000000 :=
          Nat.mul_le_mul (by omega) hp
      _ < 18446744073709551616 := by norm_num
  have hq : ndev.ptp.default_addend * p / 1000000000 < 4294967296 := by
    apply Nat.div_lt_of_lt_mul
    calc ndev.ptp.default_addend * p ≤ 4294967296 * 50000000 :=
          Nat.mul_le_mul (by omega) hp
      _ < 1000000000 * 4294967296 := by norm_num
  have hdiff : (ndev.ptp.default_addend * ((p : Int) % 18446744073709551616).toNat %
      18446744073709551616 / NSEC_PER_SEC) % 4294967296 =
      ndev.ptp.default_addend * p / 1000000000 := by
    rw [hcast, Nat.mod_eq_of_lt hprod]
    exact Nat.mod_eq_of_lt hq
  unfold ravb_ptp_adjfreq
  simp only [hnn, if_false, decide_False, Bool.false_eq_true, hdiff]
  split_ifs <;> rfl

/-- The addend that `ravb_ptp_adjfreq` stores for a negative `ppb` within the
advertised range. -/
theorem adjfreq_neg (ndev : net_device) (gccr p : Nat)
    (hd : ndev.ptp.default_addend < 4294967296) (hp0 : 0 < p) (hp : p ≤ 50000000) :
    (ravb_ptp_adjfreq ndev gccr (-(p : Int))).1.ptp.current_addend =
        (ndev.ptp.default_addend - ndev.ptp.default_addend * p / 1000000000) % 4294967296 ∧
      ndev.ptp.default_addend * p / 1000000000 ≤ ndev.ptp.default_addend := by
  have hneg : (-(p : Int)) < 0 := by omega
  have hmin : ¬ (-(p : Int) = -2147483648) := by omega
  have hcast : ((- -(p : Int)) % 18446744073709551616).toNat = p := by omega
  have hprod : ndev.ptp.default_addend * p < 18446744073709551616 := by
    calc ndev.ptp.default_addend * p ≤ 4294967296 * 50000000 :=
          Nat.mul_le_mul (by omega) hp
      _ < 18446744073709551616 := by norm_num
  have hle : ndev.ptp.default_addend * p / 1000000000 ≤ ndev.ptp.default_addend := by
    apply Nat.div_le_of_le_mul
    calc ndev.ptp.default_addend * p ≤ ndev.ptp.default_addend * 1000000000 :=
          Nat.mul_le_mul (le_refl _) (by omega)
      _ = 1000000000 * ndev.ptp.default_addend := Nat.mul_comm _ _
  have hdiff : (ndev.ptp.default_addend * ((- -(p : Int)) % 18446744073709551616).toNat %
      18446744073709551616 / NSEC_PER_SEC) % 4294967296 =
      ndev.ptp.default_addend * p / 1000000000 := by
    rw [hcast, Nat.mod_eq_of_lt hprod]
    exact Nat.mod_eq_of_lt (by
      show ndev.ptp.default_addend * p / 1000000000 < 4294967296
      omega)
  refine ⟨?_, hle⟩
  unfold ravb_ptp_adjfreq
  simp only [hneg, hmin, if_true, if_false, decide_True, hdiff]
  have hsub : (ndev.ptp.default_addend + 4294967296 -
      ndev.ptp.default_addend * p / 1000000000) % 4294967296 =
      (ndev.ptp.default_addend - ndev.ptp.default_addend * p / 1000000000) % 4294967296 := by
    have e : ndev.ptp.default_addend + 4294967296 -
        ndev.ptp.default_addend * p / 1000000000 =
        (ndev.ptp.default_addend - ndev.ptp.default_addend * p / 1000000000) + 4294967296 := by
      omega
    rw [e, Nat.add_mod_right]
  split_ifs <;> exact hsub

/-- Claim C13.  For every `default_addend` that is a `u32` and every `ppb` with
`|ppb| <= 50,000,000`, `ravb_ptp_adjfreq` stores in `current_addend` the value
`default_addend + floor(default_addend * ppb / 10^9)` for `ppb >= 0` and
`default_addend - floor(default_addend * |ppb| / 10^9)` for `ppb < 0`, modulo
`2^32`, the division truncating (the subtrahend never exceeds
`default_addend`); when no load is pending the call returns 0. -/
theorem adjfreq_stores_scaled_addend (ndev : net_device) (gccr : Nat) (ppb : Int)
    (hd : ndev.ptp.default_addend < 4294967296)
    (hlo : -50000000 ≤ ppb) (hhi : ppb ≤ 50000000) :
    (0 ≤ ppb →
      (ravb_ptp_adjfreq ndev gccr ppb).1.ptp.current_addend =
        (ndev.ptp.default_addend + ndev.ptp.default_addend * ppb.natAbs / 1000000000) %
          4294967296) ∧
    (ppb < 0 →
      (ravb_ptp_adjfreq ndev gccr ppb).1.ptp.current_addend =
          (ndev.ptp.default_addend - ndev.ptp.default_addend * ppb.natAbs / 1000000000) %
            4294967296 ∧
        ndev.ptp.default_addend * ppb.natAbs / 1000000000 ≤ ndev.ptp.default_addend) ∧
    (gccr &&& GCCR_LTI = 0 → (ravb_ptp_adjfreq ndev gccr ppb).2 = 0) := by
  refine ⟨?_, ?_, ?_⟩
  · intro h0
    have e : ppb = ((ppb.natAbs : Nat) : Int) := by omega
    have := adjfreq_pos ndev gccr ppb.natAbs hd (by omega)
    rw [← e] at this
    exact this
  · intro hn
    have e : ppb = -((ppb.natAbs : Nat) : Int) := by omega
    have := adjfreq_neg ndev gccr ppb.natAbs hd (by omega) (by omega)
    rw [← e] at this
    exact this
  · intro hz
    unfold ravb_ptp_adjfreq
    simp [hz]

/-- Witness for C13: `default_addend = 0x40000000` and `ppb = +1,000,000` give
`current_addend = 0x40000000 + 1073741`, and the call returns 0 when no load is
pending. -/
theorem adjfreq_stores_scaled_addend_witness :
    (ravb_ptp_adjfreq
        ⟨ravb_ptp_init 16 0, ⟨0x40000000, 0x40000000, false, ⟨0, 0⟩⟩, .RCAR_GEN3⟩
        0 1000000).1.ptp.current_addend = 0x40000000 + 1073741 ∧
    (ravb_ptp_adjfreq
        ⟨ravb_ptp_init 16 0, ⟨0x40000000, 0x40000000, false, ⟨0, 0⟩⟩, .RCAR_GEN3⟩
        0 1000000).2 = 0 :=
  have h := adjfreq_stores_scaled_addend
    ⟨ravb_ptp_init 16 0, ⟨0x40000000, 0x40000000, false, ⟨0, 0⟩⟩, .RCAR_GEN3⟩ 0 1000000
    (by decide) (by decide) (by decide)
  ⟨h.1 (by decide), h.2.2 (by decide)⟩

/-- Claim C14, as the code has it.  `ravb_ptp_adjfreq` with `ppb = 0` stores
`default_addend` (a `u32`) in `current_addend`, whatever it held: the stored
addend is unchanged exactly when it was `default_addend` already, and an
earlier non-zero adjustment is undone. -/
theorem adjfreq_zero_resets (ndev : net_device) (gccr : Nat)
    (hd : ndev.ptp.default_addend < 4294967296) :
    (ravb_ptp_adjfreq ndev gccr 0).1.ptp.current_addend = ndev.ptp.default_addend ∧
    ((ravb_ptp_adjfreq ndev gccr 0).1.ptp.current_addend = ndev.ptp.current_addend ↔
      ndev.ptp.current_addend = ndev.ptp.default_addend) := by
  have h := adjfreq_pos ndev gccr 0 hd (by omega)
  simp only [Nat.cast_zero, Nat.mul_zero, Nat.zero_div, Nat.add_zero] at h
  rw [Nat.mod_eq_of_lt hd] at h
  rw [h]
  exact ⟨rfl, eq_comm⟩

/-- Witness for C14 as the code has it: the default addend `0x40000000` with a
current addend left by an adjustment of +1,000,000 ppb. -/
theorem adjfreq_zero_resets_witness :
    (ravb_ptp_adjfreq
        ⟨ravb_ptp_init 16 0, ⟨0x40000000, 0x40000000 + 1073741, false, ⟨0, 0⟩⟩, .RCAR_GEN3⟩
        0 0).1.ptp.current_addend = 0x40000000 :=
  (adjfreq_zero_resets
    ⟨ravb_ptp_init 16 0, ⟨0x40000000, 0x40000000 + 1073741, false, ⟨0, 0⟩⟩, .RCAR_GEN3⟩ 0
    (by decide)).1

/-- Counterexample to claim C14 as stated: from `default_addend = 0x40000000`,
an adjustment of +1,000,000 ppb leaves `0x40000000 + 1073741` in
`current_addend`; the adjustment by 0 that follows stores `0x40000000`, which
is not the addend before that call. -/
theorem adjfreq_zero_changes_addend :
    (ravb_ptp_adjfreq
        ⟨ravb_ptp_init 16 0, ⟨0x40000000, 0x40000000, false, ⟨0, 0⟩⟩, .RCAR_GEN3⟩
        0 1000000).1.ptp.current_addend = 0x40000000 + 1073741 ∧
    (ravb_ptp_adjfreq
        (ravb_ptp_adjfreq
          ⟨ravb_ptp_init 16 0, ⟨0x40000000, 0x40000000, false, ⟨0, 0⟩⟩, .RCAR_GEN3⟩
          0 1000000).1
        0 0).1.ptp.current_addend = 0x40000000 ∧
    (ravb_ptp_adjfreq
        (ravb_ptp_adjfreq
          ⟨ravb_ptp_init 16 0, ⟨0x40000000, 0x40000000, false, ⟨0, 0⟩⟩, .RCAR_GEN3⟩
          0 1000000).1
        0 0).1.ptp.current_addend ≠
      (ravb_ptp_adjfreq
        ⟨ravb_ptp_init 16 0, ⟨0x40000000, 0x40000000, false, ⟨0, 0⟩⟩, .RCAR_GEN3⟩
        0 1000000).1.ptp.current_addend := by
  decide

/-- The addend that `ravb_ptp_adjfreq` stores does not depend on the control
register. -/
theorem adjfreq_addend_any_gccr (ndev : net_device) (gccr gccr2 : Nat) (ppb : Int) :
    (ravb_ptp_adjfreq ndev gccr ppb).1.ptp.current_addend =
      (ravb_ptp_adjfreq ndev gccr2 ppb).1.ptp.current_addend := by
  unfold ravb_ptp_adjfreq
  dsimp only
  split_ifs <;> rfl

/-- Claim C15, as the code has it.  For every `ppb`: when the flag of a pending
load of the time increment is set in the control register, `ravb_ptp_adjfreq`
returns `-EBUSY` and writes no register, but `current_addend` already holds the
new addend, the one the call stores when no load is pending; when the flag is
clear, the call returns 0, stores that addend, writes its field `GTI_TIV` to
`GTI` and sets the load flag in `GCCR`. -/
theorem adjfreq_busy_keeps_new_addend (ndev : net_device) (gccr : Nat) (ppb : Int) :
    (gccr &&& GCCR_LTI ≠ 0 →
      (ravb_ptp_adjfreq ndev gccr ppb).2 = -EBUSY_errno ∧
      (ravb_ptp_adjfreq ndev gccr ppb).1.priv = ndev.priv ∧
      (ravb_ptp_adjfreq ndev gccr ppb).1.ptp.current_addend =
        (ravb_ptp_adjfreq ndev 0 ppb).1.ptp.current_addend) ∧
    (gccr &&& GCCR_LTI = 0 →
      (ravb_ptp_adjfreq ndev gccr ppb).2 = 0 ∧
      (ravb_ptp_adjfreq ndev gccr ppb).1.priv.io =
        ndev.priv.io ++
          [(Reg.GTI, (ravb_ptp_adjfreq ndev gccr ppb).1.ptp.current_addend &&& GTI_TIV),
            (Reg.GCCR, gccr ||| GCCR_LTI)]) := by
  constructor
  · intro hb
    refine ⟨?_, ?_, adjfreq_addend_any_gccr ndev gccr 0 ppb⟩
    · unfold ravb_ptp_adjfreq
      simp [hb]
    · unfold ravb_ptp_adjfreq
      simp [hb]
  · intro hz
    constructor
    · unfold ravb_ptp_adjfreq
      simp [hz]
    · unfold ravb_ptp_adjfreq
      simp [hz, ravb_write]

/-- Witness for C15 as the code has it: a load is pending (`GCCR = 8`) and the
request is +1,000,000 ppb on `default_addend = 0x40000000`. -/
theorem adjfreq_busy_keeps_new_addend_witness :
    (ravb_ptp_adjfreq
        ⟨ravb_ptp_init 16 0, ⟨0x40000000, 0x40000000, false, ⟨0, 0⟩⟩, .RCAR_GEN3⟩
        8 1000000).2 = -EBUSY_errno ∧
    (ravb_ptp_adjfreq
        ⟨ravb_ptp_init 16 0, ⟨0x40000000, 0x40000000, false, ⟨0, 0⟩⟩, .RCAR_GEN3⟩
        8 1000000).1.priv = ravb_ptp_init 16 0 ∧
    (ravb_ptp_adjfreq
        ⟨ravb_ptp_init 16 0, ⟨0x40000000, 0x40000000, false, ⟨0, 0⟩⟩, .RCAR_GEN3⟩
        8 1000000).1.ptp.current_addend =
      (ravb_ptp_adjfreq
        ⟨ravb_ptp_init 16 0, ⟨0x40000000, 0x40000000, false, ⟨0, 0⟩⟩, .RCAR_GEN3⟩
        0 1000000).1.ptp.current_addend :=
  (adjfreq_busy_keeps_new_addend
    ⟨ravb_ptp_init 16 0, ⟨0x40000000, 0x40000000, false, ⟨0, 0⟩⟩, .RCAR_GEN3⟩
    8 1000000).1 (by decide)

/-- Counterexample to claim C15 as stated: with a load pending (`GCCR = 8`), the
request of +1,000,000 ppb on `default_addend = current_addend = 0x40000000`
returns `-EBUSY` and writes no register, yet `current_addend` is
`0x40000000 + 1073741` after the call. -/
theorem adjfreq_busy_changes_addend :
    (ravb_ptp_adjfreq
        ⟨ravb_ptp_init 16 0, ⟨0x40000000, 0x40000000, false, ⟨0, 0⟩⟩, .RCAR_GEN3⟩
        8 1000000).2 = -EBUSY_errno ∧
    (ravb_ptp_adjfreq
        ⟨ravb_ptp_init 16 0, ⟨0x40000000, 0x40000000, false, ⟨0, 0⟩⟩, .RCAR_GEN3⟩
        8 1000000).1.priv.io = [] ∧
    (ravb_ptp_adjfreq
        ⟨ravb_ptp_init 16 0, ⟨0x40000000, 0x40000000, false, ⟨0, 0⟩⟩, .RCAR_GEN3⟩
        8 1000000).1.ptp.current_addend = 0x40000000 + 1073741 ∧
    (ravb_ptp_adjfreq
        ⟨ravb_ptp_init 16 0, ⟨0x40000000, 0x40000000, false, ⟨0, 0⟩⟩, .RCAR_GEN3⟩
        8 1000000).1.ptp.current_addend ≠ 0x40000000 := by
  decide

/-! ## The compare register -/

/-- Claim C16.  For every `current_addend` that is a `u32` and every target `ns`, with
`g = (current_addend >> 20) + 1` and no compare load pending,
`ravb_ptp_update_compare` returns 0 and writes to the compare register `GPTC`
the target clamped into `[g, 2^32 - g]` (`g` if `ns < g`, `2^32 - g` if
`ns > 2^32 - g`, `ns` otherwise), then sets the load flag in `GCCR`; the value
written lies in the band. -/
theorem update_compare_clamps (ndev : net_device) (gccr ns : Nat)
    (hca : ndev.ptp.current_addend < 4294967296) (hidle : gccr &&& GCCR_LPTC = 0) :
    (ravb_ptp_update_compare ndev gccr ns).2 = 0 ∧
    (ravb_ptp_update_compare ndev gccr ns).1.priv.io =
      ndev.priv.io ++
        [(Reg.GPTC,
            if ns < (ndev.ptp.current_addend >>> 20) + 1 then
              (ndev.ptp.current_addend >>> 20) + 1
            else if ns > 4294967296 - ((ndev.ptp.current_addend >>> 20) + 1) then
              4294967296 - ((ndev.ptp.current_addend >>> 20) + 1)
            else ns),
          (Reg.GCCR, gccr ||| GCCR_LPTC)] ∧
    (ndev.ptp.current_addend >>> 20) + 1 ≤
      (if ns < (ndev.ptp.current_addend >>> 20) + 1 then
        (ndev.ptp.current_addend >>> 20) + 1
      else if ns > 4294967296 - ((ndev.ptp.current_addend >>> 20) + 1) then
        4294967296 - ((ndev.ptp.current_addend >>> 20) + 1)
      else ns) ∧
    (if ns < (ndev.ptp.current_addend >>> 20) + 1 then
        (ndev.ptp.current_addend >>> 20) + 1
      else if ns > 4294967296 - ((ndev.ptp.current_addend >>> 20) + 1) then
        4294967296 - ((ndev.ptp.current_addend >>> 20) + 1)
      else ns) ≤ 4294967296 - ((ndev.ptp.current_addend >>> 20) + 1) := by
  have hg : ndev.ptp.current_addend >>> 20 < 4096 := by
    rw [Nat.shiftRight_eq_div_pow]
    apply Nat.div_lt_of_lt_mul
    calc ndev.ptp.current_addend < 4294967296 := hca
      _ = 2 ^ 20 * 4096 := by norm_num
  have h1 : ((ndev.ptp.current_addend >>> 20) + 1) % 4294967296 =
      (ndev.ptp.current_addend >>> 20) + 1 := Nat.mod_eq_of_lt (by omega)
  have h2 : (4294967296 - ((ndev.ptp.current_addend >>> 20) + 1)) % 4294967296 =
      4294967296 - ((ndev.ptp.current_addend >>> 20) + 1) := Nat.mod_eq_of_lt (by omega)
  refine ⟨?_, ?_, ?_, ?_⟩
  · unfold ravb_ptp_update_compare
    simp [hidle]
  · unfold ravb_ptp_update_compare
    simp only [h1, h2, hidle, ne_eq, not_true_eq_false, if_false]
    simp [ravb_write]
  · split_ifs <;> omega
  · split_ifs <;> omega

/-- Witness for C16: `current_addend = 4 << 20` gives `g = 5`; the target 2 is
written as 5. -/
theorem update_compare_clamps_witness :
    (ravb_ptp_update_compare
        ⟨ravb_ptp_init 16 0, ⟨4194304, 4194304, false, ⟨0, 0⟩⟩, .RCAR_GEN3⟩ 0 2).2 = 0 ∧
    (ravb_ptp_update_compare
        ⟨ravb_ptp_init 16 0, ⟨4194304, 4194304, false, ⟨0, 0⟩⟩, .RCAR_GEN3⟩ 0 2).1.priv.io =
      [(Reg.GPTC, 5), (Reg.GCCR, 16)] :=
  have h := update_compare_clamps
    ⟨ravb_ptp_init 16 0, ⟨4194304, 4194304, false, ⟨0, 0⟩⟩, .RCAR_GEN3⟩ 0 2
    (by decide) (by decide)
  ⟨h.1, h.2.1⟩

/-- The second value of the example of the spec: with `g = 5` the target
`2^32 - 2` is written as `2^32 - 5`. -/
theorem update_compare_clamps_high :
    (ravb_ptp_update_compare
        ⟨ravb_ptp_init 16 0, ⟨4194304, 4194304, false, ⟨0, 0⟩⟩, .RCAR_GEN3⟩ 0
        4294967294).1.priv.io =
      [(Reg.GPTC, 4294967291), (Reg.GCCR, 16)] := by
  decide

/-! ## Periodic output -/

/-- The code at the input that breaks claim C17: index 0, `start.sec = 2^55`,
`start.nsec = 5`, a period of 1000 ns.  As exact integers the start is
`2^55 * 10^9 + 5` ns, far beyond 32 bits; the 64-bit product wraps to 0, the
range test sees 5, and the request is accepted: it returns 0, stores
`target = 5` and `period = 1000`, writes the compare register and unmasks the
match interrupt. -/
theorem perout_range_check_wraps :
    (36028797018963968 : Int) * 1000000000 + 5 > 4294967295 ∧
    perout_ns ⟨36028797018963968, 5⟩ = 5 ∧
    (ravb_ptp_perout
        ⟨ravb_ptp_init 16 0, ⟨0x40000000, 0x40000000, false, ⟨0, 0⟩⟩, .RCAR_GEN3⟩ 0
        ⟨⟨36028797018963968, 5⟩, ⟨0, 1000⟩, 0⟩ true).2 = 0 ∧
    (ravb_ptp_perout
        ⟨ravb_ptp_init 16 0, ⟨0x40000000, 0x40000000, false, ⟨0, 0⟩⟩, .RCAR_GEN3⟩ 0
        ⟨⟨36028797018963968, 5⟩, ⟨0, 1000⟩, 0⟩ true).1.ptp.perout = ⟨5, 1000⟩ ∧
    (ravb_ptp_perout
        ⟨ravb_ptp_init 16 0, ⟨0x40000000, 0x40000000, false, ⟨0, 0⟩⟩, .RCAR_GEN3⟩ 0
        ⟨⟨36028797018963968, 5⟩, ⟨0, 1000⟩, 0⟩ true).1.priv.io =
      [(Reg.GPTC, 1025), (Reg.GCCR, 16), (Reg.GIE, 4)] := by
  decide

/-- The range test of `ravb_ptp_perout` on the nanoseconds it computes: a start
or a period beyond `U32_MAX` is refused with `-ERANGE` and nothing changes. -/
theorem perout_refuses_computed_range (ndev : net_device) (gccr : Nat)
    (req : ptp_perout_request) (hidx : req.index = 0)
    (h : perout_ns req.start > U32_MAX ∨ perout_ns req.period > U32_MAX) :
    ravb_ptp_perout ndev gccr req true = (ndev, -ERANGE_errno) := by
  unfold ravb_ptp_perout
  simp only [hidx, ne_eq, not_true_eq_false, if_false, if_true]
  by_cases hs : perout_ns req.start > U32_MAX
  · rw [if_pos hs]
  · rw [if_neg hs]
    rcases h with h | h
    · exact absurd h hs
    · rw [if_pos h]

/-- The nanoseconds computed for a time whose exact nanoseconds fit in 32
bits. -/
theorem perout_ns_exact (t : ptp_clock_time)
    (h0 : 0 ≤ t.sec * 1000000000 + (t.nsec : Int))
    (h1 : t.sec * 1000000000 + (t.nsec : Int) ≤ 4294967295) :
    (perout_ns t : Int) = t.sec * 1000000000 + (t.nsec : Int) ∧ perout_ns t ≤ 4294967295 := by
  unfold perout_ns NSEC_PER_SEC
  push_cast
  omega

theorem testBit_two_of_or_four (g : Nat) : (g ||| 4).testBit 2 = true := by
  rw [Nat.testBit_or]
  have : (4 : Nat).testBit 2 = true := by decide
  rw [this, Bool.or_true]

theorem testBit_two_of_and_not_four (g : Nat) : (g &&& (0xFFFFFFFF ^^^ 4)).testBit 2 = false := by
  rw [Nat.testBit_and]
  have : ((0xFFFFFFFF : Nat) ^^^ 4).testBit 2 = false := by decide
  rw [this, Bool.and_false]

/-- The two results of `ravb_ptp_update_compare`: `-EBUSY` with the device
untouched when a compare load is pending, 0 otherwise. -/
theorem update_compare_cases (ndev : net_device) (gccr ns : Nat) :
    (gccr &&& GCCR_LPTC ≠ 0 → ravb_ptp_update_compare ndev gccr ns = (ndev, -EBUSY_errno)) ∧
    (gccr &&& GCCR_LPTC = 0 →
      (ravb_ptp_update_compare ndev gccr ns).2 = 0 ∧
      (ravb_ptp_update_compare ndev gccr ns).1.ptp = ndev.ptp ∧
      (ravb_ptp_update_compare ndev gccr ns).1.chip_id = ndev.chip_id ∧
      (ravb_ptp_update_compare ndev gccr ns).1.priv.gic = ndev.priv.gic) := by
  constructor
  · intro hb
    unfold ravb_ptp_update_compare
    simp [hb]
  · intro hz
    unfold ravb_ptp_update_compare
    simp [hz, ravb_write]

/-- Claim C18.  For a request to enable the periodic output with index 0 whose
start and period, as exact integers `sec * 10^9 + nsec`, lie in
`[0, 2^32 - 1]`: `ravb_ptp_perout` stores `target = start` and
`period = period` and leaves the rest of the clock data alone; it returns what
`ravb_ptp_update_compare` returns for the new target, 0 or `-EBUSY`; when that
is 0 (no compare load pending) the unmask write of the match interrupt follows
the two writes of `ravb_ptp_update_compare` and the interrupt is unmasked; when
it is `-EBUSY` no register is written and the mask stays as it was. -/
theorem perout_enable_in_range (ndev : net_device) (gccr : Nat) (req : ptp_perout_request)
    (hidx : req.index = 0)
    (hs0 : 0 ≤ req.start.sec * 1000000000 + (req.start.nsec : Int))
    (hs1 : req.start.sec * 1000000000 + (req.start.nsec : Int) ≤ 4294967295)
    (hp0 : 0 ≤ req.period.sec * 1000000000 + (req.period.nsec : Int))
    (hp1 : req.period.sec * 1000000000 + (req.period.nsec : Int) ≤ 4294967295) :
    ((ravb_ptp_perout ndev gccr req true).1.ptp.perout.target : Int) =
      req.start.sec * 1000000000 + (req.start.nsec : Int) ∧
    ((ravb_ptp_perout ndev gccr req true).1.ptp.perout.period : Int) =
      req.period.sec * 1000000000 + (req.period.nsec : Int) ∧
    (ravb_ptp_perout ndev gccr req true).1.ptp.default_addend = ndev.ptp.default_addend ∧
    (ravb_ptp_perout ndev gccr req true).1.ptp.current_addend = ndev.ptp.current_addend ∧
    (ravb_ptp_perout ndev gccr req true).1.ptp.extts = ndev.ptp.extts ∧
    (ravb_ptp_perout ndev gccr req true).2 =
      (ravb_ptp_update_compare
        { ndev with ptp := (ravb_ptp_perout ndev gccr req true).1.ptp } gccr
        (ravb_ptp_perout ndev gccr req true).1.ptp.perout.target).2 ∧
    (gccr &&& GCCR_LPTC = 0 →
      (ravb_ptp_perout ndev gccr req true).2 = 0 ∧
      ptm_irq_unmasked (ravb_ptp_perout ndev gccr req true).1.priv = true ∧
      (ravb_ptp_perout ndev gccr req true).1.priv.io =
        (ravb_ptp_update_compare
          { ndev with ptp := (ravb_ptp_perout ndev gccr req true).1.ptp } gccr
          (ravb_ptp_perout ndev gccr req true).1.ptp.perout.target).1.priv.io ++
        [if ndev.chip_id = ravb_chip_id.RCAR_GEN2 then
            (Reg.GIC, (ndev.priv.gic &&& (0xFFFFFFFF ^^^ GIC_PTME)) ||| GIC_PTME)
          else (Reg.GIE, GIE_PTMS0)]) ∧
    (gccr &&& GCCR_LPTC ≠ 0 →
      (ravb_ptp_perout ndev gccr req true).2 = -EBUSY_errno ∧
      (ravb_ptp_perout ndev gccr req true).1.priv = ndev.priv) := by
  obtain ⟨es, hsle⟩ := perout_ns_exact req.start hs0 hs1
  obtain ⟨ep, hple⟩ := perout_ns_exact req.period hp0 hp1
  have hsm : perout_ns req.start % 4294967296 = perout_ns req.start :=
    Nat.mod_eq_of_lt (by omega)
  have hpm : perout_ns req.period % 4294967296 = perout_ns req.period :=
    Nat.mod_eq_of_lt (by omega)
  have hsr : ¬ (perout_ns req.start > U32_MAX) := by unfold U32_MAX; omega
  have hpr : ¬ (perout_ns req.period > U32_MAX) := by unfold U32_MAX; omega
  by_cases hb : gccr &&& GCCR_LPTC = 0
  · have hperout : ravb_ptp_perout ndev gccr req true =
        ({ (ravb_ptp_update_compare
              { ndev with
                ptp := { ndev.ptp with
                  perout := { target := perout_ns req.start, period := perout_ns req.period } } }
              gccr (perout_ns req.start)).1 with
            priv :=
              if ndev.chip_id = ravb_chip_id.RCAR_GEN2 then
                ravb_modify
                  (ravb_ptp_update_compare
                    { ndev with
                      ptp := { ndev.ptp with
                        perout :=
                          { target := perout_ns req.start, period := perout_ns req.period } } }
                    gccr (perout_ns req.start)).1.priv
                  ndev.priv.gic Reg.GIC GIC_PTME GIC_PTME
              else
                ravb_write
                  (ravb_ptp_update_compare
                    { ndev with
                      ptp := { ndev.ptp with
                        perout :=
                          { target := perout_ns req.start, period := perout_ns req.period } } }
                    gccr (perout_ns req.start)).1.priv
                  GIE_PTMS0 Reg.GIE }, 0) := by
      obtain ⟨c1, c2, c3, c4⟩ := (update_compare_cases
        { ndev with
          ptp := { ndev.ptp with
            perout := { target := perout_ns req.start, period := perout_ns req.period } } }
        gccr (perout_ns req.start)).2 hb
      unfold ravb_ptp_perout
      simp only [hidx, ne_eq, not_true_eq_false, if_false, if_true, hsr, hpr, hsm, hpm, c1, c3,
        c4]
    obtain ⟨c1, c2, c3, c4⟩ := (update_compare_cases
      { ndev with
        ptp := { ndev.ptp with
          perout := { target := perout_ns req.start, period := perout_ns req.period } } }
      gccr (perout_ns req.start)).2 hb
    have hptp : (ravb_ptp_perout ndev gccr req true).1.ptp =
        { ndev.ptp with
          perout := { target := perout_ns req.start, period := perout_ns req.period } } := by
      rw [hperout]; exact c2
    have hret : (ravb_ptp_perout ndev gccr req true).2 = 0 := by rw [hperout]
    have hpriv : (ravb_ptp_perout ndev gccr req true).1.priv =
        if ndev.chip_id = ravb_chip_id.RCAR_GEN2 then
          ravb_modify
            (ravb_ptp_update_compare
              { ndev with
                ptp := { ndev.ptp with
                  perout :=
                    { target := perout_ns req.start, period := perout_ns req.period } } }
              gccr (perout_ns req.start)).1.priv
            ndev.priv.gic Reg.GIC GIC_PTME GIC_PTME
        else
          ravb_write
            (ravb_ptp_update_compare
              { ndev with
                ptp := { ndev.ptp with
                  perout :=
                    { target := perout_ns req.start, period := perout_ns req.period } } }
              gccr (perout_ns req.start)).1.priv
            GIE_PTMS0 Reg.GIE := by
      rw [hperout]
    rw [hptp, hret, hpriv]
    refine ⟨es, ep, rfl, rfl, rfl, c1.symm, fun _ => ⟨rfl, ?_, ?_⟩, fun h => absurd hb h⟩
    · unfold ptm_irq_unmasked
      by_cases hc : ndev.chip_id = ravb_chip_id.RCAR_GEN2
      · simp only [hc, if_true, ravb_modify, ravb_write, GIC_PTME]
        exact testBit_two_of_or_four _
      · simp only [hc, if_false, ravb_write, GIE_PTMS0, c4]
        exact testBit_two_of_or_four _
    · by_cases hc : ndev.chip_id = ravb_chip_id.RCAR_GEN2
      · simp only [hc, if_true, ravb_modify, ravb_write]
      · simp only [hc, if_false, ravb_write]
  · have hbusy := (update_compare_cases
      { ndev with
        ptp := { ndev.ptp with
          perout := { target := perout_ns req.start, period := perout_ns req.period } } }
      gccr (perout_ns req.start)).1 hb
    have hperout : ravb_ptp_perout ndev gccr req true =
        ({ ndev with
            ptp := { ndev.ptp with
              perout := { target := perout_ns req.start, period := perout_ns req.period } } },
          -EBUSY_errno) := by
      unfold ravb_ptp_perout
      simp only [hidx, ne_eq, not_true_eq_false, if_false, if_true, hsr, hpr, hsm, hpm, hbusy]
      simp [EBUSY_errno]
    rw [hperout]
    refine ⟨es, ep, rfl, rfl, rfl, ?_, fun h => absurd h hb, fun _ => ⟨rfl, rfl⟩⟩
    show -EBUSY_errno = _
    rw [hbusy]

/-- Witness for C18: a start of 3 s + 500 ns and a period of 1 s on a Gen3
device with no compare load pending: the slot holds 3000000500 and 1000000000,
the call returns 0 and the match interrupt is unmasked. -/
theorem perout_enable_in_range_witness :
    ((ravb_ptp_perout
        ⟨ravb_ptp_init 16 0, ⟨0x40000000, 0x40000000, false, ⟨0, 0⟩⟩, .RCAR_GEN3⟩ 0
        ⟨⟨3, 500⟩, ⟨1, 0⟩, 0⟩ true).1.ptp.perout.target : Int) = 3 * 1000000000 + 500 ∧
    ((ravb_ptp_perout
        ⟨ravb_ptp_init 16 0, ⟨0x40000000, 0x40000000, false, ⟨0, 0⟩⟩, .RCAR_GEN3⟩ 0
        ⟨⟨3, 500⟩, ⟨1, 0⟩, 0⟩ true).1.ptp.perout.period : Int) = 1 * 1000000000 + 0 ∧
    (ravb_ptp_perout
        ⟨ravb_ptp_init 16 0, ⟨0x40000000, 0x40000000, false, ⟨0, 0⟩⟩, .RCAR_GEN3⟩ 0
        ⟨⟨3, 500⟩, ⟨1, 0⟩, 0⟩ true).2 = 0 ∧
    ptm_irq_unmasked (ravb_ptp_perout
        ⟨ravb_ptp_init 16 0, ⟨0x40000000, 0x40000000, false, ⟨0, 0⟩⟩, .RCAR_GEN3⟩ 0
        ⟨⟨3, 500⟩, ⟨1, 0⟩, 0⟩ true).1.priv = true :=
  have h := perout_enable_in_range
    ⟨ravb_ptp_init 16 0, ⟨0x40000000, 0x40000000, false, ⟨0, 0⟩⟩, .RCAR_GEN3⟩ 0
    ⟨⟨3, 500⟩, ⟨1, 0⟩, 0⟩ rfl (by decide) (by decide) (by decide) (by decide)
  ⟨h.1, h.2.1, (h.2.2.2.2.2.2.1 (by decide)).1, (h.2.2.2.2.2.2.1 (by decide)).2.1⟩

/-- An interrupt leaves the clock data alone while the periodic output is
disabled (`period = 0`). -/
theorem interrupt_keeps_ptp_when_disabled (n : Nat) (ndev : net_device)
    (gis_read gcpt : Nat) (gcat : Nat → Nat) (gccr : Nat)
    (hoff : ndev.ptp.perout.period = 0) :
    (ravb_ptp_interrupt n ndev gis_read gcpt gcat gccr).1.ptp = ndev.ptp := by
  unfold ravb_ptp_interrupt
  dsimp only
  split_ifs <;> simp_all

/-- A sequence of interrupts leaves the clock data alone while the periodic
output is disabled. -/
theorem interrupts_keep_ptp_when_disabled (n : Nat)
    (evs : List (Nat × Nat × (Nat → Nat) × Nat)) :
    ∀ ndev : net_device, ndev.ptp.perout.period = 0 →
      (ptp_interrupts n ndev evs).ptp = ndev.ptp := by
  induction evs with
  | nil => intro ndev _; rfl
  | cons ev evs ih =>
    intro ndev hoff
    have h1 := interrupt_keeps_ptp_when_disabled n ndev ev.1 ev.2.1 ev.2.2.1 ev.2.2.2 hoff
    show (ptp_interrupts n (ravb_ptp_interrupt n ndev ev.1 ev.2.1 ev.2.2.1 ev.2.2.2).1 evs).ptp
      = ndev.ptp
    rw [ih _ (by rw [h1]; exact hoff), h1]

/-- Claim C19.  In every state of the device, for a request with index 0 and
whatever the control register holds, disabling the periodic output returns 0,
sets `period` to 0, leaves `target` and the rest of the clock data unchanged,
writes one register, `GIC` on Gen2 and `GID` otherwise, after which the match
interrupt is masked, and writes nothing to the compare register; every
sequence of interrupts that follows leaves `target` unchanged and `period`
at 0. -/
theorem perout_disable_never_fails (n : Nat) (ndev : net_device) (gccr : Nat)
    (req : ptp_perout_request) (evs : List (Nat × Nat × (Nat → Nat) × Nat))
    (hidx : req.index = 0) :
    (ravb_ptp_perout ndev gccr req false).2 = 0 ∧
    (ravb_ptp_perout ndev gccr req false).1.ptp =
      { ndev.ptp with perout := { target := ndev.ptp.perout.target, period := 0 } } ∧
    ptm_irq_unmasked (ravb_ptp_perout ndev gccr req false).1.priv = false ∧
    (ravb_ptp_perout ndev gccr req false).1.priv.io =
      ndev.priv.io ++
        [if ndev.chip_id = ravb_chip_id.RCAR_GEN2 then
            (Reg.GIC, (ndev.priv.gic &&& (0xFFFFFFFF ^^^ GIC_PTME)) ||| 0)
          else (Reg.GID, GID_PTMD0)] ∧
    reg_writes Reg.GPTC (ravb_ptp_perout ndev gccr req false).1.priv.io =
      reg_writes Reg.GPTC ndev.priv.io ∧
    (ptp_interrupts n (ravb_ptp_perout ndev gccr req false).1 evs).ptp.perout =
      { target := ndev.ptp.perout.target, period := 0 } := by
  have hperout : ravb_ptp_perout ndev gccr req false =
      ({ ndev with
          ptp := { ndev.ptp with perout := { ndev.ptp.perout with period := 0 } }
          priv :=
            if ndev.chip_id = ravb_chip_id.RCAR_GEN2 then
              ravb_modify ndev.priv ndev.priv.gic Reg.GIC GIC_PTME 0
            else ravb_write ndev.priv GID_PTMD0 Reg.GID }, 0) := by
    unfold ravb_ptp_perout
    simp [hidx]
  have hint := interrupts_keep_ptp_when_disabled n evs
    (ravb_ptp_perout ndev gccr req false).1 (by rw [hperout])
  rw [hint, hperout]
  refine ⟨rfl, rfl, ?_, ?_, ?_, rfl⟩
  · unfold ptm_irq_unmasked
    by_cases hc : ndev.chip_id = ravb_chip_id.RCAR_GEN2
    · simp only [hc, if_true, ravb_modify, ravb_write, GIC_PTME, Nat.or_zero]
      exact testBit_two_of_and_not_four _
    · simp only [hc, if_false, ravb_write, GID_PTMD0]
      exact testBit_two_of_and_not_four _
  · by_cases hc : ndev.chip_id = ravb_chip_id.RCAR_GEN2
    · simp only [hc, if_true, ravb_modify, ravb_write]
    · simp only [hc, if_false, ravb_write]
  · by_cases hc : ndev.chip_id = ravb_chip_id.RCAR_GEN2
    · simp [hc, ravb_modify, ravb_write, reg_writes, List.filterMap_append]
    · simp [hc, ravb_write, reg_writes, List.filterMap_append]

/-- Witness for C19: a Gen2 device with the periodic output running (target
3000000500, period 10^9, match interrupt unmasked) while a compare load is
pending; then a match interrupt. -/
theorem perout_disable_never_fails_witness :
    (ravb_ptp_perout
        ⟨⟨[[]], 4, []⟩, ⟨0x40000000, 0x40000000, false, ⟨3000000500, 1000000000⟩⟩, .RCAR_GEN2⟩
        16 ⟨⟨0, 0⟩, ⟨0, 0⟩, 0⟩ false).2 = 0 ∧
    (ravb_ptp_perout
        ⟨⟨[[]], 4, []⟩, ⟨0x40000000, 0x40000000, false, ⟨3000000500, 1000000000⟩⟩, .RCAR_GEN2⟩
        16 ⟨⟨0, 0⟩, ⟨0, 0⟩, 0⟩ false).1.ptp =
      ⟨0x40000000, 0x40000000, false, ⟨3000000500, 0⟩⟩ ∧
    ptm_irq_unmasked (ravb_ptp_perout
        ⟨⟨[[]], 4, []⟩, ⟨0x40000000, 0x40000000, false, ⟨3000000500, 1000000000⟩⟩, .RCAR_GEN2⟩
        16 ⟨⟨0, 0⟩, ⟨0, 0⟩, 0⟩ false).1.priv = false ∧
    (ptp_interrupts 1 (ravb_ptp_perout
        ⟨⟨[[]], 4, []⟩, ⟨0x40000000, 0x40000000, false, ⟨3000000500, 1000000000⟩⟩, .RCAR_GEN2⟩
        16 ⟨⟨0, 0⟩, ⟨0, 0⟩, 0⟩ false).1 [(4, 0, fun _ => 0, 0)]).ptp.perout =
      ⟨3000000500, 0⟩ :=
  have h := perout_disable_never_fails 1
    ⟨⟨[[]], 4, []⟩, ⟨0x40000000, 0x40000000, false, ⟨3000000500, 1000000000⟩⟩, .RCAR_GEN2⟩
    16 ⟨⟨0, 0⟩, ⟨0, 0⟩, 0⟩ [(4, 0, fun _ => 0, 0)] rfl
  ⟨h.1, h.2.1, h.2.2.1, h.2.2.2.2.2⟩

/-! ## External timestamps -/

/-- Claim C20.  `ravb_ptp_extts` with a non-zero index returns `-EINVAL` and
changes nothing.  With index 0, when the recorded state of the slot equals the
requested one, it returns 0, writes no register and changes nothing; so a
second call with the same request, right after the first, returns 0 and leaves
the device as the first call left it, for every starting state. -/
theorem extts_idempotent (ndev : net_device) (index : Nat) (enable : Bool) :
    (index ≠ 0 → ravb_ptp_extts ndev index enable = (ndev, -EINVAL_errno)) ∧
    (ndev.ptp.extts = enable → ravb_ptp_extts ndev 0 enable = (ndev, 0)) ∧
    (ravb_ptp_extts ndev 0 enable).1.ptp.extts = enable ∧
    ravb_ptp_extts (ravb_ptp_extts ndev 0 enable).1 0 enable =
      ((ravb_ptp_extts ndev 0 enable).1, 0) := by
  have hsame : ∀ d : net_device, d.ptp.extts = enable →
      ravb_ptp_extts d 0 enable = (d, 0) := by
    intro d hd
    unfold ravb_ptp_extts
    simp [hd]
  have hrec : (ravb_ptp_extts ndev 0 enable).1.ptp.extts = enable := by
    by_cases h : ndev.ptp.extts = enable
    · rw [hsame ndev h]; exact h
    · unfold ravb_ptp_extts
      simp [h]
  refine ⟨?_, hsame ndev, hrec, hsame _ hrec⟩
  intro hi
  unfold ravb_ptp_extts
  simp [hi]

/-- Witness for C20: a Gen3 device with external timestamps off; the first
enable writes `GIE`, the second call changes nothing. -/
theorem extts_idempotent_witness :
    ravb_ptp_extts
        (ravb_ptp_extts
          ⟨ravb_ptp_init 16 0, ⟨0x40000000, 0x40000000, false, ⟨0, 0⟩⟩, .RCAR_GEN3⟩ 0 true).1
        0 true =
      ((ravb_ptp_extts
          ⟨ravb_ptp_init 16 0, ⟨0x40000000, 0x40000000, false, ⟨0, 0⟩⟩, .RCAR_GEN3⟩ 0 true).1,
        0) :=
  (extts_idempotent
    ⟨ravb_ptp_init 16 0, ⟨0x40000000, 0x40000000, false, ⟨0, 0⟩⟩, .RCAR_GEN3⟩ 0 true).2.2.2

/-! ## The cross-timestamp read -/

/-- The exits of the loop of `ravb_ptp_time_read_xts` without a failed wait:
the loop has made `m + 1` passes, `m` at most the counter it was entered with;
the first `m` spans exceeded `CTS_MAX_DELAY`; the bracket is the one of the
last pass; and either the last span is within the bound and the counter has
been decremented `m` times, or the last span exceeds the bound too, the
counter was 0 at the test and is -1 now. -/
theorem xts_loop_exit (att : Nat → xts_attempt) :
    ∀ (i : Nat) (ndev : net_device) (k requests : Nat),
      (xts_loop att ndev k requests i).error = 0 →
      ∃ m, m ≤ i ∧
        (xts_loop att ndev k requests i).requests = requests + m + 1 ∧
        (xts_loop att ndev k requests i).kt_before = (att (k + m)).kt_before ∧
        (xts_loop att ndev k requests i).kt_after = (att (k + m)).kt_after ∧
        (∀ j, j < m → (att (k + j)).kt_after - (att (k + j)).kt_before > 1000) ∧
        (∀ j, j ≤ m → (att (k + j)).wait1 = 0 ∧ (att (k + j)).wait2 = 0) ∧
        (((att (k + m)).kt_after - (att (k + m)).kt_before ≤ 1000 ∧
            (xts_loop att ndev k requests i).i = (i : Int) - m) ∨
          ((att (k + m)).kt_after - (att (k + m)).kt_before > 1000 ∧ m = i ∧
            (xts_loop att ndev k requests i).i = -1)) := by
  intro i
  induction i with
  | zero =>
    intro ndev k requests
    unfold xts_loop
    by_cases h1 : (att k).wait1 = 0
    · by_cases h2 : (att k).wait2 = 0
      · by_cases h3 : (att k).kt_after - (att k).kt_before > 1000
        · intro _
          refine ⟨0, le_refl _, ?_⟩
          simp [h1, h2, h3, ktime_to_ns, ktime_sub, CTS_MAX_DELAY]
        · intro _
          refine ⟨0, le_refl _, ?_⟩
          simp [h1, h2, h3, ktime_to_ns, ktime_sub, CTS_MAX_DELAY]
          omega
      · simp [h1, h2]
    · simp [h1]
  | succ i ih =>
    intro ndev k requests
    rw [xts_loop]
    by_cases h1 : (att k).wait1 = 0
    · by_cases h2 : (att k).wait2 = 0
      · by_cases h3 : (att k).kt_after - (att k).kt_before > 1000
        · simp only [h1, h2, ne_eq, not_true_eq_false, if_false, ktime_to_ns, ktime_sub,
            CTS_MAX_DELAY, h3, if_true]
          intro he
          obtain ⟨m, hm, a1, a2, a3, a4, a5, a6⟩ := ih _ (k + 1) (requests + 1) he
          refine ⟨m + 1, by omega, by rw [a1]; omega, ?_, ?_, ?_, ?_, ?_⟩
          · rw [a2]; congr 2; omega
          · rw [a3]; congr 2; omega
          · intro j hj
            cases j with
            | zero => simpa using h3
            | succ j =>
              have := a4 j (by omega)
              rw [show k + (j + 1) = k + 1 + j by omega]
              exact this
          · intro j hj
            cases j with
            | zero => exact ⟨h1, h2⟩
            | succ j =>
              have := a5 j (by omega)
              rw [show k + (j + 1) = k + 1 + j by omega]
              exact this
          · rw [show k + (m + 1) = k + 1 + m by omega]
            rcases a6 with ⟨b1, b2⟩ | ⟨b1, b2, b3⟩
            · left
              refine ⟨b1, ?_⟩
              rw [b2]; push_cast; omega
            · right
              exact ⟨b1, by omega, b3⟩
        · intro _
          refine ⟨0, Nat.zero_le _, ?_⟩
          simp [h1, h2, h3, ktime_to_ns, ktime_sub, CTS_MAX_DELAY]
          omega
      · simp [h1, h2]
    · simp [h1]

/-- The loop of `ravb_ptp_time_read_xts` ends without an error when no wait
fails. -/
theorem xts_loop_no_error (att : Nat → xts_attempt)
    (hw : ∀ j, (att j).wait1 = 0 ∧ (att j).wait2 = 0) :
    ∀ (i : Nat) (ndev : net_device) (k requests : Nat),
      (xts_loop att ndev k requests i).error = 0 := by
  intro i
  induction i with
  | zero =>
    intro ndev k requests
    unfold xts_loop
    simp only [(hw k).1, (hw k).2, ne_eq, not_true_eq_false, if_false]
    split_ifs <;> rfl
  | succ i ih =>
    intro ndev k requests
    rw [xts_loop]
    simp only [(hw k).1, (hw k).2, ne_eq, not_true_eq_false, if_false]
    split_ifs
    · exact ih _ _ _
    · rfl

/-- A successful `ravb_ptp_time_read_xts`: the accepted pass `k` is one of the
first 100, it is the last one made, every wait up to it has succeeded, every
earlier span exceeded `CTS_MAX_DELAY`, its own span does not, and the results
are the time read from `GCT0..2` and the instant computed from its bracket. -/
theorem xts_success (ndev : net_device) (att : Nat → xts_attempt) (gct0 gct1 gct2 : Nat)
    (h : (ravb_ptp_time_read_xts ndev att gct0 gct1 gct2).2.1 = 0) :
    ∃ k, k < 100 ∧
      (ravb_ptp_time_read_xts ndev att gct0 gct1 gct2).2.2.2 = k + 1 ∧
      (∀ j, j < k → (att j).kt_after - (att j).kt_before > 1000) ∧
      (∀ j, j ≤ k → (att j).wait1 = 0 ∧ (att j).wait2 = 0) ∧
      (att k).kt_after - (att k).kt_before ≤ 1000 ∧
      (ravb_ptp_time_read_xts ndev att gct0 gct1 gct2).2.2.1 =
        some (gct_time gct0 gct1 gct2,
          (att k).kt_before + Int.tdiv ((att k).kt_after - (att k).kt_before) 2) := by
  unfold ravb_ptp_time_read_xts at h ⊢
  dsimp only at h ⊢
  by_cases he : (xts_loop att ndev 0 0 CTS_MAX_ITER).error = 0
  · obtain ⟨m, hm, a1, a2, a3, a4, a5, a6⟩ := xts_loop_exit att CTS_MAX_ITER ndev 0 0 he
    simp only [Nat.zero_add] at a1 a2 a3 a4 a5 a6
    by_cases hi : (xts_loop att ndev 0 0 CTS_MAX_ITER).i ≤ 0
    · rw [if_neg (not_not.2 he), if_pos hi] at h
      simp [ETIMEDOUT_errno] at h
    · rw [if_neg (not_not.2 he), if_neg hi]
      rcases a6 with ⟨b1, b2⟩ | ⟨_, _, b3⟩
      · refine ⟨m, ?_, a1, a4, a5, b1, ?_⟩
        · rw [b2] at hi
          simp only [CTS_MAX_ITER] at hi
          omega
        · simp only [a2, a3, ktime_add_ns, ktime_divns, ktime_sub]
      · exact absurd (by rw [b3]; decide) hi
  · rw [if_pos he] at h
    exact absurd h he

/-- When no wait fails and the first 100 spans exceed `CTS_MAX_DELAY`,
`ravb_ptp_time_read_xts` makes 101 passes and returns `-ETIMEDOUT`, whatever
the span of the last pass is. -/
theorem xts_timeout_after_cap (ndev : net_device) (att : Nat → xts_attempt)
    (gct0 gct1 gct2 : Nat) (hw : ∀ j, (att j).wait1 = 0 ∧ (att j).wait2 = 0)
    (hex : ∀ j, j < 100 → (att j).kt_after - (att j).kt_before > 1000) :
    (ravb_ptp_time_read_xts ndev att gct0 gct1 gct2).2.1 = -ETIMEDOUT_errno ∧
    (ravb_ptp_time_read_xts ndev att gct0 gct1 gct2).2.2.1 = none ∧
    (ravb_ptp_time_read_xts ndev att gct0 gct1 gct2).2.2.2 = 101 := by
  have he := xts_loop_no_error att hw CTS_MAX_ITER ndev 0 0
  obtain ⟨m, hm, a1, _, _, _, _, a6⟩ := xts_loop_exit att CTS_MAX_ITER ndev 0 0 he
  simp only [Nat.zero_add] at a1 a6
  simp only [CTS_MAX_ITER] at hm
  have hm100 : m = 100 := by
    rcases a6 with ⟨b1, _⟩ | ⟨_, b2, _⟩
    · by_contra hne
      have := hex m (by omega)
      omega
    · simpa [CTS_MAX_ITER] using b2
  have hi : (xts_loop att ndev 0 0 CTS_MAX_ITER).i ≤ 0 := by
    rcases a6 with ⟨_, b2⟩ | ⟨_, _, b3⟩
    · rw [b2, hm100]; simp [CTS_MAX_ITER]
    · rw [b3]; decide
  unfold ravb_ptp_time_read_xts
  dsimp only
  rw [if_neg (not_not.2 he), if_pos hi]
  exact ⟨rfl, rfl, by rw [a1, hm100]⟩

/-- Claim C21, as the code has it.  On every successful return of
`ravb_ptp_time_read_xts` the accepted pass is the last one made, at most the
100th; its bracket span (host time after minus host time before) is at most
`CTS_MAX_DELAY` = 1000 ns, so a pass whose span exceeds the bound is never
accepted; every earlier pass had a span above the bound; and the instant
returned is computed from the bracket of the accepted pass. -/
theorem xts_accepts_within_bound (ndev : net_device) (att : Nat → xts_attempt)
    (gct0 gct1 gct2 : Nat)
    (h : (ravb_ptp_time_read_xts ndev att gct0 gct1 gct2).2.1 = 0) :
    1 ≤ (ravb_ptp_time_read_xts ndev att gct0 gct1 gct2).2.2.2 ∧
    (ravb_ptp_time_read_xts ndev att gct0 gct1 gct2).2.2.2 ≤ CTS_MAX_ITER ∧
    (att ((ravb_ptp_time_read_xts ndev att gct0 gct1 gct2).2.2.2 - 1)).kt_after -
      (att ((ravb_ptp_time_read_xts ndev att gct0 gct1 gct2).2.2.2 - 1)).kt_before
        ≤ CTS_MAX_DELAY ∧
    (∀ j, j < (ravb_ptp_time_read_xts ndev att gct0 gct1 gct2).2.2.2 - 1 →
      ¬ ((att j).kt_after - (att j).kt_before ≤ CTS_MAX_DELAY)) ∧
    (ravb_ptp_time_read_xts ndev att gct0 gct1 gct2).2.2.1 =
      some (gct_time gct0 gct1 gct2,
        ktime_add_ns
          (att ((ravb_ptp_time_read_xts ndev att gct0 gct1 gct2).2.2.2 - 1)).kt_before
          (ktime_divns
            (ktime_sub
              (att ((ravb_ptp_time_read_xts ndev att gct0 gct1 gct2).2.2.2 - 1)).kt_after
              (att ((ravb_ptp_time_read_xts ndev att gct0 gct1 gct2).2.2.2 - 1)).kt_before)
            2)) := by
  obtain ⟨k, hk, a1, a2, _, a4, a5⟩ := xts_success ndev att gct0 gct1 gct2 h
  rw [a1, a5]
  simp only [Nat.add_sub_cancel, CTS_MAX_ITER, CTS_MAX_DELAY, ktime_add_ns, ktime_divns,
    ktime_sub]
  refine ⟨by omega, by omega, a4, ?_, trivial⟩
  intro j hj
  have := a2 j hj
  omega

/-- Witness for C21 as the code has it: the first pass has a span of 700 ns;
the call succeeds after one request, 700 is within the bound, and the instant
is 5350. -/
theorem xts_accepts_within_bound_witness :
    (ravb_ptp_time_read_xts
      ⟨ravb_ptp_init 16 0, ⟨0x40000000, 0x40000000, false, ⟨0, 0⟩⟩, .RCAR_GEN3⟩
      (fun _ => ⟨0, 5000, 0, 0, 5700⟩) 7 8 9).2.1 = 0 ∧
    (ravb_ptp_time_read_xts
      ⟨ravb_ptp_init 16 0, ⟨0x40000000, 0x40000000, false, ⟨0, 0⟩⟩, .RCAR_GEN3⟩
      (fun _ => ⟨0, 5000, 0, 0, 5700⟩) 7 8 9).2.2.2 = 1 ∧
    (5700 : Int) - 5000 ≤ CTS_MAX_DELAY ∧
    (ravb_ptp_time_read_xts
      ⟨ravb_ptp_init 16 0, ⟨0x40000000, 0x40000000, false, ⟨0, 0⟩⟩, .RCAR_GEN3⟩
      (fun _ => ⟨0, 5000, 0, 0, 5700⟩) 7 8 9).2.2.1 =
        some (⟨8 + 9 * 4294967296, 7⟩, 5350) :=
  have h := xts_accepts_within_bound
    ⟨ravb_ptp_init 16 0, ⟨0x40000000, 0x40000000, false, ⟨0, 0⟩⟩, .RCAR_GEN3⟩
    (fun _ => ⟨0, 5000, 0, 0, 5700⟩) 7 8 9 (by decide)
  ⟨by decide, by decide, h.2.2.1, by decide⟩

/-- Counterexample to claim C21 as stated: a first pass whose span is exactly
1000 ns, which is not below the bound, is accepted: the call returns 0 after
one request with the instant 5500 of that bracket. -/
theorem xts_accepts_span_at_bound :
    (ravb_ptp_time_read_xts
      ⟨ravb_ptp_init 16 0, ⟨0x40000000, 0x40000000, false, ⟨0, 0⟩⟩, .RCAR_GEN3⟩
      (fun _ => ⟨0, 5000, 0, 0, 6000⟩) 7 8 9).2 =
        (0, some (⟨8 + 9 * 4294967296, 7⟩, 5500), 1) ∧
    ¬ ((6000 : Int) - 5000 < CTS_MAX_DELAY) := by
  decide

/-- The code at the input that breaks claim C22: all waits succeed, the first
100 passes have a span of 2000 ns and the 101st has a span of 500 ns, within
the bound.  `ravb_ptp_time_read_xts` writes 101 capture requests, one more
than `CTS_MAX_ITER`, and returns `-ETIMEDOUT` although the loop has ended on a
pass within the bound. -/
theorem xts_discards_pass_after_cap :
    (ravb_ptp_time_read_xts
      ⟨ravb_ptp_init 16 0, ⟨0x40000000, 0x40000000, false, ⟨0, 0⟩⟩, .RCAR_GEN3⟩
      (fun k => if k < 100 then ⟨0, 0, 0, 0, 2000⟩ else ⟨0, 0, 0, 0, 500⟩) 7 8 9).2.1 =
        -ETIMEDOUT_errno ∧
    (ravb_ptp_time_read_xts
      ⟨ravb_ptp_init 16 0, ⟨0x40000000, 0x40000000, false, ⟨0, 0⟩⟩, .RCAR_GEN3⟩
      (fun k => if k < 100 then ⟨0, 0, 0, 0, 2000⟩ else ⟨0, 0, 0, 0, 500⟩) 7 8 9).2.2.2 =
        CTS_MAX_ITER + 1 ∧
    ((fun k => if k < 100 then (⟨0, 0, 0, 0, 2000⟩ : xts_attempt) else ⟨0, 0, 0, 0, 500⟩)
        100).kt_after -
      ((fun k => if k < 100 then (⟨0, 0, 0, 0, 2000⟩ : xts_attempt) else ⟨0, 0, 0, 0, 500⟩)
        100).kt_before ≤ CTS_MAX_DELAY := by
  have h := xts_timeout_after_cap
    ⟨ravb_ptp_init 16 0, ⟨0x40000000, 0x40000000, false, ⟨0, 0⟩⟩, .RCAR_GEN3⟩
    (fun k => if k < 100 then ⟨0, 0, 0, 0, 2000⟩ else ⟨0, 0, 0, 0, 500⟩) 7 8 9
    (by intro j; by_cases hj : j < 100 <;> simp [hj])
    (by intro j hj; simp [hj])
  exact ⟨h.1, h.2.2, by decide⟩

/-- Claim C23.  On every successful `ravb_ptp_time_read_xts` over a host clock
that does not run backwards, the instant returned is
`before + (after - before) / 2` for the bracket of the accepted pass, with the
integer division; it lies between `before` and `after`; twice the instant is
`before + after` or one less, so the instant is within half a nanosecond of
the exact midpoint; and it equals `before` or `after` only when the span is at
most 1 ns. -/
theorem xts_time_is_midpoint (ndev : net_device) (att : Nat → xts_attempt)
    (gct0 gct1 gct2 : Nat)
    (h : (ravb_ptp_time_read_xts ndev att gct0 gct1 gct2).2.1 = 0)
    (hmono : ∀ k, (att k).kt_before ≤ (att k).kt_after) :
    ∃ k time, (ravb_ptp_time_read_xts ndev att gct0 gct1 gct2).2.2.2 = k + 1 ∧
      (ravb_ptp_time_read_xts ndev att gct0 gct1 gct2).2.2.1 =
        some (gct_time gct0 gct1 gct2, time) ∧
      time = (att k).kt_before + ((att k).kt_after - (att k).kt_before) / 2 ∧
      (att k).kt_before ≤ time ∧ time ≤ (att k).kt_after ∧
      0 ≤ (att k).kt_before + (att k).kt_after - 2 * time ∧
      (att k).kt_before + (att k).kt_after - 2 * time ≤ 1 ∧
      ((time = (att k).kt_before ∨ time = (att k).kt_after) →
        (att k).kt_after - (att k).kt_before ≤ 1) := by
  obtain ⟨k, _, a1, _, _, _, a5⟩ := xts_success ndev att gct0 gct1 gct2 h
  refine ⟨k, _, a1, a5, ?_⟩
  have hk := hmono k
  rw [Int.tdiv_eq_ediv (by omega) (by decide)]
  refine ⟨rfl, by omega, by omega, by omega, by omega, ?_⟩
  intro hh
  omega

/-- Witness for C23: a bracket from 5000 to 5701 on the first pass gives the
instant 5350, between the two, half a nanosecond below the exact midpoint. -/
theorem xts_time_is_midpoint_witness :
    ∃ k time,
      (ravb_ptp_time_read_xts
        ⟨ravb_ptp_init 16 0, ⟨0x40000000, 0x40000000, false, ⟨0, 0⟩⟩, .RCAR_GEN3⟩
        (fun _ => ⟨0, 5000, 0, 0, 5701⟩) 7 8 9).2.2.2 = k + 1 ∧
      (ravb_ptp_time_read_xts
        ⟨ravb_ptp_init 16 0, ⟨0x40000000, 0x40000000, false, ⟨0, 0⟩⟩, .RCAR_GEN3⟩
        (fun _ => ⟨0, 5000, 0, 0, 5701⟩) 7 8 9).2.2.1 =
          some (gct_time 7 8 9, time) ∧
      time = 5000 + ((5701 : Int) - 5000) / 2 ∧
      (5000 : Int) ≤ time ∧ time ≤ 5701 ∧
      0 ≤ (5000 : Int) + 5701 - 2 * time ∧ (5000 : Int) + 5701 - 2 * time ≤ 1 ∧
      ((time = 5000 ∨ time = 5701) → (5701 : Int) - 5000 ≤ 1) :=
  xts_time_is_midpoint
    ⟨ravb_ptp_init 16 0, ⟨0x40000000, 0x40000000, false, ⟨0, 0⟩⟩, .RCAR_GEN3⟩
    (fun _ => ⟨0, 5000, 0, 0, 5701⟩) 7 8 9 (by decide)
    (by intro _; show (5000 : Int) ≤ 5701; decide)

/-! ## Writing the time -/

/-- The two results of `ravb_ptp_tcr_request`: with a failed first wait the
device is untouched; otherwise the request is written to `GCCR` and the result
is the one of the second wait. -/
theorem tcr_request_cases (ndev : net_device) (t : tcr_io) (request : Nat) :
    (t.wait1 ≠ 0 → ravb_ptp_tcr_request ndev t request = (ndev, t.wait1)) ∧
    (t.wait1 = 0 →
      (ravb_ptp_tcr_request ndev t request).2 = t.wait2 ∧
      (ravb_ptp_tcr_request ndev t request).1.ptp = ndev.ptp ∧
      (ravb_ptp_tcr_request ndev t request).1.chip_id = ndev.chip_id ∧
      (ravb_ptp_tcr_request ndev t request).1.priv.avtp_capture = ndev.priv.avtp_capture ∧
      (ravb_ptp_tcr_request ndev t request).1.priv.gic = ndev.priv.gic ∧
      (ravb_ptp_tcr_request ndev t request).1.priv.io =
        ndev.priv.io ++ [(Reg.GCCR, (t.gccr &&& (0xFFFFFFFF ^^^ request)) ||| request)]) := by
  constructor
  · intro h
    unfold ravb_ptp_tcr_request
    rw [if_pos h]
  · intro h
    unfold ravb_ptp_tcr_request
    rw [if_neg (not_not.2 h)]
    simp [ravb_modify, ravb_write]

/-- The values written to a register, when one write is appended to the log. -/
theorem reg_writes_append_one (reg r : Reg) (v : Nat) (io : List (Reg × Nat)) :
    reg_writes reg (io ++ [(r, v)]) = reg_writes reg io ++ (if r = reg then [v] else []) := by
  unfold reg_writes
  rw [List.filterMap_append]
  by_cases h : r = reg <;> simp [h]

/-- The low 32 bits of the 64-bit pattern of an integer. -/
theorem to_u64_mod_u32 (x : Int) : to_u64 x % 4294967296 = (x % 4294967296).toNat := by
  unfold to_u64
  omega

/-- Bits 32 to 47 of the 64-bit pattern of an integer. -/
theorem to_u64_high (x : Int) :
    (to_u64 x >>> 32) &&& 0xffff = (x / 4294967296 % 65536).toNat := by
  unfold to_u64
  rw [Nat.shiftRight_eq_div_pow, show (0xffff : Nat) = 2 ^ 16 - 1 by norm_num,
    Nat.and_pow_two_sub_one_eq_mod]
  omega

/-- The device that `ravb_ptp_time_write` leaves when the RESET request has
succeeded and no load of the offset is pending. -/
theorem time_write_done (ndev : net_device) (t : tcr_io) (gccr : Nat) (ts : timespec64)
    (h1 : t.wait1 = 0) (h2 : t.wait2 = 0) (hl : gccr &&& GCCR_LTO = 0) :
    (ravb_ptp_time_write ndev t gccr ts).2 = 0 ∧
    (ravb_ptp_time_write ndev t gccr ts).1.ptp = ndev.ptp ∧
    (ravb_ptp_time_write ndev t gccr ts).1.chip_id = ndev.chip_id ∧
    (ravb_ptp_time_write ndev t gccr ts).1.priv.avtp_capture = ndev.priv.avtp_capture ∧
    (ravb_ptp_time_write ndev t gccr ts).1.priv.gic = ndev.priv.gic ∧
    (ravb_ptp_time_write ndev t gccr ts).1.priv.io =
      (ravb_ptp_tcr_request ndev t GCCR_TCR_RESET).1.priv.io ++
        [(Reg.GTO0, (ts.tv_nsec % 4294967296).toNat),
          (Reg.GTO1, (ts.tv_sec % 4294967296).toNat),
          (Reg.GTO2, (ts.tv_sec / 4294967296 % 65536).toNat),
          (Reg.GCCR, gccr ||| GCCR_LTO)] := by
  obtain ⟨q1, q2, q3, q4, q5, _⟩ := (tcr_request_cases ndev t GCCR_TCR_RESET).2 h1
  unfold ravb_ptp_time_write
  dsimp only
  rw [if_neg (by rw [q1, h2]; decide), if_neg (not_not.2 hl)]
  refine ⟨rfl, q2, q3, ?_, ?_, ?_⟩
  · simpa [ravb_write] using q4
  · simpa [ravb_write] using q5
  · simp [ravb_write, to_u64_mod_u32, to_u64_high]

/-- Claim C24, as the code has it.  For every timestamp whose `tv_nsec` is a
`u32` value: when the RESET request fails, `ravb_ptp_time_write` returns its error and
leaves the device as the request left it: none of the three offset words and
no load trigger is written, the only register write there can be is the one of
the request to `GCCR` (made when the first wait succeeded and the second
failed).  When the request succeeds and `GCCR_LTO` is set in the control
register, it returns `-EBUSY` and writes nothing after the request.  Otherwise
it returns 0 and writes, in this order after the request, `GTO0 = tv_nsec`,
`GTO1 = tv_sec mod 2^32`, `GTO2 =` bits 32..47 of `tv_sec`, and the control
register with `GCCR_LTO` set. -/
theorem time_write_words (ndev : net_device) (t : tcr_io) (gccr : Nat) (ts : timespec64)
    (hn0 : 0 ≤ ts.tv_nsec) (hn1 : ts.tv_nsec < 4294967296) :
    ((ravb_ptp_tcr_request ndev t GCCR_TCR_RESET).2 ≠ 0 →
      ravb_ptp_time_write ndev t gccr ts = ravb_ptp_tcr_request ndev t GCCR_TCR_RESET ∧
      (t.wait1 ≠ 0 → ravb_ptp_time_write ndev t gccr ts = (ndev, t.wait1)) ∧
      (t.wait1 = 0 →
        (ravb_ptp_time_write ndev t gccr ts).2 = t.wait2 ∧
        (ravb_ptp_time_write ndev t gccr ts).1.priv.io =
          ndev.priv.io ++
            [(Reg.GCCR, (t.gccr &&& (0xFFFFFFFF ^^^ GCCR_TCR_RESET)) ||| GCCR_TCR_RESET)])) ∧
    ((ravb_ptp_tcr_request ndev t GCCR_TCR_RESET).2 = 0 → gccr &&& GCCR_LTO ≠ 0 →
      ravb_ptp_time_write ndev t gccr ts =
        ((ravb_ptp_tcr_request ndev t GCCR_TCR_RESET).1, -EBUSY_errno)) ∧
    ((ravb_ptp_tcr_request ndev t GCCR_TCR_RESET).2 = 0 → gccr &&& GCCR_LTO = 0 →
      (ravb_ptp_time_write ndev t gccr ts).2 = 0 ∧
      (ravb_ptp_time_write ndev t gccr ts).1.ptp = ndev.ptp ∧
      (ravb_ptp_time_write ndev t gccr ts).1.priv.io =
        (ravb_ptp_tcr_request ndev t GCCR_TCR_RESET).1.priv.io ++
          [(Reg.GTO0, ts.tv_nsec.toNat),
            (Reg.GTO1, (ts.tv_sec % 4294967296).toNat),
            (Reg.GTO2, (ts.tv_sec / 4294967296 % 65536).toNat),
            (Reg.GCCR, gccr ||| GCCR_LTO)]) := by
  have hq := tcr_request_cases ndev t GCCR_TCR_RESET
  refine ⟨?_, ?_, ?_⟩
  · intro he
    have hw : ravb_ptp_time_write ndev t gccr ts = ravb_ptp_tcr_request ndev t GCCR_TCR_RESET := by
      unfold ravb_ptp_time_write
      dsimp only
      rw [if_pos he]
    refine ⟨hw, ?_, ?_⟩
    · intro h1
      rw [hw, hq.1 h1]
    · intro h1
      rw [hw]
      exact ⟨(hq.2 h1).1, (hq.2 h1).2.2.2.2.2⟩
  · intro he hl
    unfold ravb_ptp_time_write
    dsimp only
    rw [if_neg (not_not.2 he), if_pos hl]
  · intro he hl
    have h1 : t.wait1 = 0 := by
      by_contra hc
      rw [hq.1 hc] at he
      exact hc he
    have h2 : t.wait2 = 0 := by rw [← (hq.2 h1).1]; exact he
    obtain ⟨d1, d2, _, _, _, d6⟩ := time_write_done ndev t gccr ts h1 h2 hl
    refine ⟨d1, d2, ?_⟩
    rw [d6, Int.emod_eq_of_lt hn0 hn1]

/-- Witness for C24 as the code has it: 3 * 2^32 + 5 seconds and 7
nanoseconds, all waits succeeding and no load pending: the request, the three words 7, 5, 3 and the
load trigger are written, and the call returns 0. -/
theorem time_write_words_witness :
    (ravb_ptp_time_write
      ⟨ravb_ptp_init 16 0, ⟨0x40000000, 0x40000000, false, ⟨0, 0⟩⟩, .RCAR_GEN3⟩
      ⟨0, 0, 0⟩ 0 ⟨3 * 4294967296 + 5, 7⟩).2 = 0 ∧
    (ravb_ptp_time_write
      ⟨ravb_ptp_init 16 0, ⟨0x40000000, 0x40000000, false, ⟨0, 0⟩⟩, .RCAR_GEN3⟩
      ⟨0, 0, 0⟩ 0 ⟨3 * 4294967296 + 5, 7⟩).1.priv.io =
        [(Reg.GCCR, 1), (Reg.GTO0, 7), (Reg.GTO1, 5), (Reg.GTO2, 3), (Reg.GCCR, 4)] :=
  have h := (time_write_words
    ⟨ravb_ptp_init 16 0, ⟨0x40000000, 0x40000000, false, ⟨0, 0⟩⟩, .RCAR_GEN3⟩
    ⟨0, 0, 0⟩ 0 ⟨3 * 4294967296 + 5, 7⟩ (by decide) (by decide)).2.2 (by decide) (by decide)
  ⟨h.1, h.2.2⟩

/-- Counterexample to claim C24 as stated: the RESET request fails in its second
wait; `ravb_ptp_time_write` returns that error, and the request has been
written to the control register of a device whose log was empty. -/
theorem time_write_failed_request_writes :
    (ravb_ptp_time_write
      ⟨ravb_ptp_init 16 0, ⟨0x40000000, 0x40000000, false, ⟨0, 0⟩⟩, .RCAR_GEN3⟩
      ⟨0, 0, -ETIMEDOUT_errno⟩ 0 ⟨5, 7⟩).2 = -ETIMEDOUT_errno ∧
    (ravb_ptp_init 16 0).io = [] ∧
    (ravb_ptp_time_write
      ⟨ravb_ptp_init 16 0, ⟨0x40000000, 0x40000000, false, ⟨0, 0⟩⟩, .RCAR_GEN3⟩
      ⟨0, 0, -ETIMEDOUT_errno⟩ 0 ⟨5, 7⟩).1.priv.io = [(Reg.GCCR, GCCR_TCR_RESET)] := by
  decide

/-! ## Adjusting the time -/

/-- The `u64` with the bits of an integer is that integer modulo `2^64`. -/
theorem to_u64_cast (x : Int) : ((to_u64 x : Nat) : Int) = x % 18446744073709551616 := by
  unfold to_u64
  omega

/-- The `s64` with the bits of `n` is congruent to `n` modulo `2^64`. -/
theorem to_s64_emod (n : Nat) :
    to_s64 n % 18446744073709551616 = (n : Int) % 18446744073709551616 := by
  unfold to_s64
  split_ifs <;> omega

/-- The `s64` with the bits of `n` is the integer of the `s64` range that is
congruent to `n` modulo `2^64`. -/
theorem to_s64_of_range (n : Nat) (x : Int)
    (h : (n : Int) % 18446744073709551616 = x % 18446744073709551616)
    (h0 : -9223372036854775808 ≤ x) (h1 : x < 9223372036854775808) : to_s64 n = x := by
  unfold to_s64
  split_ifs <;> omega

/-- The sum of `ravb_ptp_adjtime`, taken in `u64` and read as an `s64`, is the
exact total `tv_sec * 10^9 + tv_nsec + delta` when `tv_sec` is below
`KTIME_SEC_MAX` and that total is not negative and fits 63 bits. -/
theorem adjtime_total (ts : timespec64) (delta : Int)
    (hsec : ts.tv_sec < 9223372036)
    (h0 : 0 ≤ ts.tv_sec * 1000000000 + ts.tv_nsec + delta)
    (h1 : ts.tv_sec * 1000000000 + ts.tv_nsec + delta < 9223372036854775808) :
    to_s64 ((to_u64 (ktime_to_ns (timespec64_to_ktime ts)) + to_u64 delta)
      % 18446744073709551616) = ts.tv_sec * 1000000000 + ts.tv_nsec + delta := by
  unfold ktime_to_ns timespec64_to_ktime ktime_set KTIME_SEC_MAX
  rw [if_neg (by omega)]
  have b1 := to_s64_emod (to_u64 ts.tv_nsec)
  have b2 := to_u64_cast ts.tv_nsec
  have k1 := to_s64_emod (to_u64 (ts.tv_sec * 1000000000 + to_s64 (to_u64 ts.tv_nsec)))
  have k2 := to_u64_cast (ts.tv_sec * 1000000000 + to_s64 (to_u64 ts.tv_nsec))
  have k3 := to_u64_cast
    (to_s64 (to_u64 (ts.tv_sec * 1000000000 + to_s64 (to_u64 ts.tv_nsec))))
  have d1 := to_u64_cast delta
  apply to_s64_of_range _ _ _ (by omega) h1
  push_cast
  omega

/-- The sum of `ravb_ptp_adjtime` when `tv_sec` has reached `KTIME_SEC_MAX`:
the latched time counts as `KTIME_MAX`, whatever `tv_nsec` is. -/
theorem adjtime_total_saturated (ts : timespec64) (delta : Int)
    (hsec : 9223372036 ≤ ts.tv_sec) :
    to_s64 ((to_u64 (ktime_to_ns (timespec64_to_ktime ts)) + to_u64 delta)
      % 18446744073709551616) = to_s64 (to_u64 (KTIME_MAX + delta)) := by
  unfold ktime_to_ns timespec64_to_ktime ktime_set KTIME_SEC_MAX
  rw [if_pos (by omega)]
  unfold KTIME_MAX to_s64 to_u64
  split_ifs <;> omega

/-- Claim C25, as the code has it.  When the time read of `ravb_ptp_adjtime`
succeeds and latches `(sec, nsec)` with `sec < KTIME_SEC_MAX = 9223372036`, and
`total = sec * 10^9 + nsec + delta` is not negative and fits 63 bits, the
function is `ravb_ptp_time_write` of the timestamp with
`tv_sec = total div 10^9` and `tv_nsec = total mod 10^9`, whose total of
nanoseconds is `total`.  When the read latches `sec >= KTIME_SEC_MAX`, the
latched time counts as `KTIME_MAX = 2^63 - 1` ns and the timestamp written is
the split of `KTIME_MAX + delta`, taken in 64 bits.  When the read fails, the
function returns its error and leaves the device as the CAPTURE request left
it: no offset word and no load trigger is written; the only register write
there can be is the one of the request to `GCCR`. -/
theorem adjtime_writes_total (ndev : net_device) (rd : tcr_io) (gct0 gct1 gct2 : Nat)
    (wr : tcr_io) (gccr : Nat) (delta : Int) :
    ((ravb_ptp_tcr_request ndev rd GCCR_TCR_CAPTURE).2 = 0 →
      (gct_time gct0 gct1 gct2).tv_sec < KTIME_SEC_MAX →
      0 ≤ (gct_time gct0 gct1 gct2).tv_sec * 1000000000 + (gct0 : Int) + delta →
      (gct_time gct0 gct1 gct2).tv_sec * 1000000000 + (gct0 : Int) + delta
        < 9223372036854775808 →
      ravb_ptp_adjtime ndev rd gct0 gct1 gct2 wr gccr delta =
        ravb_ptp_time_write (ravb_ptp_tcr_request ndev rd GCCR_TCR_CAPTURE).1 wr gccr
          ⟨((gct_time gct0 gct1 gct2).tv_sec * 1000000000 + (gct0 : Int) + delta) / 1000000000,
            ((gct_time gct0 gct1 gct2).tv_sec * 1000000000 + (gct0 : Int) + delta)
              % 1000000000⟩ ∧
      ((gct_time gct0 gct1 gct2).tv_sec * 1000000000 + (gct0 : Int) + delta) / 1000000000
          * 1000000000 +
        ((gct_time gct0 gct1 gct2).tv_sec * 1000000000 + (gct0 : Int) + delta) % 1000000000 =
        (gct_time gct0 gct1 gct2).tv_sec * 1000000000 + (gct0 : Int) + delta) ∧
    ((ravb_ptp_tcr_request ndev rd GCCR_TCR_CAPTURE).2 = 0 →
      KTIME_SEC_MAX ≤ (gct_time gct0 gct1 gct2).tv_sec →
      ravb_ptp_adjtime ndev rd gct0 gct1 gct2 wr gccr delta =
        ravb_ptp_time_write (ravb_ptp_tcr_request ndev rd GCCR_TCR_CAPTURE).1 wr gccr
          ⟨to_s64 (to_u64 (KTIME_MAX + delta)) / 1000000000,
            to_s64 (to_u64 (KTIME_MAX + delta)) % 1000000000⟩) ∧
    ((ravb_ptp_tcr_request ndev rd GCCR_TCR_CAPTURE).2 ≠ 0 →
      ravb_ptp_adjtime ndev rd gct0 gct1 gct2 wr gccr delta =
        ravb_ptp_tcr_request ndev rd GCCR_TCR_CAPTURE ∧
      (rd.wait1 ≠ 0 → ravb_ptp_adjtime ndev rd gct0 gct1 gct2 wr gccr delta = (ndev, rd.wait1)) ∧
      (rd.wait1 = 0 →
        (ravb_ptp_adjtime ndev rd gct0 gct1 gct2 wr gccr delta).2 = rd.wait2 ∧
        (ravb_ptp_adjtime ndev rd gct0 gct1 gct2 wr gccr delta).1.priv.io =
          ndev.priv.io ++
            [(Reg.GCCR,
              (rd.gccr &&& (0xFFFFFFFF ^^^ GCCR_TCR_CAPTURE)) ||| GCCR_TCR_CAPTURE)])) := by
  have hq := tcr_request_cases ndev rd GCCR_TCR_CAPTURE
  refine ⟨?_, ?_, ?_⟩
  · intro he hsec h0 h1
    constructor
    · unfold ravb_ptp_adjtime ravb_ptp_time_read
      dsimp only
      rw [if_neg (not_not.2 he)]
      dsimp only
      rw [adjtime_total _ _ hsec h0 h1]
      rfl
    · omega
  · intro he hsec
    unfold ravb_ptp_adjtime ravb_ptp_time_read
    dsimp only
    rw [if_neg (not_not.2 he)]
    dsimp only
    rw [adjtime_total_saturated _ _ hsec]
    rfl
  · intro he
    have hw : ravb_ptp_adjtime ndev rd gct0 gct1 gct2 wr gccr delta =
        ravb_ptp_tcr_request ndev rd GCCR_TCR_CAPTURE := by
      unfold ravb_ptp_adjtime ravb_ptp_time_read
      dsimp only
      rw [if_pos he]
    refine ⟨hw, ?_, ?_⟩
    · intro h1
      rw [hw, hq.1 h1]
    · intro h1
      rw [hw]
      exact ⟨(hq.2 h1).1, (hq.2 h1).2.2.2.2.2⟩

/-- Witness for C25 as the code has it: the clock holds 10 s + 999999999 ns
and `delta` is 2 ns; the time written is 11 s + 1 ns. -/
theorem adjtime_writes_total_witness :
    ravb_ptp_adjtime
      ⟨ravb_ptp_init 16 0, ⟨0x40000000, 0x40000000, false, ⟨0, 0⟩⟩, .RCAR_GEN3⟩
      ⟨0, 0, 0⟩ 999999999 10 0 ⟨0, 0, 0⟩ 0 2 =
    ravb_ptp_time_write
      (ravb_ptp_tcr_request
        ⟨ravb_ptp_init 16 0, ⟨0x40000000, 0x40000000, false, ⟨0, 0⟩⟩, .RCAR_GEN3⟩
        ⟨0, 0, 0⟩ GCCR_TCR_CAPTURE).1
      ⟨0, 0, 0⟩ 0 ⟨11, 1⟩ :=
  ((adjtime_writes_total
    ⟨ravb_ptp_init 16 0, ⟨0x40000000, 0x40000000, false, ⟨0, 0⟩⟩, .RCAR_GEN3⟩
    ⟨0, 0, 0⟩ 999999999 10 0 ⟨0, 0, 0⟩ 0 2).1
      (by decide) (by decide) (by decide) (by decide)).1

/-- Counterexample to claim C25 as stated: the CAPTURE request of the read
fails in its second wait; `ravb_ptp_adjtime` returns that error, and the request has
been written to the control register of a device whose log was empty. -/
theorem adjtime_failed_read_writes :
    (ravb_ptp_adjtime
      ⟨ravb_ptp_init 16 0, ⟨0x40000000, 0x40000000, false, ⟨0, 0⟩⟩, .RCAR_GEN3⟩
      ⟨0, 0, -ETIMEDOUT_errno⟩ 999999999 10 0 ⟨0, 0, 0⟩ 0 2).2 = -ETIMEDOUT_errno ∧
    (ravb_ptp_init 16 0).io = [] ∧
    (ravb_ptp_adjtime
      ⟨ravb_ptp_init 16 0, ⟨0x40000000, 0x40000000, false, ⟨0, 0⟩⟩, .RCAR_GEN3⟩
      ⟨0, 0, -ETIMEDOUT_errno⟩ 999999999 10 0 ⟨0, 0, 0⟩ 0 2).1.priv.io =
        [(Reg.GCCR, GCCR_TCR_CAPTURE)] := by
  decide

/-- The saturation of the latched time in `ravb_ptp_adjtime`: the clock holds
9223372036 s + 0 ns (`GCT1 = 633437444`, `GCT2 = 2`) and `delta` is 0, so the
exact total `9223372036 * 10^9` fits 63 bits; the time written back is
9223372036 s + 854775807 ns, the split of `KTIME_MAX`, not the time read. -/
theorem adjtime_saturates :
    (gct_time 0 633437444 2).tv_sec = 9223372036 ∧
    (gct_time 0 633437444 2).tv_sec * 1000000000 + 0 + 0 < (9223372036854775808 : Int) ∧
    reg_writes Reg.GTO0 (ravb_ptp_adjtime
      ⟨ravb_ptp_init 16 0, ⟨0x40000000, 0x40000000, false, ⟨0, 0⟩⟩, .RCAR_GEN3⟩
      ⟨0, 0, 0⟩ 0 633437444 2 ⟨0, 0, 0⟩ 0 0).1.priv.io = [854775807] ∧
    reg_writes Reg.GTO1 (ravb_ptp_adjtime
      ⟨ravb_ptp_init 16 0, ⟨0x40000000, 0x40000000, false, ⟨0, 0⟩⟩, .RCAR_GEN3⟩
      ⟨0, 0, 0⟩ 0 633437444 2 ⟨0, 0, 0⟩ 0 0).1.priv.io = [633437444] ∧
    reg_writes Reg.GTO2 (ravb_ptp_adjtime
      ⟨ravb_ptp_init 16 0, ⟨0x40000000, 0x40000000, false, ⟨0, 0⟩⟩, .RCAR_GEN3⟩
      ⟨0, 0, 0⟩ 0 633437444 2 ⟨0, 0, 0⟩ 0 0).1.priv.io = [2] := by
  decide

/-! ## Round trip of the time words -/

/-- The formula of `ravb_ptp_time_read` on the three words that
`ravb_ptp_time_write` computes: the seconds come back modulo `2^48`, the
nanoseconds modulo `2^32`. -/
theorem gct_time_of_words (ts : timespec64) :
    gct_time (ts.tv_nsec % 4294967296).toNat (ts.tv_sec % 4294967296).toNat
      (ts.tv_sec / 4294967296 % 65536).toNat =
      ⟨ts.tv_sec % 281474976710656, ts.tv_nsec % 4294967296⟩ := by
  have hlt : (ts.tv_sec % 4294967296).toNat < 2 ^ 32 := by omega
  have hor : (ts.tv_sec % 4294967296).toNat |||
      ((ts.tv_sec / 4294967296 % 65536).toNat <<< 32) =
      (ts.tv_sec / 4294967296 % 65536).toNat * 4294967296 + (ts.tv_sec % 4294967296).toNat := by
    rw [Nat.lor_comm, Nat.shiftLeft_eq, Nat.mul_comm, ← Nat.mul_add_lt_is_or hlt]
  unfold gct_time
  rw [hor]
  unfold to_s64
  congr 1
  · split_ifs <;> omega
  · omega

/-- Claim C30.  When `ravb_ptp_time_write` writes a timestamp (the request
succeeds and no load is pending), it writes one word to each of `GTO0`, `GTO1`
and `GTO2`; the formula of `ravb_ptp_time_read` on these three words gives the
timestamp back when `0 <= tv_sec < 2^48` and `0 <= tv_nsec < 2^32`, and it
gives the seconds back only when `0 <= tv_sec < 2^48`: for `tv_sec >= 2^48` and
for negative `tv_sec` the seconds read differ from the seconds written. -/
theorem time_words_round_trip (ndev : net_device) (t : tcr_io) (gccr : Nat) (ts : timespec64)
    (h1 : t.wait1 = 0) (h2 : t.wait2 = 0) (hl : gccr &&& GCCR_LTO = 0) :
    ∃ w0 w1 w2,
      reg_writes Reg.GTO0 (ravb_ptp_time_write ndev t gccr ts).1.priv.io =
        reg_writes Reg.GTO0 ndev.priv.io ++ [w0] ∧
      reg_writes Reg.GTO1 (ravb_ptp_time_write ndev t gccr ts).1.priv.io =
        reg_writes Reg.GTO1 ndev.priv.io ++ [w1] ∧
      reg_writes Reg.GTO2 (ravb_ptp_time_write ndev t gccr ts).1.priv.io =
        reg_writes Reg.GTO2 ndev.priv.io ++ [w2] ∧
      (0 ≤ ts.tv_sec → ts.tv_sec < 281474976710656 → 0 ≤ ts.tv_nsec →
        ts.tv_nsec < 4294967296 → gct_time w0 w1 w2 = ts) ∧
      ((gct_time w0 w1 w2).tv_sec = ts.tv_sec ↔
        0 ≤ ts.tv_sec ∧ ts.tv_sec < 281474976710656) := by
  obtain ⟨_, _, _, _, _, d6⟩ := time_write_done ndev t gccr ts h1 h2 hl
  have hq := ((tcr_request_cases ndev t GCCR_TCR_RESET).2 h1).2.2.2.2.2
  refine ⟨(ts.tv_nsec % 4294967296).toNat, (ts.tv_sec % 4294967296).toNat,
    (ts.tv_sec / 4294967296 % 65536).toNat, ?_, ?_, ?_, ?_, ?_⟩
  · rw [d6, hq]
    simp [reg_writes, List.filterMap_append]
  · rw [d6, hq]
    simp [reg_writes, List.filterMap_append]
  · rw [d6, hq]
    simp [reg_writes, List.filterMap_append]
  · intro a b c d
    rw [gct_time_of_words, Int.emod_eq_of_lt a b, Int.emod_eq_of_lt c d]
  · rw [gct_time_of_words]
    show ts.tv_sec % 281474976710656 = ts.tv_sec ↔ _
    omega

/-- Witness for C30: 3 * 2^32 + 5 seconds and 7 nanoseconds are written as the
words 7, 5, 3, from which the read formula gives the timestamp back. -/
theorem time_words_round_trip_witness :
    reg_writes Reg.GTO0 (ravb_ptp_time_write
      ⟨ravb_ptp_init 16 0, ⟨0x40000000, 0x40000000, false, ⟨0, 0⟩⟩, .RCAR_GEN3⟩
      ⟨0, 0, 0⟩ 0 ⟨3 * 4294967296 + 5, 7⟩).1.priv.io = [7] ∧
    reg_writes Reg.GTO1 (ravb_ptp_time_write
      ⟨ravb_ptp_init 16 0, ⟨0x40000000, 0x40000000, false, ⟨0, 0⟩⟩, .RCAR_GEN3⟩
      ⟨0, 0, 0⟩ 0 ⟨3 * 4294967296 + 5, 7⟩).1.priv.io = [5] ∧
    reg_writes Reg.GTO2 (ravb_ptp_time_write
      ⟨ravb_ptp_init 16 0, ⟨0x40000000, 0x40000000, false, ⟨0, 0⟩⟩, .RCAR_GEN3⟩
      ⟨0, 0, 0⟩ 0 ⟨3 * 4294967296 + 5, 7⟩).1.priv.io = [3] ∧
    gct_time 7 5 3 = ⟨3 * 4294967296 + 5, 7⟩ ∧
    (∃ w0 w1 w2,
      reg_writes Reg.GTO0 (ravb_ptp_time_write
        ⟨ravb_ptp_init 16 0, ⟨0x40000000, 0x40000000, false, ⟨0, 0⟩⟩, .RCAR_GEN3⟩
        ⟨0, 0, 0⟩ 0 ⟨3 * 4294967296 + 5, 7⟩).1.priv.io =
          reg_writes Reg.GTO0 (ravb_ptp_init 16 0).io ++ [w0] ∧
      reg_writes Reg.GTO1 (ravb_ptp_time_write
        ⟨ravb_ptp_init 16 0, ⟨0x40000000, 0x40000000, false, ⟨0, 0⟩⟩, .RCAR_GEN3⟩
        ⟨0, 0, 0⟩ 0 ⟨3 * 4294967296 + 5, 7⟩).1.priv.io =
          reg_writes Reg.GTO1 (ravb_ptp_init 16 0).io ++ [w1] ∧
      reg_writes Reg.GTO2 (ravb_ptp_time_write
        ⟨ravb_ptp_init 16 0, ⟨0x40000000, 0x40000000, false, ⟨0, 0⟩⟩, .RCAR_GEN3⟩
        ⟨0, 0, 0⟩ 0 ⟨3 * 4294967296 + 5, 7⟩).1.priv.io =
          reg_writes Reg.GTO2 (ravb_ptp_init 16 0).io ++ [w2] ∧
      gct_time w0 w1 w2 = ⟨3 * 4294967296 + 5, 7⟩) :=
  have h := time_words_round_trip
    ⟨ravb_ptp_init 16 0, ⟨0x40000000, 0x40000000, false, ⟨0, 0⟩⟩, .RCAR_GEN3⟩
    ⟨0, 0, 0⟩ 0 ⟨3 * 4294967296 + 5, 7⟩ rfl rfl (by decide)
  ⟨by decide, by decide, by decide, by decide,
    h.elim fun w0 hw0 => hw0.elim fun w1 hw1 => hw1.elim fun w2 hw2 =>
      ⟨w0, w1, w2, hw2.1, hw2.2.1, hw2.2.2.1,
        hw2.2.2.2.1 (by decide) (by decide) (by decide) (by decide)⟩⟩

/-- The seconds `2^48` and `-1` do not survive the round trip: the words
written for them read back as 0 and as `2^48 - 1`. -/
theorem time_words_lose_high_seconds :
    reg_writes Reg.GTO1 (ravb_ptp_time_write
      ⟨ravb_ptp_init 16 0, ⟨0x40000000, 0x40000000, false, ⟨0, 0⟩⟩, .RCAR_GEN3⟩
      ⟨0, 0, 0⟩ 0 ⟨281474976710656, 7⟩).1.priv.io = [0] ∧
    reg_writes Reg.GTO2 (ravb_ptp_time_write
      ⟨ravb_ptp_init 16 0, ⟨0x40000000, 0x40000000, false, ⟨0, 0⟩⟩, .RCAR_GEN3⟩
      ⟨0, 0, 0⟩ 0 ⟨281474976710656, 7⟩).1.priv.io = [0] ∧
    (gct_time 7 0 0).tv_sec = 0 ∧
    reg_writes Reg.GTO1 (ravb_ptp_time_write
      ⟨ravb_ptp_init 16 0, ⟨0x40000000, 0x40000000, false, ⟨0, 0⟩⟩, .RCAR_GEN3⟩
      ⟨0, 0, 0⟩ 0 ⟨-1, 7⟩).1.priv.io = [4294967295] ∧
    reg_writes Reg.GTO2 (ravb_ptp_time_write
      ⟨ravb_ptp_init 16 0, ⟨0x40000000, 0x40000000, false, ⟨0, 0⟩⟩, .RCAR_GEN3⟩
      ⟨0, 0, 0⟩ 0 ⟨-1, 7⟩).1.priv.io = [65535] ∧
    (gct_time 7 4294967295 65535).tv_sec = 281474976710655 := by
  decide

/-! ## The interrupt handler -/

/-- What `ravb_ptp_update_compare` keeps, whatever the control register holds:
the clock data, the chip, the contexts, the interrupt mask, and the list of
values written to `GIS`. -/
theorem update_compare_keeps (ndev : net_device) (gccr ns : Nat) :
    (ravb_ptp_update_compare ndev gccr ns).1.ptp = ndev.ptp ∧
    (ravb_ptp_update_compare ndev gccr ns).1.chip_id = ndev.chip_id ∧
    (ravb_ptp_update_compare ndev gccr ns).1.priv.avtp_capture = ndev.priv.avtp_capture ∧
    (ravb_ptp_update_compare ndev gccr ns).1.priv.gic = ndev.priv.gic ∧
    reg_writes Reg.GIS (ravb_ptp_update_compare ndev gccr ns).1.priv.io =
      reg_writes Reg.GIS ndev.priv.io := by
  unfold ravb_ptp_update_compare
  dsimp only
  split_ifs <;> simp [ravb_write, reg_writes, List.filterMap_append]

/-- The lists that the capture interrupt leaves depend on the lists it finds
only, not on the rest of the state. -/
theorem capture_int_congr (n : Nat) (p q : ravb_private) (gis : Nat) (gcat : Nat → Nat)
    (h : p.avtp_capture = q.avtp_capture) :
    (ravb_avtp_capture_int n p gis gcat).1.avtp_capture =
      (ravb_avtp_capture_int n q gis gcat).1.avtp_capture := by
  apply List.ext_getElem?
  intro v
  rw [capture_int_lists, capture_int_lists, h]

/-- The capture interrupt leaves the same lists after a write to `GIS` as
before it. -/
theorem capture_int_after_gis_write (n : Nat) (priv : ravb_private) (data gis : Nat)
    (gcat : Nat → Nat) :
    (ravb_avtp_capture_int n (ravb_write priv data Reg.GIS) gis gcat).1.avtp_capture =
      (ravb_avtp_capture_int n priv gis gcat).1.avtp_capture :=
  capture_int_congr n _ priv gis gcat rfl

/-- A write to `GIS` keeps the contexts and the interrupt mask and appends the
value to the list of values written to `GIS`. -/
theorem gis_write_keeps (priv : ravb_private) (data : Nat) :
    (ravb_write priv data Reg.GIS).avtp_capture = priv.avtp_capture ∧
    (ravb_write priv data Reg.GIS).gic = priv.gic ∧
    reg_writes Reg.GIS (ravb_write priv data Reg.GIS).io =
      reg_writes Reg.GIS priv.io ++ [data] := by
  simp [ravb_write, reg_writes, List.filterMap_append]

/-- Claim C27.  With `gis` the value read from `GIS` masked by the enable mask:
`ravb_ptp_interrupt` passes the external-timestamp event, with the value of
`GCPT`, exactly when `GIS_PTCF` is set in `gis`; it runs
`ravb_avtp_capture_int` on the contexts exactly when one of the bits 16..31 is
set; it advances the target of the periodic output exactly when `GIS_PTMF` is
set (and the period is not 0); the values it writes to `GIS` are, in this
order, one acknowledge per pending class, each with zeros at the bits of that
class (and at the reserved bits) only; the result is `IRQ_HANDLED` exactly
when one of the three classes is pending; and when none is, the device is
returned as it was, with no register written. -/
theorem interrupt_dispatch (n : Nat) (ndev : net_device) (gis_read gcpt : Nat)
    (gcat : Nat → Nat) (gccr : Nat) :
    ((ravb_ptp_interrupt n ndev gis_read gcpt gcat gccr).2.1 = true ↔
      ((gis_read &&& ndev.priv.gic) &&& GIS_PTCF ≠ 0 ∨
        (gis_read &&& ndev.priv.gic) &&& 0xffff0000 ≠ 0 ∨
        (gis_read &&& ndev.priv.gic) &&& GIS_PTMF ≠ 0)) ∧
    (ravb_ptp_interrupt n ndev gis_read gcpt gcat gccr).2.2 =
      (if (gis_read &&& ndev.priv.gic) &&& GIS_PTCF ≠ 0 then [gcpt] else []) ∧
    (ravb_ptp_interrupt n ndev gis_read gcpt gcat gccr).1.priv.avtp_capture =
      (if (gis_read &&& ndev.priv.gic) &&& 0xffff0000 ≠ 0 then
        (ravb_avtp_capture_int n ndev.priv (gis_read &&& ndev.priv.gic) gcat).1.avtp_capture
      else ndev.priv.avtp_capture) ∧
    (ravb_ptp_interrupt n ndev gis_read gcpt gcat gccr).1.ptp =
      (if (gis_read &&& ndev.priv.gic) &&& GIS_PTMF ≠ 0 ∧ ndev.ptp.perout.period ≠ 0 then
        { ndev.ptp with
          perout := { ndev.ptp.perout with
            target := (ndev.ptp.perout.target + ndev.ptp.perout.period) % 4294967296 } }
      else ndev.ptp) ∧
    reg_writes Reg.GIS (ravb_ptp_interrupt n ndev gis_read gcpt gcat gccr).1.priv.io =
      reg_writes Reg.GIS ndev.priv.io ++
        (if (gis_read &&& ndev.priv.gic) &&& GIS_PTCF ≠ 0 then
          [0xFFFFFFFF ^^^ (GIS_PTCF ||| GIS_RESERVED)] else []) ++
        (if (gis_read &&& ndev.priv.gic) &&& 0xffff0000 ≠ 0 then
          [0xFFFFFFFF ^^^ (((gis_read &&& ndev.priv.gic) &&& 0xffff0000) ||| GIS_RESERVED)]
          else []) ++
        (if (gis_read &&& ndev.priv.gic) &&& GIS_PTMF ≠ 0 then
          [0xFFFFFFFF ^^^ (GIS_PTMF ||| GIS_RESERVED)] else []) ∧
    (ravb_ptp_interrupt n ndev gis_read gcpt gcat gccr).1.priv.gic = ndev.priv.gic ∧
    (ravb_ptp_interrupt n ndev gis_read gcpt gcat gccr).1.chip_id = ndev.chip_id ∧
    (¬ ((gis_read &&& ndev.priv.gic) &&& GIS_PTCF ≠ 0 ∨
        (gis_read &&& ndev.priv.gic) &&& 0xffff0000 ≠ 0 ∨
        (gis_read &&& ndev.priv.gic) &&& GIS_PTMF ≠ 0) →
      ravb_ptp_interrupt n ndev gis_read gcpt gcat gccr = (ndev, false, [])) := by
  generalize hg : gis_read &&& ndev.priv.gic = gis
  unfold ravb_ptp_interrupt
  dsimp only
  rw [hg]
  by_cases h1 : gis &&& GIS_PTCF ≠ 0 <;> by_cases h2 : gis &&& 0xffff0000 ≠ 0 <;>
    by_cases h3 : gis &&& GIS_PTMF ≠ 0 <;> by_cases h4 : ndev.ptp.perout.period ≠ 0 <;>
    simp only [h1, h2, h3, h4, ne_eq, if_true, if_false, not_true_eq_false,
      not_false_eq_true, and_self, and_true, and_false, true_or, or_true, or_self, or_false,
      true_and, List.append_nil, List.nil_append, update_compare_keeps, gis_write_keeps,
      capture_int_regs, capture_int_after_gis_write, List.append_assoc, List.singleton_append,
      List.cons_append, iff_true, iff_false, Bool.false_eq_true, implies_true, false_implies,
      Bool.true_eq_false, iff_self]

/-! ## The periodic output -/

/-- A write to `GIS` adds nothing to the list of values written to `GPTC`. -/
theorem gis_write_gptc (priv : ravb_private) (data : Nat) :
    reg_writes Reg.GPTC (ravb_write priv data Reg.GIS).io = reg_writes Reg.GPTC priv.io := by
  simp [ravb_write, reg_writes, List.filterMap_append]

/-- The match branch of `ravb_ptp_interrupt`.  The handler keeps the interrupt
mask.  When it does not advance the target (`GIS_PTMF` not pending, or
`period = 0`) it keeps the clock data and writes nothing to `GPTC`.  When it
does, the result is the acknowledge written after
`ravb_ptp_update_compare d gccr target`, where `d` is the device at that point:
its clock data has the target advanced by the period modulo `2^32`, and
nothing has been written to `GPTC` since the handler was entered. -/
theorem interrupt_match_cases (n : Nat) (ndev : net_device) (gis_read gcpt : Nat)
    (gcat : Nat → Nat) (gccr : Nat) :
    (ravb_ptp_interrupt n ndev gis_read gcpt gcat gccr).1.priv.gic = ndev.priv.gic ∧
    (¬ ((gis_read &&& ndev.priv.gic) &&& GIS_PTMF ≠ 0 ∧ ndev.ptp.perout.period ≠ 0) →
      (ravb_ptp_interrupt n ndev gis_read gcpt gcat gccr).1.ptp = ndev.ptp ∧
      reg_writes Reg.GPTC (ravb_ptp_interrupt n ndev gis_read gcpt gcat gccr).1.priv.io =
        reg_writes Reg.GPTC ndev.priv.io) ∧
    ((gis_read &&& ndev.priv.gic) &&& GIS_PTMF ≠ 0 → ndev.ptp.perout.period ≠ 0 →
      ∃ d : net_device,
        d.ptp = { ndev.ptp with
          perout := { ndev.ptp.perout with
            target := (ndev.ptp.perout.target + ndev.ptp.perout.period) % 4294967296 } } ∧
        d.chip_id = ndev.chip_id ∧
        d.priv.gic = ndev.priv.gic ∧
        reg_writes Reg.GPTC d.priv.io = reg_writes Reg.GPTC ndev.priv.io ∧
        (ravb_ptp_interrupt n ndev gis_read gcpt gcat gccr).1 =
          { (ravb_ptp_update_compare d gccr
                ((ndev.ptp.perout.target + ndev.ptp.perout.period) % 4294967296)).1 with
            priv := ravb_write
              (ravb_ptp_update_compare d gccr
                ((ndev.ptp.perout.target + ndev.ptp.perout.period) % 4294967296)).1.priv
              (0xFFFFFFFF ^^^ (GIS_PTMF ||| GIS_RESERVED)) Reg.GIS }) := by
  generalize hg : gis_read &&& ndev.priv.gic = gis
  unfold ravb_ptp_interrupt
  dsimp only
  rw [hg]
  refine ⟨?_, ?_, ?_⟩
  · by_cases h1 : gis &&& GIS_PTCF ≠ 0 <;> by_cases h2 : gis &&& 0xffff0000 ≠ 0 <;>
      by_cases h3 : gis &&& GIS_PTMF ≠ 0 <;> by_cases h4 : ndev.ptp.perout.period ≠ 0 <;>
      simp only [h1, h2, h3, h4, ne_eq, if_true, if_false, not_true_eq_false,
        not_false_eq_true, update_compare_keeps, gis_write_keeps, capture_int_regs]
  · intro hno
    by_cases h3 : gis &&& GIS_PTMF ≠ 0
    · have h4 : ndev.ptp.perout.period = 0 := by
        by_contra hc
        exact hno ⟨h3, hc⟩
      by_cases h1 : gis &&& GIS_PTCF ≠ 0 <;> by_cases h2 : gis &&& 0xffff0000 ≠ 0 <;>
        simp only [h1, h2, h3, h4, ne_eq, if_true, if_false, not_true_eq_false,
          not_false_eq_true, gis_write_keeps, gis_write_gptc, capture_int_regs, and_self]
    · by_cases h1 : gis &&& GIS_PTCF ≠ 0 <;> by_cases h2 : gis &&& 0xffff0000 ≠ 0 <;>
        simp only [h1, h2, h3, ne_eq, if_true, if_false, not_true_eq_false,
          not_false_eq_true, gis_write_keeps, gis_write_gptc, capture_int_regs, and_self]
  · intro h3 h4
    by_cases h1 : gis &&& GIS_PTCF ≠ 0 <;> by_cases h2 : gis &&& 0xffff0000 ≠ 0 <;>
      simp only [h1, h2, h3, h4, ne_eq, if_true, if_false, not_true_eq_false,
        not_false_eq_true] <;>
      refine ⟨_, ?_, ?_, ?_, ?_, rfl⟩ <;>
      simp only [gis_write_keeps, gis_write_gptc, capture_int_regs]

/-- The clock data after a match interrupt with a period that is not 0: the
target has advanced by the period modulo `2^32`, whatever the control register
holds. -/
theorem interrupt_match_ptp (n : Nat) (ndev : net_device) (gis_read gcpt : Nat)
    (gcat : Nat → Nat) (gccr : Nat)
    (h3 : (gis_read &&& ndev.priv.gic) &&& GIS_PTMF ≠ 0) (h4 : ndev.ptp.perout.period ≠ 0) :
    (ravb_ptp_interrupt n ndev gis_read gcpt gcat gccr).1.ptp =
      { ndev.ptp with
        perout := { ndev.ptp.perout with
          target := (ndev.ptp.perout.target + ndev.ptp.perout.period) % 4294967296 } } := by
  obtain ⟨d, d1, _, _, _, d5⟩ :=
    (interrupt_match_cases n ndev gis_read gcpt gcat gccr).2.2 h3 h4
  rw [d5]
  show (ravb_ptp_update_compare d gccr _).1.ptp = _
  rw [(update_compare_keeps _ _ _).1, d1]

/-- The slot of the periodic output after a sequence of match interrupts. -/
theorem interrupts_rearm (n : Nat) (evs : List (Nat × Nat × (Nat → Nat) × Nat)) :
    ∀ ndev : net_device, ndev.ptp.perout.period ≠ 0 →
      ndev.ptp.perout.target < 4294967296 →
      (∀ ev ∈ evs, (ev.1 &&& ndev.priv.gic) &&& GIS_PTMF ≠ 0) →
      (ptp_interrupts n ndev evs).ptp.perout.target =
        (ndev.ptp.perout.target + evs.length * ndev.ptp.perout.period) % 4294967296 ∧
      (ptp_interrupts n ndev evs).ptp.perout.period = ndev.ptp.perout.period := by
  induction evs with
  | nil =>
    intro ndev _ ht _
    refine ⟨?_, rfl⟩
    show ndev.ptp.perout.target = _
    simp only [List.length_nil, Nat.zero_mul, Nat.add_zero]
    omega
  | cons ev evs ih =>
    intro ndev hp ht hev
    have h3 := hev ev (List.mem_cons_self _ _)
    have hptp := interrupt_match_ptp n ndev ev.1 ev.2.1 ev.2.2.1 ev.2.2.2 h3 hp
    have hgic := (interrupt_match_cases n ndev ev.1 ev.2.1 ev.2.2.1 ev.2.2.2).1
    have ih1 := ih (ravb_ptp_interrupt n ndev ev.1 ev.2.1 ev.2.2.1 ev.2.2.2).1
      (by rw [hptp]; exact hp)
      (by rw [hptp]; exact Nat.mod_lt _ (by decide))
      (by
        intro e he
        rw [hgic]
        exact hev e (List.mem_cons_of_mem _ he))
    rw [hptp] at ih1
    show (ptp_interrupts n (ravb_ptp_interrupt n ndev ev.1 ev.2.1 ev.2.2.1 ev.2.2.2).1
        evs).ptp.perout.target = _ ∧
      (ptp_interrupts n (ravb_ptp_interrupt n ndev ev.1 ev.2.1 ev.2.2.1 ev.2.2.2).1
        evs).ptp.perout.period = _
    rw [ih1.1, ih1.2]
    refine ⟨?_, rfl⟩
    simp only [List.length_cons, Nat.succ_mul]
    omega

/-- Claim C26.  For a slot of the periodic output with target `s` and period
`p`.  When `p` is not 0: after every sequence of `k` interrupts with the match
flag pending and unmasked the slot holds the target `(s + k * p) mod 2^32` and
the period `p`; and each such interrupt is the acknowledge written after
`ravb_ptp_update_compare d gccr ((s + p) mod 2^32)`, where the device `d` holds
the new target already and has had nothing written to `GPTC` by the handler,
so that the target has advanced also when that call returns `-EBUSY`, in which
case nothing is written to `GPTC`.  When `p` is 0 an interrupt leaves the
clock data, hence the target, unchanged and writes nothing to `GPTC`. -/
theorem perout_rearm (n : Nat) (ndev : net_device) (s p : Nat)
    (hs : ndev.ptp.perout.target = s) (hp : ndev.ptp.perout.period = p)
    (hs32 : s < 4294967296) :
    (p ≠ 0 → ∀ evs : List (Nat × Nat × (Nat → Nat) × Nat),
      (∀ ev ∈ evs, (ev.1 &&& ndev.priv.gic) &&& GIS_PTMF ≠ 0) →
      (ptp_interrupts n ndev evs).ptp.perout = ⟨(s + evs.length * p) % 4294967296, p⟩) ∧
    (p ≠ 0 → ∀ (gis_read gcpt : Nat) (gcat : Nat → Nat) (gccr : Nat),
      (gis_read &&& ndev.priv.gic) &&& GIS_PTMF ≠ 0 →
      (ravb_ptp_interrupt n ndev gis_read gcpt gcat gccr).1.ptp.perout =
        ⟨(s + p) % 4294967296, p⟩ ∧
      ∃ d : net_device,
        d.ptp.perout = ⟨(s + p) % 4294967296, p⟩ ∧
        d.ptp.current_addend = ndev.ptp.current_addend ∧
        reg_writes Reg.GPTC d.priv.io = reg_writes Reg.GPTC ndev.priv.io ∧
        (ravb_ptp_interrupt n ndev gis_read gcpt gcat gccr).1 =
          { (ravb_ptp_update_compare d gccr ((s + p) % 4294967296)).1 with
            priv := ravb_write
              (ravb_ptp_update_compare d gccr ((s + p) % 4294967296)).1.priv
              (0xFFFFFFFF ^^^ (GIS_PTMF ||| GIS_RESERVED)) Reg.GIS } ∧
        (gccr &&& GCCR_LPTC ≠ 0 →
          ravb_ptp_update_compare d gccr ((s + p) % 4294967296) = (d, -EBUSY_errno) ∧
          reg_writes Reg.GPTC (ravb_ptp_interrupt n ndev gis_read gcpt gcat gccr).1.priv.io =
            reg_writes Reg.GPTC ndev.priv.io)) ∧
    (p = 0 → ∀ (gis_read gcpt : Nat) (gcat : Nat → Nat) (gccr : Nat),
      (ravb_ptp_interrupt n ndev gis_read gcpt gcat gccr).1.ptp = ndev.ptp ∧
      (ravb_ptp_interrupt n ndev gis_read gcpt gcat gccr).1.ptp.perout.target = s ∧
      reg_writes Reg.GPTC (ravb_ptp_interrupt n ndev gis_read gcpt gcat gccr).1.priv.io =
        reg_writes Reg.GPTC ndev.priv.io) := by
  subst hs hp
  refine ⟨?_, ?_, ?_⟩
  · intro hp evs hev
    obtain ⟨a, b⟩ := interrupts_rearm n evs ndev hp hs32 hev
    cases hq : (ptp_interrupts n ndev evs).ptp.perout with
    | mk t q =>
      rw [hq] at a b
      simp only at a b
      rw [a, b]
  · intro hp gis_read gcpt gcat gccr h3
    have hptp := interrupt_match_ptp n ndev gis_read gcpt gcat gccr h3 hp
    obtain ⟨d, d1, _, _, d4, d5⟩ :=
      (interrupt_match_cases n ndev gis_read gcpt gcat gccr).2.2 h3 hp
    refine ⟨by rw [hptp], d, by rw [d1], by rw [d1], d4, d5, ?_⟩
    intro hb
    have hbusy := (update_compare_cases d gccr
      ((ndev.ptp.perout.target + ndev.ptp.perout.period) % 4294967296)).1 hb
    refine ⟨hbusy, ?_⟩
    rw [d5, hbusy]
    show reg_writes Reg.GPTC (ravb_write d.priv _ Reg.GIS).io = _
    rw [gis_write_gptc, d4]
  · intro hp gis_read gcpt gcat gccr
    have h := (interrupt_match_cases n ndev gis_read gcpt gcat gccr).2.1
      (fun hc => hc.2 hp)
    exact ⟨h.1, by rw [h.1], h.2⟩

/-- Witness for C26: a slot with target 4294967000 and period 1000 on a device
whose match interrupt is unmasked; after three match interrupts, the second
of which finds a compare load pending, the target is
`(4294967000 + 3 * 1000) mod 2^32 = 2704`. -/
theorem perout_rearm_witness :
    (ptp_interrupts 16
      ⟨ravb_ptp_init 16 4, ⟨0x40000000, 0x40000000, false, ⟨4294967000, 1000⟩⟩, .RCAR_GEN3⟩
      [(4, 0, fun _ => 0, 0), (4, 0, fun _ => 0, 0x10), (4, 0, fun _ => 0, 0)]).ptp.perout =
      ⟨2704, 1000⟩ :=
  (perout_rearm 16
    ⟨ravb_ptp_init 16 4, ⟨0x40000000, 0x40000000, false, ⟨4294967000, 1000⟩⟩, .RCAR_GEN3⟩
    4294967000 1000 rfl rfl (by decide)).1 (by decide)
    [(4, 0, fun _ => 0, 0), (4, 0, fun _ => 0, 0x10), (4, 0, fun _ => 0, 0)] (by decide)

/-! ## Cursor bounds -/

/-- Claim C28.  For every context with `ring_size >= 1` whose cursors start at
0: after every sequence of capture events, calls of `get` (of either kind, up
to the return or the sleep, and the end of a sleep) and calls of `flush`, the
context has the same `ring_size` and both cursors are below it; and from every
context whose cursors are below `ring_size`, a capture event, a call of `get`
(for each behaviour of the wait that returns a context with the same
`ring_size` and cursors below it) and a call of `flush` keep `ring_size` and
leave both cursors below it.  So the index `write_pos` at which the handler
stores and the index `read_pos` at which `get` loads are below `ring_size`. -/
theorem cursor_bounds_preserved (c : ravb_avtp_capture) (hsize : 1 ≤ c.ring_size)
    (hr : c.read_pos = 0) (hw : c.write_pos = 0) :
    (∀ evs : List ring_event,
      (ring_steps c evs).ring_size = c.ring_size ∧
      (ring_steps c evs).read_pos < (ring_steps c evs).ring_size ∧
      (ring_steps c evs).write_pos < (ring_steps c evs).ring_size) ∧
    (∀ d : ravb_avtp_capture, d.read_pos < d.ring_size → d.write_pos < d.ring_size →
      (∀ t : Nat,
        (ravb_avtp_capture_int_unit d t).1.ring_size = d.ring_size ∧
        (ravb_avtp_capture_int_unit d t).1.read_pos < d.ring_size ∧
        (ravb_avtp_capture_int_unit d t).1.write_pos < d.ring_size) ∧
      (∀ (avtp wait : Bool) (sleep : ravb_avtp_capture → ravb_avtp_capture × Bool),
        (sleep d).1.ring_size = d.ring_size → (sleep d).1.read_pos < d.ring_size →
        (sleep d).1.write_pos < d.ring_size →
        (ravb_mediats_get avtp d wait sleep).1.ring_size = d.ring_size ∧
        (ravb_mediats_get avtp d wait sleep).1.read_pos < d.ring_size ∧
        (ravb_mediats_get avtp d wait sleep).1.write_pos < d.ring_size) ∧
      (ravb_mediats_flush d).1.ring_size = d.ring_size ∧
      (ravb_mediats_flush d).1.read_pos < d.ring_size ∧
      (ravb_mediats_flush d).1.write_pos < d.ring_size) := by
  constructor
  · intro evs
    obtain ⟨a, b, e⟩ := ring_steps_cursors evs c (by omega) (by omega)
    exact ⟨a, by omega, by omega⟩
  · intro d hdr hdw
    have hpos : 0 < d.ring_size := by omega
    refine ⟨?_, ?_, rfl, hdw, hdw⟩
    · intro t
      exact ring_step_cursors d (ring_event.capture t) hdr hdw
    · intro avtp wait sleep s1 s2 s3
      simp only [ravb_mediats_get, ravb_mediats_get_tail]
      split_ifs <;>
        first
        | exact ⟨rfl, hdr, hdw⟩
        | exact ⟨rfl, Nat.mod_lt _ hpos, hdw⟩
        | exact ⟨s1, s2, s3⟩
        | exact ⟨s1, by rw [s1]; exact Nat.mod_lt _ hpos, s3⟩

/-- Witness for C28: a context of 3 slots with cursors at 0; after three
capture events, a blocking `get`, the end of its sleep and a `flush`, the
cursors are below 3. -/
theorem cursor_bounds_preserved_witness :
    (ring_steps (open_ctx 7 2 4 3)
      [.capture 1, .capture 2, .capture 3, .get true true, .wake false, .flush]).ring_size
        = (open_ctx 7 2 4 3).ring_size ∧
    (ring_steps (open_ctx 7 2 4 3)
      [.capture 1, .capture 2, .capture 3, .get true true, .wake false, .flush]).read_pos <
      (ring_steps (open_ctx 7 2 4 3)
        [.capture 1, .capture 2, .capture 3, .get true true, .wake false, .flush]).ring_size ∧
    (ring_steps (open_ctx 7 2 4 3)
      [.capture 1, .capture 2, .capture 3, .get true true, .wake false, .flush]).write_pos <
      (ring_steps (open_ctx 7 2 4 3)
        [.capture 1, .capture 2, .capture 3, .get true true, .wake false, .flush]).ring_size :=
  (cursor_bounds_preserved (open_ctx 7 2 4 3) (by decide) rfl rfl).1
    [.capture 1, .capture 2, .capture 3, .get true true, .wake false, .flush]

/-! ## The ring size given to open -/

/-- The code at the input that breaks claim C29: `ravb_mediats_open` for unit
0 with prescaler 1 and `ring_size = 0`, with a successful allocation.  The
function does not test `ring_size`: it returns the handle, and the context it
has linked in the list of unit 0 has `ring_size = 0` and an array of no
slot. -/
theorem open_accepts_ring_size_zero :
    (ravb_mediats_open 16 (ravb_ptp_init 16 0) (some 4096) 0 0 1 0).2 = some 4096 ∧
    ((ravb_mediats_open 16 (ravb_ptp_init 16 0) (some 4096) 0 0 1 0).1.avtp_capture.getD 0
      []).map (fun ctx => (ctx.addr, ctx.ring_size, ctx.timestamps)) = [(4096, 0, [])] := by
  decide

end Ravb
